import Mathlib

/-!
# ArduinoUserInterface: button events, menu cursor, slider, display cursor and settings

A shallow embedding of `src/ArduinoUserInterface.cpp` / `.h`.

* `byte` values are `Nat` with explicit `% 256` where the source narrows to a byte.
* `unsigned long` (the `millis()` clock, `buttonEventStartTime`) is `Nat` with explicit
  `% 2 ^ 32` where the source adds to it.
* `int` is the 16-bit `int` of the AVR target, an `Int` wrapped by `toInt16`;
  `unsigned int` is an `Int` wrapped by `toUInt16`.
* `long` is an `Int` wrapped by `toInt32`; the bytes of the display cursor and of the
  EEPROM are `Int`, with explicit `% 256` where the source narrows to a byte, because they
  enter `int` arithmetic.
* the hardware reads (`readButtonsToGetButtonID()`, `millis()`) are the inputs of a poll.
-/

namespace ArduinoUserInterface

/-! ## Constants of `ArduinoUserInterface.h` -/

@[simp] def MENU_ITEM_TYPE_MAIN_MENU_HEADER : Nat := 0
@[simp] def MENU_ITEM_TYPE_SUB_MENU_HEADER : Nat := 1
@[simp] def MENU_ITEM_TYPE_SUB_MENU : Nat := 2
@[simp] def MENU_ITEM_TYPE_COMMAND : Nat := 3
@[simp] def MENU_ITEM_TYPE_TOGGLE : Nat := 4
@[simp] def MENU_ITEM_TYPE_END_OF_MENU : Nat := 5

@[simp] def MAX_MENU_ITEMS_TO_DISPLAY : Nat := 4

@[simp] def BUTTON_ID_NONE : Nat := 0
@[simp] def BUTTON_ID_SELECT : Nat := 1
@[simp] def BUTTON_ID_BACK : Nat := 2
@[simp] def BUTTON_ID_UP : Nat := 3
@[simp] def BUTTON_ID_DOWN : Nat := 4

@[simp] def BUTTON_NO_EVENT : Nat := 0x00
@[simp] def BUTTON_PUSHED_EVENT : Nat := 0x40
@[simp] def BUTTON_RELEASED_EVENT : Nat := 0x80
@[simp] def BUTTON_REPEAT_EVENT : Nat := 0xc0

@[simp] def SLIDER_DISPLAY_VALUE_CHANGED : Nat := 1
@[simp] def SLIDER_DISPLAY_VALUE_SET : Nat := 2
@[simp] def SLIDER_DISPLAY_CANCELED : Nat := 3

/-! ## Constants of the button section of `ArduinoUserInterface.cpp` -/

@[simp] def WAITING_FOR_BUTTON_DOWN_STATE : Nat := 0
@[simp] def CONFIRM_BUTTON_DOWN_STATE : Nat := 1
@[simp] def WAITING_FOR_BUTTON_UP_STATE : Nat := 2
@[simp] def WAITING_FOR_BUTTON_UP_AFTER_AUTO_REPEAT_STATE : Nat := 3
@[simp] def WAITING_FOR_ALL_BUTTONS_UP_STATE : Nat := 4
@[simp] def CONFIRM_ALL_BUTTONS_UP_STATE : Nat := 5

@[simp] def BUTTON_DEBOUNCE_PERIOD : Nat := 30
@[simp] def BUTTON_AUTO_REPEAT_DELAY : Nat := 800
@[simp] def BUTTON_AUTO_REPEAT_RATE : Nat := 130

/-! ## The button state machine -/

/-- The private members `buttonState`, `buttonID` and `buttonEventStartTime`. -/
structure Buttons where
  buttonState : Nat
  buttonID : Nat
  buttonEventStartTime : Nat
deriving DecidableEq, Repr

/-- The function `buttonsInitialize`: only `buttonState` is assigned. -/
def buttonsInitialize (s : Buttons) : Buttons :=
  { s with buttonState := WAITING_FOR_BUTTON_DOWN_STATE }

/-- The function `getButtonEvent`, one poll. `currentButtonID` is what
`readButtonsToGetButtonID()` returned and `currentTime` what `millis()` returned; the
result is the returned byte and the members after the call. The sums with
`buttonEventStartTime` are `unsigned long` sums, taken modulo `2 ^ 32 = 4294967296`; the returned
sums are narrowed to a byte. -/
def getButtonEvent (s : Buttons) (currentButtonID currentTime : Nat) : Nat × Buttons :=
  if s.buttonState = WAITING_FOR_BUTTON_DOWN_STATE ∧ currentButtonID = BUTTON_ID_NONE then
    (BUTTON_NO_EVENT, s)
  else if s.buttonState = WAITING_FOR_BUTTON_DOWN_STATE then
    (BUTTON_NO_EVENT,
      { buttonID := currentButtonID
        buttonState := CONFIRM_BUTTON_DOWN_STATE
        buttonEventStartTime := currentTime })
  else if s.buttonState = CONFIRM_BUTTON_DOWN_STATE then
    if currentTime < (s.buttonEventStartTime + BUTTON_DEBOUNCE_PERIOD) % 4294967296 then
      (BUTTON_NO_EVENT, s)
    else if currentButtonID ≠ s.buttonID then
      (BUTTON_NO_EVENT, { s with buttonState := WAITING_FOR_BUTTON_DOWN_STATE })
    else
      ((BUTTON_PUSHED_EVENT + s.buttonID) % 256,
        { s with buttonEventStartTime := currentTime
                 buttonState := WAITING_FOR_BUTTON_UP_STATE })
  else if s.buttonState = WAITING_FOR_BUTTON_UP_STATE then
    if currentButtonID ≠ s.buttonID then
      (BUTTON_NO_EVENT, { s with buttonState := WAITING_FOR_ALL_BUTTONS_UP_STATE })
    else if currentTime < (s.buttonEventStartTime + BUTTON_AUTO_REPEAT_DELAY) % 4294967296 then
      (BUTTON_NO_EVENT, s)
    else
      ((BUTTON_REPEAT_EVENT + s.buttonID) % 256,
        { s with buttonEventStartTime := currentTime
                 buttonState := WAITING_FOR_BUTTON_UP_AFTER_AUTO_REPEAT_STATE })
  else if s.buttonState = WAITING_FOR_BUTTON_UP_AFTER_AUTO_REPEAT_STATE then
    if currentButtonID ≠ s.buttonID then
      (BUTTON_NO_EVENT, { s with buttonState := WAITING_FOR_ALL_BUTTONS_UP_STATE })
    else if currentTime < (s.buttonEventStartTime + BUTTON_AUTO_REPEAT_RATE) % 4294967296 then
      (BUTTON_NO_EVENT, s)
    else
      ((BUTTON_REPEAT_EVENT + s.buttonID) % 256,
        { s with buttonEventStartTime := currentTime })
  else if s.buttonState = WAITING_FOR_ALL_BUTTONS_UP_STATE then
    if currentButtonID ≠ BUTTON_ID_NONE then
      (BUTTON_NO_EVENT, s)
    else
      (BUTTON_NO_EVENT,
        { s with buttonState := CONFIRM_ALL_BUTTONS_UP_STATE
                 buttonEventStartTime := currentTime })
  else if s.buttonState = CONFIRM_ALL_BUTTONS_UP_STATE then
    if currentTime < (s.buttonEventStartTime + BUTTON_DEBOUNCE_PERIOD) % 4294967296 then
      (BUTTON_NO_EVENT, s)
    else if currentButtonID ≠ BUTTON_ID_NONE then
      (BUTTON_NO_EVENT, { s with buttonState := WAITING_FOR_ALL_BUTTONS_UP_STATE })
    else
      ((BUTTON_RELEASED_EVENT + s.buttonID) % 256,
        { s with buttonState := WAITING_FOR_BUTTON_DOWN_STATE })
  else
    (BUTTON_NO_EVENT, s)

/-- The function `intInRange`. -/
def intInRange (value lowerValue upperValue : Int) : Bool :=
  if value ≤ upperValue ∧ value ≥ lowerValue then true else false

/-- The constant `DOWN_BUTTON_VALUE`, the `int` initialised with `1024.0 * 0.658`. -/
def DOWN_BUTTON_VALUE : Int := 673

/-- The constant `UP_BUTTON_VALUE`, the `int` initialised with `1024.0 * 0.476`. -/
def UP_BUTTON_VALUE : Int := 487

/-- The constant `BACK_BUTTON_VALUE`, the `int` initialised with `1024.0 * 0.312`. -/
def BACK_BUTTON_VALUE : Int := 319

/-- The constant `SELECT_BUTTON_VALUE`, the `int` initialised with `1024.0 * 0.0`. -/
def SELECT_BUTTON_VALUE : Int := 0

/-- The function `readButtonsToGetButtonID`, on the value `analogRead` returned. -/
def readButtonsToGetButtonID (buttonAnalogValue : Int) : Nat :=
  if intInRange buttonAnalogValue (DOWN_BUTTON_VALUE - 40) (DOWN_BUTTON_VALUE + 40) then
    BUTTON_ID_DOWN
  else if intInRange buttonAnalogValue (UP_BUTTON_VALUE - 40) (UP_BUTTON_VALUE + 40) then
    BUTTON_ID_UP
  else if intInRange buttonAnalogValue (BACK_BUTTON_VALUE - 40) (BACK_BUTTON_VALUE + 40) then
    BUTTON_ID_BACK
  else if intInRange buttonAnalogValue (SELECT_BUTTON_VALUE - 0) (SELECT_BUTTON_VALUE + 80) then
    BUTTON_ID_SELECT
  else
    BUTTON_ID_NONE

/-- The bytes returned by successive calls of `getButtonEvent`, one per poll
`(sample, time)`, in order. -/
def pollEvents (s : Buttons) : List (Nat × Nat) → List Nat
  | [] => []
  | p :: ps => (getButtonEvent s p.1 p.2).1 :: pollEvents (getButtonEvent s p.1 p.2).2 ps

/-- The members after successive calls of `getButtonEvent`. -/
def pollState (s : Buttons) : List (Nat × Nat) → Buttons
  | [] => s
  | p :: ps => pollState (getButtonEvent s p.1 p.2).2 ps

/-- A returned byte is a Pushed event of one of the four buttons. -/
def isPushed (e : Nat) : Prop := ∃ b, 1 ≤ b ∧ b ≤ 4 ∧ e = BUTTON_PUSHED_EVENT + b

/-- A returned byte is a Released event of one of the four buttons. -/
def isReleased (e : Nat) : Prop := ∃ b, 1 ≤ b ∧ b ≤ 4 ∧ e = BUTTON_RELEASED_EVENT + b

/-- A returned byte is a Repeated event of one of the four buttons. -/
def isRepeated (e : Nat) : Prop := ∃ b, 1 ≤ b ∧ b ≤ 4 ∧ e = BUTTON_REPEAT_EVENT + b

/-- A press is being tracked and its Pushed event has been returned. -/
def Pressed (s : Buttons) : Prop :=
  s.buttonState = WAITING_FOR_BUTTON_UP_STATE ∨
  s.buttonState = WAITING_FOR_BUTTON_UP_AFTER_AUTO_REPEAT_STATE ∨
  s.buttonState = WAITING_FOR_ALL_BUTTONS_UP_STATE ∨
  s.buttonState = CONFIRM_ALL_BUTTONS_UP_STATE

/-- The tracked id is one of the four buttons whenever a press is being tracked. -/
def IdOk (s : Buttons) : Prop :=
  s.buttonState = WAITING_FOR_BUTTON_DOWN_STATE ∨ (1 ≤ s.buttonID ∧ s.buttonID ≤ 4)

/-! ## The menu -/

/-- An entry of a menu table, the struct `MENU_ITEM`. A function pointer is the number of
the function it points to and a table pointer the number of the table in `MenuMemory`;
`none` is `NULL`. -/
structure MENU_ITEM where
  MenuItemType : Nat
  MenuItemText : String
  MenuItemFunction : Option Nat
  MenuItemSubMenu : Option Nat
deriving DecidableEq, Repr

/-- The menu tables of the application, read-only; `some k` points to table `k`. -/
abbrev MenuMemory := List (List MENU_ITEM)

/-- The private members `currentMenuTable`, `currentMenuItemIdx` and
`currentMenuTopLineItemIdx`. -/
structure MenuCursor where
  currentMenuTable : Option Nat
  currentMenuItemIdx : Nat
  currentMenuTopLineItemIdx : Nat
deriving DecidableEq, Repr

/-- What the menu code does to the display and to the application, in order. A row is
recorded with its table index, its display line and whether it is drawn selected. -/
inductive MenuEffect where
  | clearDisplaySpace
  | drawRow (menuIdx menuLine : Nat) (menuItemSelected : Bool)
  | callToggle (f : Nat) (toggleMenuChangeStateFlag : Bool)
  | callCommand (f : Nat)
  | drawButtonBar (leftButtonText rightButtonText : String)
deriving DecidableEq, Repr

/-- The read `table[idx]`; `none` when the pointer is `NULL` or dangling or the index is
outside the table, where the read is undefined. -/
def readMenuItem (mem : MenuMemory) (table : Option Nat) (idx : Nat) : Option MENU_ITEM :=
  match table with
  | none => none
  | some k =>
    match mem[k]? with
    | none => none
    | some t => t[idx]?

/-- The function `drawMenuItem`. A Toggle row first calls the entry's function with
`toggleMenuChangeStateFlag = false`; entries that are neither SubMenu, Command nor Toggle
draw nothing. -/
def drawMenuItem (mem : MenuMemory) (s : MenuCursor) (menuIdx menuLine : Nat) :
    Option (List MenuEffect) :=
  match readMenuItem mem s.currentMenuTable menuIdx with
  | none => none
  | some item =>
    let menuItemSelected := decide (menuIdx = s.currentMenuItemIdx)
    if item.MenuItemType = MENU_ITEM_TYPE_SUB_MENU then
      some [MenuEffect.drawRow menuIdx menuLine menuItemSelected]
    else if item.MenuItemType = MENU_ITEM_TYPE_COMMAND then
      some [MenuEffect.drawRow menuIdx menuLine menuItemSelected]
    else if item.MenuItemType = MENU_ITEM_TYPE_TOGGLE then
      match item.MenuItemFunction with
      | none => none
      | some f =>
        some [MenuEffect.callToggle f false, MenuEffect.drawRow menuIdx menuLine menuItemSelected]
    else
      some []

/-- The loop of `drawMenu`, with `n` display lines left to draw. -/
def drawMenuLines (mem : MenuMemory) (s : MenuCursor) :
    Nat → Nat → Nat → Option (List MenuEffect)
  | 0, _, _ => some []
  | n + 1, menuIdx, menuLine =>
    match readMenuItem mem s.currentMenuTable menuIdx with
    | none => none
    | some item =>
      if item.MenuItemType = MENU_ITEM_TYPE_END_OF_MENU then
        some []
      else
        match drawMenuItem mem s menuIdx menuLine with
        | none => none
        | some row =>
          match drawMenuLines mem s n ((menuIdx + 1) % 256) (menuLine + 1) with
          | none => none
          | some rows => some (row ++ rows)

/-- The function `drawMenu`. -/
def drawMenu (mem : MenuMemory) (s : MenuCursor) : Option (List MenuEffect) :=
  drawMenuLines mem s MAX_MENU_ITEMS_TO_DISPLAY s.currentMenuTopLineItemIdx 0

/-- The function `selectAndDrawMenu`. -/
def selectAndDrawMenu (mem : MenuMemory) (menu : Option Nat) :
    Option (MenuCursor × List MenuEffect) :=
  let s : MenuCursor :=
    { currentMenuTable := menu, currentMenuItemIdx := 1, currentMenuTopLineItemIdx := 1 }
  match drawMenu mem s with
  | none => none
  | some rows =>
    match readMenuItem mem s.currentMenuTable 0 with
    | none => none
    | some header =>
      if header.MenuItemType = MENU_ITEM_TYPE_MAIN_MENU_HEADER ∧
          header.MenuItemSubMenu ≠ none then
        some (s, MenuEffect.clearDisplaySpace :: rows ++ [MenuEffect.drawButtonBar "Select" ""])
      else
        some (s,
          MenuEffect.clearDisplaySpace :: rows ++ [MenuEffect.drawButtonBar "Select" "Back"])

/-- The function `executeMenuItem`. The display line passed for a Toggle row is the `int`
difference of the two byte indices narrowed to a byte. -/
def executeMenuItem (mem : MenuMemory) (s : MenuCursor) :
    Option (MenuCursor × List MenuEffect) :=
  match readMenuItem mem s.currentMenuTable s.currentMenuItemIdx with
  | none => none
  | some item =>
    if item.MenuItemType = MENU_ITEM_TYPE_SUB_MENU then
      selectAndDrawMenu mem item.MenuItemSubMenu
    else if item.MenuItemType = MENU_ITEM_TYPE_COMMAND then
      match item.MenuItemFunction with
      | none => none
      | some f =>
        match selectAndDrawMenu mem s.currentMenuTable with
        | none => none
        | some (s', out) => some (s', MenuEffect.callCommand f :: out)
    else if item.MenuItemType = MENU_ITEM_TYPE_TOGGLE then
      match item.MenuItemFunction with
      | none => none
      | some f =>
        match drawMenuItem mem s s.currentMenuItemIdx
            ((s.currentMenuItemIdx + 256 - s.currentMenuTopLineItemIdx) % 256) with
        | none => none
        | some row => some (s, MenuEffect.callToggle f true :: row)
    else
      some (s, [])

/-- One turn of the loop of `displayAndExecuteMenu` for the byte `buttonEvent` returned by
`getButtonEvent`: the cursor afterwards, whether the function returned to its caller, and
the effects. `none` when the turn makes an undefined read or call. -/
def menuLoopBody (mem : MenuMemory) (s : MenuCursor) (buttonEvent : Nat) :
    Option (MenuCursor × Bool × List MenuEffect) :=
  if buttonEvent = BUTTON_ID_DOWN + BUTTON_PUSHED_EVENT ∨
      buttonEvent = BUTTON_ID_DOWN + BUTTON_REPEAT_EVENT then
    let newMenuItemIdx := (s.currentMenuItemIdx + 1) % 256
    match readMenuItem mem s.currentMenuTable newMenuItemIdx with
    | none => none
    | some item =>
      if item.MenuItemType = MENU_ITEM_TYPE_END_OF_MENU then
        some (s, false, [])
      else
        let s1 := { s with currentMenuItemIdx := newMenuItemIdx }
        let s2 :=
          if (s1.currentMenuItemIdx : Int) - (s1.currentMenuTopLineItemIdx : Int) ≥
              (MAX_MENU_ITEMS_TO_DISPLAY : Int) then
            { s1 with currentMenuTopLineItemIdx := (s1.currentMenuTopLineItemIdx + 1) % 256 }
          else s1
        match drawMenu mem s2 with
        | none => none
        | some rows => some (s2, false, rows)
  else if buttonEvent = BUTTON_ID_UP + BUTTON_PUSHED_EVENT ∨
      buttonEvent = BUTTON_ID_UP + BUTTON_REPEAT_EVENT then
    let newMenuItemIdx := (s.currentMenuItemIdx + 255) % 256
    if newMenuItemIdx = 0 then
      some (s, false, [])
    else
      let s1 := { s with currentMenuItemIdx := newMenuItemIdx }
      let s2 :=
        if (s1.currentMenuItemIdx : Int) - (s1.currentMenuTopLineItemIdx : Int) < 0 then
          { s1 with currentMenuTopLineItemIdx := (s1.currentMenuTopLineItemIdx + 255) % 256 }
        else s1
      match drawMenu mem s2 with
      | none => none
      | some rows => some (s2, false, rows)
  else if buttonEvent = BUTTON_ID_SELECT + BUTTON_PUSHED_EVENT then
    match executeMenuItem mem s with
    | none => none
    | some (s', out) => some (s', false, out)
  else if buttonEvent = BUTTON_ID_BACK + BUTTON_PUSHED_EVENT then
    match readMenuItem mem s.currentMenuTable 0 with
    | none => none
    | some header =>
      if header.MenuItemType = MENU_ITEM_TYPE_SUB_MENU_HEADER then
        match selectAndDrawMenu mem header.MenuItemSubMenu with
        | none => none
        | some (s', out) => some (s', false, out)
      else if header.MenuItemType = MENU_ITEM_TYPE_MAIN_MENU_HEADER then
        if header.MenuItemSubMenu = none then
          some (s, true, [])
        else
          some (s, false, [])
      else
        some (s, false, [])
  else
    some (s, false, [])

/-- The loop of `displayAndExecuteMenu` over the bytes returned by its successive calls of
`getButtonEvent`; it stops at the turn that returns to the caller. -/
def menuLoop (mem : MenuMemory) : MenuCursor → List Nat →
    Option (MenuCursor × Bool × List MenuEffect)
  | s, [] => some (s, false, [])
  | s, buttonEvent :: rest =>
    match menuLoopBody mem s buttonEvent with
    | none => none
    | some (s', true, out) => some (s', true, out)
    | some (s', false, out) =>
      match menuLoop mem s' rest with
      | none => none
      | some (s'', r, out') => some (s'', r, out ++ out')

/-- The function `displayAndExecuteMenu`, run on the bytes returned by its calls of
`getButtonEvent`: the cursor, whether it has returned to its caller, and the effects. -/
def displayAndExecuteMenu (mem : MenuMemory) (menu : Option Nat) (events : List Nat) :
    Option (MenuCursor × Bool × List MenuEffect) :=
  match selectAndDrawMenu mem menu with
  | none => none
  | some (s, out) =>
    match menuLoop mem s events with
    | none => none
    | some (s', r, out') => some (s', r, out ++ out')

/-- A well-formed table with `N` real entries: header at 0, entries 1..N that are SubMenu
with a table, Command or Toggle with a function, the end-of-menu entry at `N + 1`; a
SubMenu header points to its parent table. -/
def TableWF (mem : MenuMemory) (t : List MENU_ITEM) (N : Nat) : Prop :=
  1 ≤ N ∧ N + 1 ≤ 255 ∧
  (∃ h, t[0]? = some h ∧
    (h.MenuItemType = MENU_ITEM_TYPE_MAIN_MENU_HEADER ∨
      (h.MenuItemType = MENU_ITEM_TYPE_SUB_MENU_HEADER ∧
        ∃ k, h.MenuItemSubMenu = some k ∧ k < mem.length))) ∧
  (∀ i, 1 ≤ i → i ≤ N → ∃ item, t[i]? = some item ∧
    ((item.MenuItemType = MENU_ITEM_TYPE_SUB_MENU ∧
        ∃ k, item.MenuItemSubMenu = some k ∧ k < mem.length) ∨
      (item.MenuItemType = MENU_ITEM_TYPE_COMMAND ∧ item.MenuItemFunction ≠ none) ∨
      (item.MenuItemType = MENU_ITEM_TYPE_TOGGLE ∧ item.MenuItemFunction ≠ none))) ∧
  (∃ e, t[N + 1]? = some e ∧ e.MenuItemType = MENU_ITEM_TYPE_END_OF_MENU)

/-- Every table of the application is well-formed. -/
def MemoryWF (mem : MenuMemory) : Prop := ∀ t ∈ mem, ∃ N, TableWF mem t N

/-- The cursor invariant: the current table is a well-formed table with `N` real entries
and `topVisibleIndex <= selectedIndex < topVisibleIndex + 4`, `1 <= topVisibleIndex`,
`selectedIndex <= N`. -/
def CursorInv (mem : MenuMemory) (s : MenuCursor) : Prop :=
  ∃ k t N, s.currentMenuTable = some k ∧ mem[k]? = some t ∧ TableWF mem t N ∧
    s.currentMenuTopLineItemIdx ≤ s.currentMenuItemIdx ∧
    s.currentMenuItemIdx < s.currentMenuTopLineItemIdx + MAX_MENU_ITEMS_TO_DISPLAY ∧
    1 ≤ s.currentMenuTopLineItemIdx ∧ s.currentMenuItemIdx ≤ N

/-! ## The integer slider -/

/-- The value of a 16-bit two's-complement `int` whose bits are those of `x`. -/
def toInt16 (x : Int) : Int := (x + 32768) % 65536 - 32768

/-- The value of a 16-bit `unsigned int` whose bits are those of `x`. -/
def toUInt16 (x : Int) : Int := x % 65536

/-- The private members `sliderDisplayMinValue`, `sliderDisplayMaxValue`,
`sliderDisplayStep`, `sliderDisplayValue` (all `int`) and `sliderDisplayRepeatCount`
(`unsigned int`). -/
structure Slider where
  sliderDisplayMinValue : Int
  sliderDisplayMaxValue : Int
  sliderDisplayStep : Int
  sliderDisplayValue : Int
  sliderDisplayRepeatCount : Int
deriving DecidableEq, Repr

/-- What the slider code does to the display and to the application, in order. -/
inductive SliderEffect where
  | clearDisplaySpace
  | printLabel
  | drawSlider (sliderDisplayValue : Int)
  | drawButtonBar (leftButtonText rightButtonText : String)
  | callback (action : Nat) (value : Int)
deriving DecidableEq, Repr

/-- The statement `stepSize = sliderDisplayStep * ((sliderDisplayRepeatCount / 16) + 1)`:
the product is an `unsigned int` product, stored in the `int` `stepSize`. -/
def sliderStepSize (sliderDisplayStep sliderDisplayRepeatCount : Int) : Int :=
  toInt16 (toUInt16 (toUInt16 sliderDisplayStep *
    toUInt16 (sliderDisplayRepeatCount / 16 + 1)))

/-- The block of `case BUTTON_ID_DOWN + BUTTON_REPEAT_EVENT` in `displaySlider`: the
members afterwards and the effects. The `int` subtraction is taken modulo `2 ^ 16`. -/
def sliderDown (s : Slider) : Slider × List SliderEffect :=
  let s1 := { s with sliderDisplayRepeatCount := toUInt16 (s.sliderDisplayRepeatCount + 1) }
  let stepSize := sliderStepSize s1.sliderDisplayStep s1.sliderDisplayRepeatCount
  let newSliderValue := toInt16 (s1.sliderDisplayValue - stepSize)
  let newSliderValue :=
    if newSliderValue < s1.sliderDisplayMinValue then s1.sliderDisplayMinValue
    else newSliderValue
  if newSliderValue = s1.sliderDisplayValue then
    (s1, [])
  else
    ({ s1 with sliderDisplayValue := newSliderValue },
      [SliderEffect.callback SLIDER_DISPLAY_VALUE_CHANGED newSliderValue,
        SliderEffect.drawSlider newSliderValue])

/-- The block of `case BUTTON_ID_UP + BUTTON_REPEAT_EVENT` in `displaySlider`. The `int`
addition is taken modulo `2 ^ 16`. -/
def sliderUp (s : Slider) : Slider × List SliderEffect :=
  let s1 := { s with sliderDisplayRepeatCount := toUInt16 (s.sliderDisplayRepeatCount + 1) }
  let stepSize := sliderStepSize s1.sliderDisplayStep s1.sliderDisplayRepeatCount
  let newSliderValue := toInt16 (s1.sliderDisplayValue + stepSize)
  let newSliderValue :=
    if newSliderValue > s1.sliderDisplayMaxValue then s1.sliderDisplayMaxValue
    else newSliderValue
  if newSliderValue = s1.sliderDisplayValue then
    (s1, [])
  else
    ({ s1 with sliderDisplayValue := newSliderValue },
      [SliderEffect.callback SLIDER_DISPLAY_VALUE_CHANGED newSliderValue,
        SliderEffect.drawSlider newSliderValue])

/-- One turn of the loop of `displaySlider` for the byte `buttonEvent` returned by
`getButtonEvent`: the members afterwards, whether the function returned to its caller,
and the effects. A Pushed case resets the repeat count and falls through into the
Repeated case. -/
def sliderLoopBody (s : Slider) (buttonEvent : Nat) : Slider × Bool × List SliderEffect :=
  if buttonEvent = BUTTON_ID_DOWN + BUTTON_PUSHED_EVENT then
    ((sliderDown { s with sliderDisplayRepeatCount := 0 }).1, false,
      (sliderDown { s with sliderDisplayRepeatCount := 0 }).2)
  else if buttonEvent = BUTTON_ID_DOWN + BUTTON_REPEAT_EVENT then
    ((sliderDown s).1, false, (sliderDown s).2)
  else if buttonEvent = BUTTON_ID_UP + BUTTON_PUSHED_EVENT then
    ((sliderUp { s with sliderDisplayRepeatCount := 0 }).1, false,
      (sliderUp { s with sliderDisplayRepeatCount := 0 }).2)
  else if buttonEvent = BUTTON_ID_UP + BUTTON_REPEAT_EVENT then
    ((sliderUp s).1, false, (sliderUp s).2)
  else if buttonEvent = BUTTON_ID_SELECT + BUTTON_PUSHED_EVENT then
    (s, true, [SliderEffect.callback SLIDER_DISPLAY_VALUE_SET s.sliderDisplayValue])
  else if buttonEvent = BUTTON_ID_BACK + BUTTON_PUSHED_EVENT then
    (s, true, [SliderEffect.callback SLIDER_DISPLAY_CANCELED 0])
  else
    (s, false, [])

/-- The loop of `displaySlider` over the bytes returned by its successive calls of
`getButtonEvent`; it stops at the turn that returns to the caller. -/
def sliderLoop : Slider → List Nat → Slider × Bool × List SliderEffect
  | s, [] => (s, false, [])
  | s, buttonEvent :: rest =>
    match sliderLoopBody s buttonEvent with
    | (s', true, out) => (s', true, out)
    | (s', false, out) =>
      match sliderLoop s' rest with
      | (s'', r, out') => (s'', r, out ++ out')

/-! ## The needle of the integer slider -/

/-- The value of a 32-bit two's-complement `long` whose bits are those of `x`. -/
def toInt32 (x : Int) : Int := (x + 2147483648) % 4294967296 - 2147483648

@[simp] def LCD_WIDTH_IN_PIXELS : Int := 84
@[simp] def LCD_LAST_COLUMN_X : Int := LCD_WIDTH_IN_PIXELS - 1
@[simp] def SLIDER_FRAME_LEFT_X : Int := 0
@[simp] def SLIDER_FRAME_RIGHT_X : Int := LCD_LAST_COLUMN_X
@[simp] def SLIDER_NEEDLE_PADDING_FROM_FRAME : Int := 3
@[simp] def SLIDER_NEEDLE_LEFT : Int := SLIDER_FRAME_LEFT_X + SLIDER_NEEDLE_PADDING_FROM_FRAME
@[simp] def SLIDER_NEEDLE_WIDTH : Int :=
  (SLIDER_FRAME_RIGHT_X - SLIDER_FRAME_LEFT_X) - (2 * SLIDER_NEEDLE_PADDING_FROM_FRAME)

/-- The value that `drawSlider` assigns to the byte `needleLength`: the difference
`sliderDisplayValue - sliderDisplayMinValue` is taken in `long` and multiplied by
`SLIDER_NEEDLE_WIDTH`, the divisor `sliderDisplayMaxValue - sliderDisplayMinValue` is
taken in the 16-bit `int` and then widened, the `long` division truncates towards zero,
and the quotient is cut to a byte. The result is `none` when the divisor is 0: the code
has no test for it and C leaves the division undefined. -/
def drawSliderNeedleLength (s : Slider) : Option Int :=
  let divisor := toInt32 (toInt16 (s.sliderDisplayMaxValue - s.sliderDisplayMinValue))
  if divisor = 0 then none
  else
    some ((toInt32 (toInt32 (s.sliderDisplayValue - s.sliderDisplayMinValue) *
      SLIDER_NEEDLE_WIDTH)).tdiv divisor % 256)

/-- The needle position in the words of the specification:
`round((value − min) / (max − min) × innerWidth)` with the inner width 77, over the
rational numbers. -/
def roundedNeedle (minValue maxValue value : Int) : Int :=
  round ((((value - minValue : Int) : ℚ) / ((maxValue - minValue : Int) : ℚ)) * 77)

/-! ## The slider display and the example menus -/

/-- The function `displaySlider`, run on the bytes returned by its calls of
`getButtonEvent`. `repeatCount` is the value the member `sliderDisplayRepeatCount` has
when the function is entered; the function does not assign it. The result is `none` when
the call of `drawSlider` before the loop divides by zero; the divisor depends on the
bounds only, so that the later calls of `drawSlider` are defined when the first one is. -/
def displaySlider (minValue maxValue step initialValue : Int) (repeatCount : Int)
    (events : List Nat) : Option (Slider × Bool × List SliderEffect) :=
  let s : Slider :=
    { sliderDisplayMinValue := minValue
      sliderDisplayMaxValue := maxValue
      sliderDisplayValue := initialValue
      sliderDisplayStep := step
      sliderDisplayRepeatCount := repeatCount }
  match drawSliderNeedleLength s with
  | none => none
  | some _ =>
    match sliderLoop s events with
    | (s', r, out) =>
      some (s', r,
        [SliderEffect.clearDisplaySpace, SliderEffect.printLabel,
          SliderEffect.drawSlider initialValue, SliderEffect.drawButtonBar "Set" "Cancel"] ++
          out)

/-- The main menu table of the header comment of `ArduinoUserInterface.cpp`, as table 0:
a main menu that links back to itself, with a Command, a Toggle and a SubMenu entry. -/
def mainMenu : List MENU_ITEM :=
  [ ⟨MENU_ITEM_TYPE_MAIN_MENU_HEADER, "", none, some 0⟩,
    ⟨MENU_ITEM_TYPE_COMMAND, "Contrast", some 0, none⟩,
    ⟨MENU_ITEM_TYPE_TOGGLE, "Sound", some 1, none⟩,
    ⟨MENU_ITEM_TYPE_SUB_MENU, "Settings", none, some 1⟩,
    ⟨MENU_ITEM_TYPE_END_OF_MENU, "", none, none⟩ ]

/-- A sub menu of `mainMenu` with five Command entries, as table 1. -/
def settingsMenu : List MENU_ITEM :=
  [ ⟨MENU_ITEM_TYPE_SUB_MENU_HEADER, "", none, some 0⟩,
    ⟨MENU_ITEM_TYPE_COMMAND, "One", some 2, none⟩,
    ⟨MENU_ITEM_TYPE_COMMAND, "Two", some 3, none⟩,
    ⟨MENU_ITEM_TYPE_COMMAND, "Three", some 4, none⟩,
    ⟨MENU_ITEM_TYPE_COMMAND, "Four", some 5, none⟩,
    ⟨MENU_ITEM_TYPE_COMMAND, "Five", some 6, none⟩,
    ⟨MENU_ITEM_TYPE_END_OF_MENU, "", none, none⟩ ]

/-- The tables of an application with `mainMenu` and `settingsMenu`. -/
def exampleMenus : MenuMemory := [mainMenu, settingsMenu]

/-- A main menu with four Command entries that the user can leave with Back: six table
entries with the header and the end-of-menu entry, as table 0. -/
def fourItemMenu : List MENU_ITEM :=
  [ ⟨MENU_ITEM_TYPE_MAIN_MENU_HEADER, "", none, none⟩,
    ⟨MENU_ITEM_TYPE_COMMAND, "One", some 0, none⟩,
    ⟨MENU_ITEM_TYPE_COMMAND, "Two", some 1, none⟩,
    ⟨MENU_ITEM_TYPE_COMMAND, "Three", some 2, none⟩,
    ⟨MENU_ITEM_TYPE_COMMAND, "Four", some 3, none⟩,
    ⟨MENU_ITEM_TYPE_END_OF_MENU, "", none, none⟩ ]

/-- A main menu, as table 0, whose header points to table 1 and not to the menu itself. -/
def linkedMainMenu : List MENU_ITEM :=
  [ ⟨MENU_ITEM_TYPE_MAIN_MENU_HEADER, "", none, some 1⟩,
    ⟨MENU_ITEM_TYPE_SUB_MENU, "Settings", none, some 1⟩,
    ⟨MENU_ITEM_TYPE_END_OF_MENU, "", none, none⟩ ]

/-- The tables of an application with `linkedMainMenu` and `settingsMenu`. -/
def linkedMenus : MenuMemory := [linkedMainMenu, settingsMenu]

/-- An effect that neither advances a toggle nor runs a command: everything but a call of
a Toggle function with `toggleMenuChangeStateFlag = true` and a call of a Command
function. -/
def queryEffect : MenuEffect → Bool
  | MenuEffect.callToggle _ flag => !flag
  | MenuEffect.callCommand _ => false
  | _ => true

/-- A list of effects that consists of rows and of calls of Toggle functions with
`toggleMenuChangeStateFlag = false`, each call directly followed by a row. -/
def queryOnlyRows : List MenuEffect → Bool
  | [] => true
  | MenuEffect.drawRow _ _ _ :: rest => queryOnlyRows rest
  | MenuEffect.callToggle _ flag :: rest =>
    (!flag) &&
      (match rest with
        | MenuEffect.drawRow _ _ _ :: _ => true
        | _ => false) &&
      queryOnlyRows rest
  | _ => false


/-! ## Observations on a run of the integer slider -/

/-- The calls of the callback function among the effects, in order: the action and the
value of each call. -/
def sliderCallbacks : List SliderEffect → List (Nat × Int)
  | [] => []
  | SliderEffect.callback action value :: rest => (action, value) :: sliderCallbacks rest
  | _ :: rest => sliderCallbacks rest

/-- The value passed by the last call in a list of calls of the callback function, and
`initialValue` when the list is empty. -/
def lastCallbackValue (initialValue : Int) (calls : List (Nat × Int)) : Int :=
  calls.foldl (fun _ c => c.2) initialValue

/-- The candidate of a Down turn in the words of the specification: `value − stepSize`
with `stepSize = step × (repeatCount/16 + 1)`, clamped up to `min`, in the integers. `s`
holds the members when the turn begins (for a Pushed event after the reset of the repeat
count), so that the repeat count of the turn is `sliderDisplayRepeatCount + 1`. -/
def sliderDownCandidate (s : Slider) : Int :=
  max s.sliderDisplayMinValue
    (s.sliderDisplayValue -
      s.sliderDisplayStep * ((s.sliderDisplayRepeatCount + 1) / 16 + 1))

/-- The candidate of an Up turn in the words of the specification: `value + stepSize`
with `stepSize = step × (repeatCount/16 + 1)`, clamped down to `max`, in the integers. -/
def sliderUpCandidate (s : Slider) : Int :=
  min s.sliderDisplayMaxValue
    (s.sliderDisplayValue +
      s.sliderDisplayStep * ((s.sliderDisplayRepeatCount + 1) / 16 + 1))

/-- What a turn of the slider loop with the result `r` did, for the value `value` the
slider had before the turn and the candidate `candidate` of the turn: the function did not
return; if the candidate is the value, the value is kept and the callback function is not
called; otherwise the value is the candidate and the callback function is called once, with
`SLIDER_DISPLAY_VALUE_CHANGED` and the candidate. -/
def ReportsChange (value candidate : Int) (r : Slider × Bool × List SliderEffect) : Prop :=
  r.2.1 = false ∧
  (candidate = value →
    r.1.sliderDisplayValue = value ∧ sliderCallbacks r.2.2 = []) ∧
  (candidate ≠ value →
    r.1.sliderDisplayValue = candidate ∧
    sliderCallbacks r.2.2 = [(SLIDER_DISPLAY_VALUE_CHANGED, candidate)])

/-! ## The settings in the EEPROM -/

/-- The content of the EEPROM: the byte in the cell of each address. The cells are named
by the `int` address that the code passes to `EEPROM.read` and `EEPROM.write`. -/
abbrev EEPROM := Int → Int

/-- The call `EEPROM.read(address)`. -/
def EEPROM.read (eeprom : EEPROM) (address : Int) : Int := eeprom address

/-- The call `EEPROM.write(address, value)`: the content afterwards. -/
def EEPROM.write (eeprom : EEPROM) (address value : Int) : EEPROM :=
  fun a => if a = address then value else eeprom a

/-- The function `writeConfigurationInt`: the content of the EEPROM afterwards. The
addresses `EEPromAddress + 1` and `EEPromAddress + 2` are sums of the 16-bit `int`; the
bytes written are `(unsigned int)value & 0xFF` and `(unsigned int)value >> 8`. -/
def writeConfigurationInt (eeprom : EEPROM) (EEPromAddress value : Int) : EEPROM :=
  let eeprom1 :=
    if EEPROM.read eeprom EEPromAddress = 0xff then EEPROM.write eeprom EEPromAddress 0
    else eeprom
  let eeprom2 := EEPROM.write eeprom1 (toInt16 (EEPromAddress + 1)) (toUInt16 value % 256)
  EEPROM.write eeprom2 (toInt16 (EEPromAddress + 2)) (toUInt16 value / 256 % 256)

/-- The function `readConfigurationInt`: `i` is an `unsigned int`, returned as `int`. -/
def readConfigurationInt (eeprom : EEPROM) (EEPromAddress defaultValue : Int) : Int :=
  if EEPROM.read eeprom EEPromAddress = 0xff then defaultValue
  else
    let i := toUInt16 (EEPROM.read eeprom (toInt16 (EEPromAddress + 1)))
    let i := toUInt16 (i +
      toUInt16 (toUInt16 (EEPROM.read eeprom (toInt16 (EEPromAddress + 2))) * 256))
    toInt16 i

/-! ## The cursor of the display

The texts are ASCII, one byte for each character, so that `strlen` is the length of the
`String`. The display functions are followed through the members `lcdCursorColumnX` and
`lcdCursorRowY` and through what they send to the display; a character cell stands for
its six columns of pixels. -/

/-- What the display functions send to the display: the two commands of `lcdSetCursorXY`;
the six data bytes of a character, sent with the cursor members at `column` and
`lineNumber`, for the entry `fontIndex` of the font table, plain or in reverse video; and
`pixelCount` data bytes `byteOfPixels` of `lcdDrawRowOfPixels`. -/
inductive LcdWrite where
  | cursor (column lineNumber : Int)
  | character (column lineNumber fontIndex : Int) (reverse : Bool)
  | pixels (column lineNumber pixelCount byteOfPixels : Int)
deriving DecidableEq, Repr

/-- The private members `lcdCursorColumnX` and `lcdCursorRowY` (both `byte`), and what
has been sent to the display so far, in order. -/
structure Lcd where
  lcdCursorColumnX : Int
  lcdCursorRowY : Int
  written : List LcdWrite
deriving DecidableEq, Repr

/-- The function `lcdSetCursorXY`: the `int` arguments are stored in the `byte` members. -/
def lcdSetCursorXY (lcd : Lcd) (column lineNumber : Int) : Lcd :=
  { lcdCursorColumnX := column % 256
    lcdCursorRowY := lineNumber % 256
    written := lcd.written ++ [LcdWrite.cursor column lineNumber] }

/-- The index into the font table that `lcdPrintCharacter` and `lcdPrintCharacterReverse`
compute from the byte `character`. -/
def fontIndex (character : Int) : Int :=
  (if character < 0x20 ∨ character > 0x80 then 0x20 else character) - 0x20

/-- The function `lcdPrintCharacter`. -/
def lcdPrintCharacter (lcd : Lcd) (character : Int) : Lcd :=
  { lcd with
    lcdCursorColumnX := (lcd.lcdCursorColumnX + 6) % 256
    written := lcd.written ++
      [LcdWrite.character lcd.lcdCursorColumnX lcd.lcdCursorRowY (fontIndex character) false] }

/-- The function `lcdPrintCharacterReverse`. -/
def lcdPrintCharacterReverse (lcd : Lcd) (character : Int) : Lcd :=
  { lcd with
    lcdCursorColumnX := (lcd.lcdCursorColumnX + 6) % 256
    written := lcd.written ++
      [LcdWrite.character lcd.lcdCursorColumnX lcd.lcdCursorRowY (fontIndex character) true] }

/-- The loop of `lcdPrintString` over the characters that are left. -/
def lcdPrintCharacters : Lcd → List Char → Lcd
  | lcd, [] => lcd
  | lcd, c :: rest => lcdPrintCharacters (lcdPrintCharacter lcd ((c.toNat : Int) % 256)) rest

/-- The function `lcdPrintString`. -/
def lcdPrintString (lcd : Lcd) (s : String) : Lcd := lcdPrintCharacters lcd s.toList

/-- The loop of `lcdPrintStringReverse` over the characters that are left. -/
def lcdPrintCharactersReverse : Lcd → List Char → Lcd
  | lcd, [] => lcd
  | lcd, c :: rest =>
    lcdPrintCharactersReverse (lcdPrintCharacterReverse lcd ((c.toNat : Int) % 256)) rest

/-- The function `lcdPrintStringReverse`. -/
def lcdPrintStringReverse (lcd : Lcd) (s : String) : Lcd :=
  lcdPrintCharactersReverse lcd s.toList

/-- The function `lcdStringWidthInPixels`: the product `strlen(s) * 6` is cut to the
`byte` that the function returns. -/
def lcdStringWidthInPixels (s : String) : Int := toUInt16 ((s.length : Int) * 6) % 256

/-- The function `lcdDrawRowOfPixels`. -/
def lcdDrawRowOfPixels (lcd : Lcd) (X1 X2 lineNumber byteOfPixels : Int) : Lcd :=
  let lcd1 := lcdSetCursorXY lcd X1 lineNumber
  let pixelCount := toInt16 (X2 - X1 + 1)
  if pixelCount ≤ 0 then lcd1
  else
    { lcd1 with
      lcdCursorColumnX := (lcd1.lcdCursorColumnX + pixelCount) % 256
      written := lcd1.written ++ [LcdWrite.pixels X1 lineNumber pixelCount byteOfPixels] }

/-- The function `lcdFillToColumnX`. -/
def lcdFillToColumnX (lcd : Lcd) (X byteOfPixels : Int) : Lcd :=
  let X := toInt16 (X - 1)
  if X < 0 then lcd
  else lcdDrawRowOfPixels lcd lcd.lcdCursorColumnX X lcd.lcdCursorRowY byteOfPixels

/-- The function `drawMenuItem` on the display for an entry of the type
`MENU_ITEM_TYPE_TOGGLE` with the text `menuItemText`, after the call of the function of
the entry has set `toggleMenuStateText`; `menuItemSelected` is the outcome of the test
`menuIdx == currentMenuItemIdx`. -/
def drawMenuItemToggle (lcd : Lcd) (menuLine : Int) (menuItemSelected : Bool)
    (menuItemText toggleMenuStateText : String) : Lcd :=
  let lcd := lcdSetCursorXY lcd 0 menuLine
  let fillCharacter : Int := if menuItemSelected then 0xff else 0x00
  let widthOfToggleMenuStateTextInPixels := lcdStringWidthInPixels toggleMenuStateText
  let lcd := lcdFillToColumnX lcd 3 fillCharacter
  if menuItemSelected then
    let lcd := lcdPrintStringReverse lcd menuItemText
    let lcd := lcdFillToColumnX lcd
      (LCD_WIDTH_IN_PIXELS - widthOfToggleMenuStateTextInPixels) fillCharacter
    lcdPrintStringReverse lcd toggleMenuStateText
  else
    let lcd := lcdPrintString lcd menuItemText
    let lcd := lcdFillToColumnX lcd
      (LCD_WIDTH_IN_PIXELS - widthOfToggleMenuStateTextInPixels) fillCharacter
    lcdPrintString lcd toggleMenuStateText

/-- The character cells of a text printed from `column` on the line `lineNumber`, each six
columns of pixels after the one before. -/
def printedCharacters (column lineNumber : Int) (reverse : Bool) : List Char → List LcdWrite
  | [] => []
  | c :: rest =>
    LcdWrite.character column lineNumber (fontIndex ((c.toNat : Int) % 256)) reverse ::
      printedCharacters (column + 6) lineNumber reverse rest

/-! ## The Byte and Long settings in the EEPROM -/

/-- The value of a 32-bit `unsigned long` whose bits are those of `x`. -/
def toUInt32 (x : Int) : Int := x % 4294967296

/-- The function `readConfigurationByte`. -/
def readConfigurationByte (eeprom : EEPROM) (EEPromAddress defaultValue : Int) : Int :=
  if EEPROM.read eeprom EEPromAddress = 0xff then defaultValue
  else EEPROM.read eeprom (toInt16 (EEPromAddress + 1))

/-- The function `writeConfigurationLong`: the content of the EEPROM afterwards. Each
byte written is `(unsigned long)value & 0xFF`; between the writes `value = value >> 8`
shifts the signed `long`, which keeps the sign: the quotient by 256 rounded down. -/
def writeConfigurationLong (eeprom : EEPROM) (EEPromAddress value : Int) : EEPROM :=
  let eeprom1 :=
    if EEPROM.read eeprom EEPromAddress = 0xff then EEPROM.write eeprom EEPromAddress 0
    else eeprom
  let eeprom2 := EEPROM.write eeprom1 (toInt16 (EEPromAddress + 1)) (toUInt32 value % 256)
  let value1 := value / 256
  let eeprom3 := EEPROM.write eeprom2 (toInt16 (EEPromAddress + 2)) (toUInt32 value1 % 256)
  let value2 := value1 / 256
  let eeprom4 := EEPROM.write eeprom3 (toInt16 (EEPromAddress + 3)) (toUInt32 value2 % 256)
  let value3 := value2 / 256
  EEPROM.write eeprom4 (toInt16 (EEPromAddress + 4)) (toUInt32 value3 % 256)

/-- The function `readConfigurationLong`: `i` is an `unsigned long`, returned as `long`. -/
def readConfigurationLong (eeprom : EEPROM) (EEPromAddress defaultValue : Int) : Int :=
  if EEPROM.read eeprom EEPromAddress = 0xff then defaultValue
  else
    let i := toUInt32 (EEPROM.read eeprom (toInt16 (EEPromAddress + 1)))
    let i := toUInt32 (i +
      toUInt32 (toUInt32 (EEPROM.read eeprom (toInt16 (EEPromAddress + 2))) * 256))
    let i := toUInt32 (i +
      toUInt32 (toUInt32 (EEPROM.read eeprom (toInt16 (EEPromAddress + 3))) * 65536))
    let i := toUInt32 (i +
      toUInt32 (toUInt32 (EEPROM.read eeprom (toInt16 (EEPromAddress + 4))) * 16777216))
    toInt32 i

/-! ## Observations on a run of the menu -/

/-- The rows among the effects, in order: the table index, the display line and whether
the row is drawn selected. -/
def drawnRows : List MenuEffect → List (Nat × Nat × Bool)
  | [] => []
  | MenuEffect.drawRow menuIdx menuLine menuItemSelected :: rest =>
    (menuIdx, menuLine, menuItemSelected) :: drawnRows rest
  | _ :: rest => drawnRows rest

/-- A read of an entry of a menu table: the table pointer and the index. -/
abbrev MenuRead := Option Nat × Nat

/-- The table reads of `drawMenuItem`: the text, the type and the function are read from
the entry `menuIdx` of the current table. -/
def drawMenuItemReads (s : MenuCursor) (menuIdx : Nat) : List MenuRead :=
  [(s.currentMenuTable, menuIdx)]

/-- The table reads of the loop of `drawMenu`, with `n` display lines left: the type of
the entry `menuIdx` is read, and unless it is the end-of-menu entry the entry is drawn and
the loop goes on. -/
def drawMenuLinesReads (mem : MenuMemory) (s : MenuCursor) : Nat → Nat → List MenuRead
  | 0, _ => []
  | n + 1, menuIdx =>
    (s.currentMenuTable, menuIdx) ::
      match readMenuItem mem s.currentMenuTable menuIdx with
      | none => []
      | some item =>
        if item.MenuItemType = MENU_ITEM_TYPE_END_OF_MENU then []
        else drawMenuItemReads s menuIdx ++ drawMenuLinesReads mem s n ((menuIdx + 1) % 256)

/-- The table reads of `drawMenu`. -/
def drawMenuReads (mem : MenuMemory) (s : MenuCursor) : List MenuRead :=
  drawMenuLinesReads mem s MAX_MENU_ITEMS_TO_DISPLAY s.currentMenuTopLineItemIdx

/-- The table reads of `selectAndDrawMenu`: those of `drawMenu` and then the header. -/
def selectAndDrawMenuReads (mem : MenuMemory) (menu : Option Nat) : List MenuRead :=
  drawMenuReads mem
      { currentMenuTable := menu, currentMenuItemIdx := 1, currentMenuTopLineItemIdx := 1 } ++
    [(menu, 0)]

/-- The table reads of `executeMenuItem`: the selected entry, and what the case of its
type reads. -/
def executeMenuItemReads (mem : MenuMemory) (s : MenuCursor) : List MenuRead :=
  (s.currentMenuTable, s.currentMenuItemIdx) ::
    match readMenuItem mem s.currentMenuTable s.currentMenuItemIdx with
    | none => []
    | some item =>
      if item.MenuItemType = MENU_ITEM_TYPE_SUB_MENU then
        selectAndDrawMenuReads mem item.MenuItemSubMenu
      else if item.MenuItemType = MENU_ITEM_TYPE_COMMAND then
        selectAndDrawMenuReads mem s.currentMenuTable
      else if item.MenuItemType = MENU_ITEM_TYPE_TOGGLE then
        drawMenuItemReads s s.currentMenuItemIdx
      else []

/-- The table reads of one turn of the loop of `displayAndExecuteMenu`. -/
def menuLoopBodyReads (mem : MenuMemory) (s : MenuCursor) (buttonEvent : Nat) :
    List MenuRead :=
  if buttonEvent = BUTTON_ID_DOWN + BUTTON_PUSHED_EVENT ∨
      buttonEvent = BUTTON_ID_DOWN + BUTTON_REPEAT_EVENT then
    let newMenuItemIdx := (s.currentMenuItemIdx + 1) % 256
    (s.currentMenuTable, newMenuItemIdx) ::
      match readMenuItem mem s.currentMenuTable newMenuItemIdx with
      | none => []
      | some item =>
        if item.MenuItemType = MENU_ITEM_TYPE_END_OF_MENU then []
        else
          let s1 := { s with currentMenuItemIdx := newMenuItemIdx }
          let s2 :=
            if (s1.currentMenuItemIdx : Int) - (s1.currentMenuTopLineItemIdx : Int) ≥
                (MAX_MENU_ITEMS_TO_DISPLAY : Int) then
              { s1 with currentMenuTopLineItemIdx := (s1.currentMenuTopLineItemIdx + 1) % 256 }
            else s1
          drawMenuReads mem s2
  else if buttonEvent = BUTTON_ID_UP + BUTTON_PUSHED_EVENT ∨
      buttonEvent = BUTTON_ID_UP + BUTTON_REPEAT_EVENT then
    let newMenuItemIdx := (s.currentMenuItemIdx + 255) % 256
    if newMenuItemIdx = 0 then []
    else
      let s1 := { s with currentMenuItemIdx := newMenuItemIdx }
      let s2 :=
        if (s1.currentMenuItemIdx : Int) - (s1.currentMenuTopLineItemIdx : Int) < 0 then
          { s1 with currentMenuTopLineItemIdx := (s1.currentMenuTopLineItemIdx + 255) % 256 }
        else s1
      drawMenuReads mem s2
  else if buttonEvent = BUTTON_ID_SELECT + BUTTON_PUSHED_EVENT then
    executeMenuItemReads mem s
  else if buttonEvent = BUTTON_ID_BACK + BUTTON_PUSHED_EVENT then
    (s.currentMenuTable, 0) ::
      match readMenuItem mem s.currentMenuTable 0 with
      | none => []
      | some header =>
        if header.MenuItemType = MENU_ITEM_TYPE_SUB_MENU_HEADER then
          selectAndDrawMenuReads mem header.MenuItemSubMenu
        else []
  else []

/-- The table reads of the loop of `displayAndExecuteMenu` over the bytes returned by
`getButtonEvent`, up to the turn that returns to the caller. -/
def menuLoopReads (mem : MenuMemory) : MenuCursor → List Nat → List MenuRead
  | _, [] => []
  | s, buttonEvent :: rest =>
    menuLoopBodyReads mem s buttonEvent ++
      match menuLoopBody mem s buttonEvent with
      | some (s', false, _) => menuLoopReads mem s' rest
      | _ => []

/-- The table reads of `displayAndExecuteMenu`. -/
def displayAndExecuteMenuReads (mem : MenuMemory) (menu : Option Nat) (events : List Nat) :
    List MenuRead :=
  selectAndDrawMenuReads mem menu ++
    match selectAndDrawMenu mem menu with
    | some (s, _) => menuLoopReads mem s events
    | none => []

/-- A read that stays in its table: the pointer is a well-formed table of the
application, with `N` real entries, and the index is at most `N + 1`, the index of the
end-of-menu entry. -/
def ReadInBounds (mem : MenuMemory) (r : MenuRead) : Prop :=
  ∃ k t N, r.1 = some k ∧ mem[k]? = some t ∧ TableWF mem t N ∧ r.2 ≤ N + 1
/-! ## Theorems: the button state machine -/

/-- Every sample `readButtonsToGetButtonID` returns is one of the ids 0..4. -/
lemma readButtonsToGetButtonID_le (buttonAnalogValue : Int) :
    readButtonsToGetButtonID buttonAnalogValue ≤ 4 := by
  unfold readButtonsToGetButtonID
  split_ifs <;> simp

/-- One poll, by cases on the state and on the branch taken. -/
lemma getButtonEvent_cases (s : Buttons) (b t : Nat) :
    (getButtonEvent s b t = (0, s) ∧
      s.buttonState = 0 ∧ b = 0) ∨
    (getButtonEvent s b t = (0, ⟨1, b, t⟩) ∧
      s.buttonState = 0 ∧ b ≠ 0) ∨
    (getButtonEvent s b t = (0, s) ∧
      s.buttonState = 1 ∧ t < (s.buttonEventStartTime + 30) % 4294967296) ∨
    (getButtonEvent s b t = (0, ⟨0, s.buttonID, s.buttonEventStartTime⟩) ∧
      s.buttonState = 1 ∧ ¬ t < (s.buttonEventStartTime + 30) % 4294967296 ∧ b ≠ s.buttonID) ∨
    (getButtonEvent s b t = ((64 + s.buttonID) % 256, ⟨2, s.buttonID, t⟩) ∧
      s.buttonState = 1 ∧ ¬ t < (s.buttonEventStartTime + 30) % 4294967296 ∧ b = s.buttonID) ∨
    (getButtonEvent s b t = (0, ⟨4, s.buttonID, s.buttonEventStartTime⟩) ∧
      s.buttonState = 2 ∧ b ≠ s.buttonID) ∨
    (getButtonEvent s b t = (0, s) ∧
      s.buttonState = 2 ∧ b = s.buttonID ∧ t < (s.buttonEventStartTime + 800) % 4294967296) ∨
    (getButtonEvent s b t = ((192 + s.buttonID) % 256, ⟨3, s.buttonID, t⟩) ∧
      s.buttonState = 2 ∧ b = s.buttonID ∧ ¬ t < (s.buttonEventStartTime + 800) % 4294967296) ∨
    (getButtonEvent s b t = (0, ⟨4, s.buttonID, s.buttonEventStartTime⟩) ∧
      s.buttonState = 3 ∧ b ≠ s.buttonID) ∨
    (getButtonEvent s b t = (0, s) ∧
      s.buttonState = 3 ∧ b = s.buttonID ∧ t < (s.buttonEventStartTime + 130) % 4294967296) ∨
    (getButtonEvent s b t = ((192 + s.buttonID) % 256, ⟨3, s.buttonID, t⟩) ∧
      s.buttonState = 3 ∧ b = s.buttonID ∧ ¬ t < (s.buttonEventStartTime + 130) % 4294967296) ∨
    (getButtonEvent s b t = (0, s) ∧
      s.buttonState = 4 ∧ b ≠ 0) ∨
    (getButtonEvent s b t = (0, ⟨5, s.buttonID, t⟩) ∧
      s.buttonState = 4 ∧ b = 0) ∨
    (getButtonEvent s b t = (0, s) ∧
      s.buttonState = 5 ∧ t < (s.buttonEventStartTime + 30) % 4294967296) ∨
    (getButtonEvent s b t = (0, ⟨4, s.buttonID, s.buttonEventStartTime⟩) ∧
      s.buttonState = 5 ∧ ¬ t < (s.buttonEventStartTime + 30) % 4294967296 ∧ b ≠ 0) ∨
    (getButtonEvent s b t = ((128 + s.buttonID) % 256, ⟨0, s.buttonID, s.buttonEventStartTime⟩) ∧
      s.buttonState = 5 ∧ ¬ t < (s.buttonEventStartTime + 30) % 4294967296 ∧ b = 0) ∨
    (getButtonEvent s b t = (0, s) ∧
      6 ≤ s.buttonState) := by
  obtain ⟨st, id, tm⟩ := s
  by_cases h0 : st = 0
  · subst h0
    by_cases hb : b = 0
    · exact Or.inl ⟨by simp [getButtonEvent, hb], rfl, hb⟩
    · iterate 1 right
      exact Or.inl ⟨by simp [getButtonEvent, hb], rfl, hb⟩
  by_cases h1 : st = 1
  · subst h1
    by_cases ht : t < (tm + 30) % 4294967296
    · iterate 2 right
      exact Or.inl ⟨by simp [getButtonEvent, ht], rfl, ht⟩
    by_cases hb : b = id
    · iterate 4 right
      exact Or.inl ⟨by simp [getButtonEvent, ht, hb], rfl, ht, hb⟩
    · iterate 3 right
      exact Or.inl ⟨by simp [getButtonEvent, ht, hb], rfl, ht, hb⟩
  by_cases h2 : st = 2
  · subst h2
    by_cases hb : b = id
    · by_cases ht : t < (tm + 800) % 4294967296
      · iterate 6 right
        exact Or.inl ⟨by simp [getButtonEvent, ht, hb], rfl, hb, ht⟩
      · iterate 7 right
        exact Or.inl ⟨by simp [getButtonEvent, ht, hb], rfl, hb, ht⟩
    · iterate 5 right
      exact Or.inl ⟨by simp [getButtonEvent, hb], rfl, hb⟩
  by_cases h3 : st = 3
  · subst h3
    by_cases hb : b = id
    · by_cases ht : t < (tm + 130) % 4294967296
      · iterate 9 right
        exact Or.inl ⟨by simp [getButtonEvent, ht, hb], rfl, hb, ht⟩
      · iterate 10 right
        exact Or.inl ⟨by simp [getButtonEvent, ht, hb], rfl, hb, ht⟩
    · iterate 8 right
      exact Or.inl ⟨by simp [getButtonEvent, hb], rfl, hb⟩
  by_cases h4 : st = 4
  · subst h4
    by_cases hb : b = 0
    · iterate 12 right
      exact Or.inl ⟨by simp [getButtonEvent, hb], rfl, hb⟩
    · iterate 11 right
      exact Or.inl ⟨by simp [getButtonEvent, hb], rfl, hb⟩
  by_cases h5 : st = 5
  · subst h5
    by_cases ht : t < (tm + 30) % 4294967296
    · iterate 13 right
      exact Or.inl ⟨by simp [getButtonEvent, ht], rfl, ht⟩
    by_cases hb : b = 0
    · iterate 15 right
      exact Or.inl ⟨by simp [getButtonEvent, ht, hb], rfl, ht, hb⟩
    · iterate 14 right
      exact Or.inl ⟨by simp [getButtonEvent, ht, hb], rfl, ht, hb⟩
  iterate 16 right
  exact ⟨by simp [getButtonEvent, h0, h1, h2, h3, h4, h5], by simp only []; omega⟩

/-- The tracked id stays one of the four buttons. -/
lemma getButtonEvent_idOk (s : Buttons) (b t : Nat) (hs : IdOk s) (hb : b ≤ 4) :
    IdOk (getButtonEvent s b t).2 := by
  unfold IdOk at *
  rcases getButtonEvent_cases s b t with
    ⟨e, h⟩ | ⟨e, h⟩ | ⟨e, h⟩ | ⟨e, h⟩ | ⟨e, h⟩ | ⟨e, h⟩ | ⟨e, h⟩ | ⟨e, h⟩ | ⟨e, h⟩ | ⟨e, h⟩ |
    ⟨e, h⟩ | ⟨e, h⟩ | ⟨e, h⟩ | ⟨e, h⟩ | ⟨e, h⟩ | ⟨e, h⟩ | ⟨e, h⟩
  all_goals (rw [e]; simp at h hs ⊢; try omega)

/-- One poll while a press is tracked: either Released is returned and the machine is
idle, or nothing or Repeated is returned and the same press stays tracked. -/
lemma getButtonEvent_of_pressed (s : Buttons) (b t : Nat) (hs : IdOk s) (hp : Pressed s) :
    ((getButtonEvent s b t).1 = 128 + s.buttonID ∧ (getButtonEvent s b t).2.buttonState = 0) ∨
    (((getButtonEvent s b t).1 = 0 ∨ (getButtonEvent s b t).1 = 192 + s.buttonID) ∧
      Pressed (getButtonEvent s b t).2 ∧ (getButtonEvent s b t).2.buttonID = s.buttonID) := by
  unfold IdOk at *
  unfold Pressed at *
  rcases getButtonEvent_cases s b t with
    ⟨e, h⟩ | ⟨e, h⟩ | ⟨e, h⟩ | ⟨e, h⟩ | ⟨e, h⟩ | ⟨e, h⟩ | ⟨e, h⟩ | ⟨e, h⟩ | ⟨e, h⟩ | ⟨e, h⟩ |
    ⟨e, h⟩ | ⟨e, h⟩ | ⟨e, h⟩ | ⟨e, h⟩ | ⟨e, h⟩ | ⟨e, h⟩ | ⟨e, h⟩
  all_goals (rw [e]; simp at h hp hs ⊢; try omega)

/-- One poll while no press is tracked: either nothing is returned and still no press is
tracked, or Pushed is returned and the press is tracked. -/
lemma getButtonEvent_of_not_pressed (s : Buttons) (b t : Nat) (hs : IdOk s)
    (hp : ¬ Pressed s) :
    ((getButtonEvent s b t).1 = 0 ∧ ¬ Pressed (getButtonEvent s b t).2) ∨
    ((getButtonEvent s b t).1 = 64 + (getButtonEvent s b t).2.buttonID ∧
      Pressed (getButtonEvent s b t).2) := by
  unfold IdOk at *
  unfold Pressed at *
  rcases getButtonEvent_cases s b t with
    ⟨e, h⟩ | ⟨e, h⟩ | ⟨e, h⟩ | ⟨e, h⟩ | ⟨e, h⟩ | ⟨e, h⟩ | ⟨e, h⟩ | ⟨e, h⟩ | ⟨e, h⟩ | ⟨e, h⟩ |
    ⟨e, h⟩ | ⟨e, h⟩ | ⟨e, h⟩ | ⟨e, h⟩ | ⟨e, h⟩ | ⟨e, h⟩ | ⟨e, h⟩
  all_goals (rw [e]; simp at h hp hs ⊢; try omega)

/-- The idle state set by `buttonsInitialize` satisfies the id invariant. -/
lemma buttonsInitialize_idOk (s : Buttons) : IdOk (buttonsInitialize s) := by
  simp [IdOk, buttonsInitialize]

lemma buttonsInitialize_not_pressed (s : Buttons) : ¬ Pressed (buttonsInitialize s) := by
  simp [Pressed, buttonsInitialize]

lemma pressed_id (s : Buttons) (hs : IdOk s) (hp : Pressed s) :
    1 ≤ s.buttonID ∧ s.buttonID ≤ 4 := by
  unfold IdOk at hs
  unfold Pressed at hp
  simp at hs hp
  omega

/-- While a press is tracked, a Pushed event in the stream is preceded by a Released
event. -/
lemma pollEvents_pressed_released (polls : List (Nat × Nat)) :
    ∀ (s : Buttons) (b c : List Nat) (e2 : Nat), IdOk s → Pressed s →
      (∀ p ∈ polls, p.1 ≤ 4) → pollEvents s polls = b ++ e2 :: c → isPushed e2 →
      ∃ r ∈ b, isReleased r := by
  induction polls with
  | nil =>
    intro s b c e2 _ _ _ h _
    simp [pollEvents] at h
  | cons p ps ih =>
    intro s b c e2 hs hp hsample h he2
    have hid := pressed_id s hs hp
    have hs' := getButtonEvent_idOk s p.1 p.2 hs (hsample p (List.mem_cons_self _ _))
    have hstep := getButtonEvent_of_pressed s p.1 p.2 hs hp
    simp only [pollEvents] at h
    cases b with
    | nil =>
      simp only [List.nil_append, List.cons.injEq] at h
      obtain ⟨k, hk1, hk4, hk⟩ := he2
      rw [← h.1] at hk
      simp at hk
      omega
    | cons x b' =>
      simp only [List.cons_append, List.cons.injEq] at h
      rcases hstep with ⟨hrel, _⟩ | ⟨_, hp', _⟩
      · exact ⟨x, List.mem_cons_self _ _, s.buttonID, hid.1, hid.2, by rw [← h.1, hrel]; simp⟩
      · obtain ⟨r, hr, hrel⟩ := ih _ b' c e2 hs' hp'
          (fun q hq => hsample q (List.mem_cons_of_mem _ hq)) h.2 he2
        exact ⟨r, List.mem_cons_of_mem _ hr, hrel⟩

/-- From any state satisfying the id invariant, two Pushed events of the stream have a
Released event between them. -/
lemma pollEvents_pushed_pushed (polls : List (Nat × Nat)) :
    ∀ (s : Buttons) (a b c : List Nat) (e1 e2 : Nat), IdOk s →
      (∀ p ∈ polls, p.1 ≤ 4) → pollEvents s polls = a ++ e1 :: (b ++ e2 :: c) →
      isPushed e1 → isPushed e2 → ∃ r ∈ b, isReleased r := by
  induction polls with
  | nil =>
    intro s a b c e1 e2 _ _ h _ _
    simp [pollEvents] at h
  | cons p ps ih =>
    intro s a b c e1 e2 hs hsample h he1 he2
    have hs' := getButtonEvent_idOk s p.1 p.2 hs (hsample p (List.mem_cons_self _ _))
    have hrest : ∀ q ∈ ps, q.1 ≤ 4 := fun q hq => hsample q (List.mem_cons_of_mem _ hq)
    simp only [pollEvents] at h
    cases a with
    | nil =>
      simp only [List.nil_append, List.cons.injEq] at h
      have hp' : Pressed (getButtonEvent s p.1 p.2).2 := by
        by_cases hp : Pressed s
        · have hid := pressed_id s hs hp
          obtain ⟨k, hk1, hk4, hk⟩ := he1
          rw [← h.1] at hk
          rcases getButtonEvent_of_pressed s p.1 p.2 hs hp with ⟨hrel, _⟩ | ⟨hev, _⟩
          · simp at hk; omega
          · simp at hk; omega
        · obtain ⟨k, hk1, hk4, hk⟩ := he1
          rw [← h.1] at hk
          rcases getButtonEvent_of_not_pressed s p.1 p.2 hs hp with ⟨hev, _⟩ | ⟨_, hpr⟩
          · simp at hk; omega
          · exact hpr
      exact pollEvents_pressed_released ps _ b c e2 hs' hp' hrest h.2 he2
    | cons x a' =>
      simp only [List.cons_append, List.cons.injEq] at h
      exact ih _ a' b c e1 e2 hs' hrest h.2 he1 he2

/-- C1: starting from the idle state set by `buttonsInitialize`, for every sequence of polls
whose samples are button ids (0..4), whatever the poll times, two Pushed events of the
returned event stream always have a Released event between them. -/
theorem getButtonEvent_no_two_pushed_without_released (s0 : Buttons)
    (polls : List (Nat × Nat)) (hsample : ∀ p ∈ polls, p.1 ≤ 4)
    (a b c : List Nat) (e1 e2 : Nat)
    (h : pollEvents (buttonsInitialize s0) polls = a ++ [e1] ++ b ++ [e2] ++ c)
    (h1 : isPushed e1) (h2 : isPushed e2) : ∃ r ∈ b, isReleased r :=
  pollEvents_pushed_pushed polls _ a b c e1 e2 (buttonsInitialize_idOk s0) hsample
    (by simpa using h) h1 h2

/-- Witness of `getButtonEvent_no_two_pushed_without_released`: Select is pressed and
released, then Back is pressed. -/
theorem getButtonEvent_no_two_pushed_without_released_witness :
    (∀ p ∈ [(1, 0), (1, 30), (0, 31), (0, 32), (0, 62), (2, 100), (2, 130)],
        (p : Nat × Nat).1 ≤ 4) ∧
      pollEvents (buttonsInitialize ⟨0, 0, 0⟩)
          [(1, 0), (1, 30), (0, 31), (0, 32), (0, 62), (2, 100), (2, 130)] =
        [0] ++ [65] ++ [0, 0, 129, 0] ++ [66] ++ [] ∧
      isPushed 65 ∧ isPushed 66 ∧ ∃ r ∈ [0, 0, 129, 0], isReleased r :=
  ⟨by decide, by decide, ⟨1, by decide, by decide, by decide⟩,
    ⟨2, by decide, by decide, by decide⟩,
    getButtonEvent_no_two_pushed_without_released ⟨0, 0, 0⟩
      [(1, 0), (1, 30), (0, 31), (0, 32), (0, 62), (2, 100), (2, 130)] (by decide)
      [0] [0, 0, 129, 0] [] 65 66 (by decide) ⟨1, by decide, by decide, by decide⟩
      ⟨2, by decide, by decide, by decide⟩⟩

/-- The events after a prefix of the stream are the events of a run from a state that
satisfies the id invariant. -/
lemma pollEvents_suffix (a : List Nat) :
    ∀ (s : Buttons) (polls : List (Nat × Nat)) (rest : List Nat), IdOk s →
      (∀ p ∈ polls, p.1 ≤ 4) → pollEvents s polls = a ++ rest →
      ∃ s' polls', IdOk s' ∧ (∀ p ∈ polls', p.1 ≤ 4) ∧ pollEvents s' polls' = rest := by
  induction a with
  | nil =>
    intro s polls rest hs hsample h
    exact ⟨s, polls, hs, hsample, by simpa using h⟩
  | cons x a' ih =>
    intro s polls rest hs hsample h
    cases polls with
    | nil => simp [pollEvents] at h
    | cons p ps =>
      simp only [pollEvents, List.cons_append, List.cons.injEq] at h
      exact ih _ ps rest (getButtonEvent_idOk s p.1 p.2 hs (hsample p (List.mem_cons_self _ _)))
        (fun q hq => hsample q (List.mem_cons_of_mem _ hq)) h.2

/-- After a Pushed event of button `b` the machine tracks the press of `b`. -/
lemma pollEvents_head_pushed (s : Buttons) (polls : List (Nat × Nat)) (rest : List Nat)
    (b : Nat) (hb1 : 1 ≤ b) (hb4 : b ≤ 4) (hs : IdOk s) (hsample : ∀ p ∈ polls, p.1 ≤ 4)
    (h : pollEvents s polls = (64 + b) :: rest) :
    ∃ s' polls', IdOk s' ∧ Pressed s' ∧ s'.buttonID = b ∧ (∀ p ∈ polls', p.1 ≤ 4) ∧
      pollEvents s' polls' = rest := by
  cases polls with
  | nil => simp [pollEvents] at h
  | cons p ps =>
    simp only [pollEvents, List.cons.injEq] at h
    have hs' := getButtonEvent_idOk s p.1 p.2 hs (hsample p (List.mem_cons_self _ _))
    refine ⟨_, ps, hs', ?_, ?_, fun q hq => hsample q (List.mem_cons_of_mem _ hq), h.2⟩
    · by_cases hp : Pressed s
      · have hid := pressed_id s hs hp
        rcases getButtonEvent_of_pressed s p.1 p.2 hs hp with ⟨hrel, _⟩ | ⟨hev, _⟩ <;> omega
      · rcases getButtonEvent_of_not_pressed s p.1 p.2 hs hp with ⟨hev, _⟩ | ⟨_, hpr⟩
        · omega
        · exact hpr
    · by_cases hp : Pressed s
      · have hid := pressed_id s hs hp
        rcases getButtonEvent_of_pressed s p.1 p.2 hs hp with ⟨hrel, _⟩ | ⟨hev, _⟩ <;> omega
      · rcases getButtonEvent_of_not_pressed s p.1 p.2 hs hp with ⟨hev, _⟩ | ⟨hev, _⟩ <;> omega

/-- While the press of `b` is tracked, every event returned before Released of `b` is
Repeated of `b`, and the next one after those is Repeated or Released of `b`. -/
lemma pollEvents_pressed_same_id (polls : List (Nat × Nat)) :
    ∀ (s : Buttons) (m c : List Nat) (e : Nat), IdOk s → Pressed s →
      (∀ p ∈ polls, p.1 ≤ 4) → pollEvents s polls = m ++ e :: c →
      128 + s.buttonID ∉ m → e ≠ 0 → e = 192 + s.buttonID ∨ e = 128 + s.buttonID := by
  induction polls with
  | nil =>
    intro s m c e _ _ _ h
    simp [pollEvents] at h
  | cons p ps ih =>
    intro s m c e hs hp hsample h hm he
    have hs' := getButtonEvent_idOk s p.1 p.2 hs (hsample p (List.mem_cons_self _ _))
    have hstep := getButtonEvent_of_pressed s p.1 p.2 hs hp
    simp only [pollEvents] at h
    cases m with
    | nil =>
      simp only [List.nil_append, List.cons.injEq] at h
      rcases hstep with ⟨hrel, _⟩ | ⟨hev, _⟩ <;> omega
    | cons x m' =>
      simp only [List.cons_append, List.cons.injEq] at h
      simp only [List.mem_cons, not_or] at hm
      rcases hstep with ⟨hrel, _⟩ | ⟨_, hp', hid'⟩
      · omega
      · have := ih _ m' c e hs' hp' (fun q hq => hsample q (List.mem_cons_of_mem _ hq)) h.2
          (by rw [hid']; exact hm.2) he
        rw [hid'] at this
        exact this

/-- With no Pushed event in between, a Repeated or Released event carries the id of the
press tracked before. -/
lemma pollEvents_no_pushed_same_id (polls : List (Nat × Nat)) (b : Nat) :
    ∀ (s : Buttons) (m c : List Nat) (e : Nat), IdOk s → (Pressed s → s.buttonID = b) →
      (∀ p ∈ polls, p.1 ≤ 4) → pollEvents s polls = m ++ e :: c →
      (∀ x ∈ m, ¬ isPushed x) → (isRepeated e ∨ isReleased e) →
      e = 192 + b ∨ e = 128 + b := by
  induction polls with
  | nil =>
    intro s m c e _ _ _ h
    simp [pollEvents] at h
  | cons p ps ih =>
    intro s m c e hs hb hsample h hm he
    have hs' := getButtonEvent_idOk s p.1 p.2 hs (hsample p (List.mem_cons_self _ _))
    have hrest : ∀ q ∈ ps, q.1 ≤ 4 := fun q hq => hsample q (List.mem_cons_of_mem _ hq)
    have he' : ∃ k, 1 ≤ k ∧ k ≤ 4 ∧ (e = 192 + k ∨ e = 128 + k) := by
      rcases he with ⟨k, h1, h4, hk⟩ | ⟨k, h1, h4, hk⟩
      · exact ⟨k, h1, h4, Or.inl (by simpa using hk)⟩
      · exact ⟨k, h1, h4, Or.inr (by simpa using hk)⟩
    obtain ⟨k, hk1, hk4, hk⟩ := he'
    simp only [pollEvents] at h
    by_cases hp : Pressed s
    · have hid := pressed_id s hs hp
      have hsb := hb hp
      rcases getButtonEvent_of_pressed s p.1 p.2 hs hp with ⟨hrel, hst⟩ | ⟨hev, hp', hid'⟩
      · cases m with
        | nil =>
          simp only [List.nil_append, List.cons.injEq] at h
          omega
        | cons x m' =>
          simp only [List.cons_append, List.cons.injEq] at h
          exact ih _ m' c e hs' (fun hpr => by simp [Pressed, hst] at hpr) hrest h.2
            (fun y hy => hm y (List.mem_cons_of_mem _ hy)) he
      · cases m with
        | nil =>
          simp only [List.nil_append, List.cons.injEq] at h
          omega
        | cons x m' =>
          simp only [List.cons_append, List.cons.injEq] at h
          exact ih _ m' c e hs' (fun _ => by rw [hid']; exact hsb) hrest h.2
            (fun y hy => hm y (List.mem_cons_of_mem _ hy)) he
    · rcases getButtonEvent_of_not_pressed s p.1 p.2 hs hp with ⟨hev, hnp⟩ | ⟨hev, hp'⟩
      · cases m with
        | nil =>
          simp only [List.nil_append, List.cons.injEq] at h
          omega
        | cons x m' =>
          simp only [List.cons_append, List.cons.injEq] at h
          exact ih _ m' c e hs' (fun hpr => absurd hpr hnp) hrest h.2
            (fun y hy => hm y (List.mem_cons_of_mem _ hy)) he
      · have hid' := pressed_id _ hs' hp'
        cases m with
        | nil =>
          simp only [List.nil_append, List.cons.injEq] at h
          omega
        | cons x m' =>
          simp only [List.cons_append, List.cons.injEq] at h
          exact absurd ⟨_, hid'.1, hid'.2, by rw [← h.1, hev]; simp⟩
            (hm x (List.mem_cons_self _ _))

/-- C4: starting from idle, with samples that are button ids (0..4): if Pushed of button `b`
is followed by events `m` and then by `e`, then (1) if no Pushed occurs in `m` and `e` is a
Repeated or a Released event, `e` carries the id `b`; (2) if Released of `b` does not occur
in `m` and `e` is an event at all, `e` is Repeated or Released of `b`, whatever was sampled
in between. -/
theorem getButtonEvent_single_button_tracking (s0 : Buttons) (polls : List (Nat × Nat))
    (hsample : ∀ p ∈ polls, p.1 ≤ 4) (a m c : List Nat) (b e : Nat)
    (hb1 : 1 ≤ b) (hb4 : b ≤ 4)
    (h : pollEvents (buttonsInitialize s0) polls =
      a ++ [BUTTON_PUSHED_EVENT + b] ++ m ++ [e] ++ c) :
    ((∀ x ∈ m, ¬ isPushed x) → (isRepeated e ∨ isReleased e) →
      e = BUTTON_REPEAT_EVENT + b ∨ e = BUTTON_RELEASED_EVENT + b) ∧
    (BUTTON_RELEASED_EVENT + b ∉ m → e ≠ BUTTON_NO_EVENT →
      e = BUTTON_REPEAT_EVENT + b ∨ e = BUTTON_RELEASED_EVENT + b) := by
  have h' : pollEvents (buttonsInitialize s0) polls = a ++ ((64 + b) :: (m ++ e :: c)) := by
    simpa using h
  obtain ⟨s1, polls1, hs1, hsample1, h1⟩ :=
    pollEvents_suffix a _ polls _ (buttonsInitialize_idOk s0) hsample h'
  obtain ⟨s2, polls2, hs2, hp2, hid2, hsample2, h2⟩ :=
    pollEvents_head_pushed s1 polls1 _ b hb1 hb4 hs1 hsample1 h1
  constructor
  · intro hm he
    simpa using pollEvents_no_pushed_same_id polls2 b s2 m c e hs2 (fun _ => hid2) hsample2 h2
      hm he
  · intro hm he
    have := pollEvents_pressed_same_id polls2 s2 m c e hs2 hp2 hsample2 h2
      (by rw [hid2]; simpa using hm) (by simpa using he)
    rw [hid2] at this
    simpa using this

/-- Witness of `getButtonEvent_single_button_tracking`: Select is pushed and repeats, Up is
sampled while Select is still tracked, and the Released event is that of Select. -/
theorem getButtonEvent_single_button_tracking_witness :
    (∀ p ∈ [(1, 0), (1, 30), (1, 830), (3, 831), (3, 900), (0, 901), (0, 931)],
        (p : Nat × Nat).1 ≤ 4) ∧
      pollEvents (buttonsInitialize ⟨0, 0, 0⟩)
          [(1, 0), (1, 30), (1, 830), (3, 831), (3, 900), (0, 901), (0, 931)] =
        [0] ++ [BUTTON_PUSHED_EVENT + 1] ++ [193, 0, 0, 0] ++ [129] ++ [] ∧
      BUTTON_RELEASED_EVENT + 1 ∉ [193, 0, 0, 0] ∧ 129 ≠ BUTTON_NO_EVENT ∧
      (129 = BUTTON_REPEAT_EVENT + 1 ∨ 129 = BUTTON_RELEASED_EVENT + 1) :=
  ⟨by decide, by decide, by decide, by decide,
    (getButtonEvent_single_button_tracking ⟨0, 0, 0⟩
      [(1, 0), (1, 30), (1, 830), (3, 831), (3, 900), (0, 901), (0, 931)] (by decide)
      [0] [193, 0, 0, 0] [] 1 129 (by decide) (by decide) (by decide)).2
      (by decide) (by decide)⟩

/-- Every byte returned by one poll is no event or the sum of a phase and a button id. -/
lemma getButtonEvent_event_form (s : Buttons) (b t : Nat) (hs : IdOk s) (hb : b ≤ 4) :
    (getButtonEvent s b t).1 = 0 ∨ ∃ id, 1 ≤ id ∧ id ≤ 4 ∧
      ((getButtonEvent s b t).1 = 64 + id ∨ (getButtonEvent s b t).1 = 128 + id ∨
        (getButtonEvent s b t).1 = 192 + id) := by
  have hs' := getButtonEvent_idOk s b t hs hb
  by_cases hp : Pressed s
  · have hid := pressed_id s hs hp
    rcases getButtonEvent_of_pressed s b t hs hp with ⟨hrel, _⟩ | ⟨hev | hev, _⟩
    · exact Or.inr ⟨_, hid.1, hid.2, Or.inr (Or.inl hrel)⟩
    · exact Or.inl hev
    · exact Or.inr ⟨_, hid.1, hid.2, Or.inr (Or.inr hev)⟩
  · rcases getButtonEvent_of_not_pressed s b t hs hp with ⟨hev, _⟩ | ⟨hev, hp'⟩
    · exact Or.inl hev
    · have hid' := pressed_id _ hs' hp'
      exact Or.inr ⟨_, hid'.1, hid'.2, Or.inl hev⟩

lemma pollEvents_event_form (polls : List (Nat × Nat)) :
    ∀ (s : Buttons) (e : Nat), IdOk s → (∀ p ∈ polls, p.1 ≤ 4) → e ∈ pollEvents s polls →
      e = 0 ∨ ∃ id, 1 ≤ id ∧ id ≤ 4 ∧ (e = 64 + id ∨ e = 128 + id ∨ e = 192 + id) := by
  induction polls with
  | nil =>
    intro s e _ _ h
    simp [pollEvents] at h
  | cons p ps ih =>
    intro s e hs hsample h
    simp only [pollEvents, List.mem_cons] at h
    rcases h with h | h
    · rw [h]
      exact getButtonEvent_event_form s p.1 p.2 hs (hsample p (List.mem_cons_self _ _))
    · exact ih _ e (getButtonEvent_idOk s p.1 p.2 hs (hsample p (List.mem_cons_self _ _)))
        (fun q hq => hsample q (List.mem_cons_of_mem _ hq)) h

/-- C10: starting from idle, with samples in 0..4, every byte returned by `getButtonEvent`
is `BUTTON_NO_EVENT` or `phase + id` with `phase` one of 0x40, 0x80, 0xC0 and `id` in 1..4,
and that pair `(phase, id)` is the only such pair whose sum is the returned byte. -/
theorem getButtonEvent_event_well_formed (s0 : Buttons) (polls : List (Nat × Nat))
    (hsample : ∀ p ∈ polls, p.1 ≤ 4) (e : Nat)
    (he : e ∈ pollEvents (buttonsInitialize s0) polls) :
    e = BUTTON_NO_EVENT ∨
    ∃ phase id,
      (phase = BUTTON_PUSHED_EVENT ∨ phase = BUTTON_RELEASED_EVENT ∨
        phase = BUTTON_REPEAT_EVENT) ∧
      1 ≤ id ∧ id ≤ 4 ∧ e = phase + id ∧ e ≠ BUTTON_NO_EVENT ∧
      ∀ phase' id',
        (phase' = BUTTON_PUSHED_EVENT ∨ phase' = BUTTON_RELEASED_EVENT ∨
          phase' = BUTTON_REPEAT_EVENT) →
        1 ≤ id' → id' ≤ 4 → e = phase' + id' → phase' = phase ∧ id' = id := by
  rcases pollEvents_event_form polls _ e (buttonsInitialize_idOk s0) hsample he with
    h0 | ⟨id, h1, h4, h | h | h⟩
  · exact Or.inl (by simpa using h0)
  · refine Or.inr ⟨BUTTON_PUSHED_EVENT, id, Or.inl rfl, h1, h4, by simpa using h, ?_, ?_⟩
    · simp; omega
    · intro ph id' hph h1' h4' he'
      simp at hph he' ⊢
      omega
  · refine Or.inr ⟨BUTTON_RELEASED_EVENT, id, Or.inr (Or.inl rfl), h1, h4, by simpa using h,
      ?_, ?_⟩
    · simp; omega
    · intro ph id' hph h1' h4' he'
      simp at hph he' ⊢
      omega
  · refine Or.inr ⟨BUTTON_REPEAT_EVENT, id, Or.inr (Or.inr rfl), h1, h4, by simpa using h,
      ?_, ?_⟩
    · simp; omega
    · intro ph id' hph h1' h4' he'
      simp at hph he' ⊢
      omega

/-- Witness of `getButtonEvent_event_well_formed`: the Repeated event of Down, 0xC4. -/
theorem getButtonEvent_event_well_formed_witness :
    (∀ p ∈ [(4, 0), (4, 30), (4, 830)], (p : Nat × Nat).1 ≤ 4) ∧
      196 ∈ pollEvents (buttonsInitialize ⟨0, 0, 0⟩) [(4, 0), (4, 30), (4, 830)] ∧
      (196 = BUTTON_NO_EVENT ∨
        ∃ phase id,
          (phase = BUTTON_PUSHED_EVENT ∨ phase = BUTTON_RELEASED_EVENT ∨
            phase = BUTTON_REPEAT_EVENT) ∧
          1 ≤ id ∧ id ≤ 4 ∧ 196 = phase + id ∧ 196 ≠ BUTTON_NO_EVENT ∧
          ∀ phase' id',
            (phase' = BUTTON_PUSHED_EVENT ∨ phase' = BUTTON_RELEASED_EVENT ∨
              phase' = BUTTON_REPEAT_EVENT) →
            1 ≤ id' → id' ≤ 4 → 196 = phase' + id' → phase' = phase ∧ id' = id) :=
  ⟨by decide, by decide,
    getButtonEvent_event_well_formed ⟨0, 0, 0⟩ [(4, 0), (4, 30), (4, 830)] (by decide) 196
      (by decide)⟩

/-- The events of a run over two lists of polls in a row. -/
lemma pollEvents_append (xs : List (Nat × Nat)) :
    ∀ (s : Buttons) (ys : List (Nat × Nat)),
      pollEvents s (xs ++ ys) = pollEvents s xs ++ pollEvents (pollState s xs) ys := by
  induction xs with
  | nil => intro s ys; rfl
  | cons p ps ih => intro s ys; simp [pollEvents, pollState, ih]

lemma pollState_append (xs : List (Nat × Nat)) :
    ∀ (s : Buttons) (ys : List (Nat × Nat)),
      pollState s (xs ++ ys) = pollState (pollState s xs) ys := by
  induction xs with
  | nil => intro s ys; rfl
  | cons p ps ih => intro s ys; simp [pollState, ih]

/-- Polls that each return no event and leave the members unchanged. -/
lemma pollEvents_stay (s : Buttons) (polls : List (Nat × Nat))
    (h : ∀ p ∈ polls, getButtonEvent s p.1 p.2 = (0, s)) :
    (∀ e ∈ pollEvents s polls, e = 0) ∧ pollState s polls = s := by
  induction polls with
  | nil => simp [pollEvents, pollState]
  | cons p ps ih =>
    have hp := h p (List.mem_cons_self _ _)
    have := ih (fun q hq => h q (List.mem_cons_of_mem _ hq))
    simp [pollEvents, pollState, hp, this]
    exact this.1

/-- A short press away from the wrap of the clock: from idle, after polls `pre` that sample
None, button `b` is first sampled at `t0`; the polls `mid` are made before `t0 + 30`
(whatever they sample) and the first poll at a time `t1 >= t0 + 30` samples `c` different
from `b`, where `t1` is a 32-bit time, so that `t0 + 30` does not wrap. Then no poll of the
whole sequence returns an event, so no Pushed is returned, and the machine is idle
again after the last poll. -/
lemma getButtonEvent_short_press_no_pushed (s0 : Buttons) (pre mid : List (Nat × Nat))
    (b t0 c t1 : Nat) (hpre : ∀ p ∈ pre, p.1 = BUTTON_ID_NONE) (hb : b ≠ BUTTON_ID_NONE)
    (hmid : ∀ p ∈ mid, p.2 < t0 + BUTTON_DEBOUNCE_PERIOD)
    (ht1 : t0 + BUTTON_DEBOUNCE_PERIOD ≤ t1) (ht32 : t1 < 4294967296) (hc : c ≠ b) :
    (∀ e ∈ pollEvents (buttonsInitialize s0) (pre ++ (b, t0) :: mid ++ [(c, t1)]),
        e = BUTTON_NO_EVENT) ∧
      (pollState (buttonsInitialize s0) (pre ++ (b, t0) :: mid ++ [(c, t1)])).buttonState =
        WAITING_FOR_BUTTON_DOWN_STATE := by
  simp only [BUTTON_ID_NONE, BUTTON_DEBOUNCE_PERIOD, BUTTON_NO_EVENT,
    WAITING_FOR_BUTTON_DOWN_STATE] at *
  have h1 := pollEvents_stay (buttonsInitialize s0) pre (fun p hp => by
    simp [getButtonEvent, buttonsInitialize, hpre p hp])
  have hmod : (t0 + 30) % 4294967296 = t0 + 30 := Nat.mod_eq_of_lt (by omega)
  have h2 := pollEvents_stay ⟨1, b, t0⟩ mid (fun p hp => by
    have := hmid p hp
    simp [getButtonEvent, hmod, this])
  have hstep0 : getButtonEvent (buttonsInitialize s0) b t0 = (0, ⟨1, b, t0⟩) := by
    simp [getButtonEvent, buttonsInitialize, hb]
  have hstep1 : getButtonEvent ⟨1, b, t0⟩ c t1 = (0, ⟨0, b, t0⟩) := by
    have : ¬ t1 < t0 + 30 := by omega
    simp [getButtonEvent, hmod, this, hc]
  have happ : pre ++ (b, t0) :: mid ++ [(c, t1)] = pre ++ ((b, t0) :: (mid ++ [(c, t1)])) := by
    simp
  rw [happ, pollEvents_append, pollState_append, h1.2]
  simp only [pollEvents, pollState, hstep0, pollEvents_append, pollState_append, h2.2, hstep1]
  refine ⟨?_, trivial⟩
  intro e he
  simp only [List.mem_append, List.mem_cons, List.mem_singleton, List.not_mem_nil,
    or_false] at he
  rcases he with he | he | he | he
  · exact h1.1 e he
  · exact he
  · exact h2.1 e he
  · exact he

/-- The lemma `getButtonEvent_short_press_no_pushed` at a press away from the wrap: Up is
sampled from 1000 to 1020 and None at 1030. -/
lemma getButtonEvent_short_press_no_pushed_witness :
    (∀ p ∈ [(0, 990)], (p : Nat × Nat).1 = BUTTON_ID_NONE) ∧ 3 ≠ BUTTON_ID_NONE ∧
      (∀ p ∈ [(3, 1010), (0, 1015), (3, 1020)],
        (p : Nat × Nat).2 < 1000 + BUTTON_DEBOUNCE_PERIOD) ∧
      1000 + BUTTON_DEBOUNCE_PERIOD ≤ 1030 ∧ 1030 < 4294967296 ∧ 0 ≠ 3 ∧
      (∀ e ∈ pollEvents (buttonsInitialize ⟨0, 0, 0⟩)
          ([(0, 990)] ++ (3, 1000) :: [(3, 1010), (0, 1015), (3, 1020)] ++ [(0, 1030)]),
        e = BUTTON_NO_EVENT) ∧
      (pollState (buttonsInitialize ⟨0, 0, 0⟩)
          ([(0, 990)] ++ (3, 1000) :: [(3, 1010), (0, 1015), (3, 1020)] ++
            [(0, 1030)])).buttonState = WAITING_FOR_BUTTON_DOWN_STATE :=
  ⟨by decide, by decide, by decide, by decide, by decide, by decide,
    getButtonEvent_short_press_no_pushed ⟨0, 0, 0⟩ [(0, 990)]
      [(3, 1010), (0, 1015), (3, 1020)] 3 1000 0 1030 (by decide) (by decide) (by decide)
      (by decide) (by decide) (by decide)⟩

/-- C5 (code at the failing input): from idle, Up is first sampled at
`t0 = 4294967280 = 2 ^ 32 - 16` and again at `t0 + 5`, and None is sampled from `t0 + 10`
on, so the press is shorter than 30 ms; `t0 + 30` is the clock value 14 after the wrap,
and the first poll at or after it samples None. The sum `t0 + 30` of the timer test wraps
to 14, the test `t0 + 5 < 14` is false, and the poll at `t0 + 5`, before `t0 + 30`,
returns Pushed of Up; the poll at the clock value 29 returns Released of Up. -/
theorem getButtonEvent_short_press_pushed_at_wrap :
    pollEvents (buttonsInitialize ⟨0, 0, 0⟩)
        [(BUTTON_ID_UP, 4294967280), (BUTTON_ID_UP, 4294967285),
          (BUTTON_ID_NONE, 4294967290), (BUTTON_ID_NONE, 4294967295),
          (BUTTON_ID_NONE, 14), (BUTTON_ID_NONE, 29)] =
      [BUTTON_NO_EVENT, BUTTON_PUSHED_EVENT + BUTTON_ID_UP, BUTTON_NO_EVENT,
        BUTTON_NO_EVENT, BUTTON_NO_EVENT, BUTTON_RELEASED_EVENT + BUTTON_ID_UP] ∧
    (4294967280 + BUTTON_DEBOUNCE_PERIOD) % 4294967296 = 14 ∧
    4294967285 < 4294967280 + BUTTON_DEBOUNCE_PERIOD := by
  decide

/-- C6 (code at the failing input): Select is sampled from time 4294966466 on; Pushed is
returned at `p = 4294966496 = 2 ^ 32 - 800` and Repeated already at `p + 1`, because the
sum `p + 800` of the timer test wraps to 0. -/
theorem getButtonEvent_early_repeat_at_wrap :
    pollEvents (buttonsInitialize ⟨0, 0, 0⟩)
        [(BUTTON_ID_SELECT, 4294966466), (BUTTON_ID_SELECT, 4294966496),
          (BUTTON_ID_SELECT, 4294966497)] =
      [BUTTON_NO_EVENT, BUTTON_PUSHED_EVENT + BUTTON_ID_SELECT,
        BUTTON_REPEAT_EVENT + BUTTON_ID_SELECT] ∧
    4294966497 < 4294966496 + BUTTON_AUTO_REPEAT_DELAY := by
  decide

/-- Away from the wrap of the 32-bit clock there is no early auto-repeat: from the state
right after a Pushed event at time `p`, polls at times in `[p, p + 800)` return no
Repeated event, provided no sum of a timer test can wrap (`p + 1600 <= 2 ^ 32`). -/
lemma pollEvents_no_early_repeat_of_no_wrap (p : Nat) (hp : p + 1600 ≤ 4294967296)
    (polls : List (Nat × Nat)) :
    ∀ (s : Buttons), IdOk s → s.buttonState ≠ 3 →
      (s.buttonState = 2 → p ≤ s.buttonEventStartTime ∧ s.buttonEventStartTime < p + 800) →
      (∀ q ∈ polls, q.1 ≤ 4 ∧ p ≤ q.2 ∧ q.2 < p + 800) →
      ∀ e ∈ pollEvents s polls, ¬ isRepeated e := by
  induction polls with
  | nil =>
    intro s _ _ _ _ e he
    simp [pollEvents] at he
  | cons q qs ih =>
    intro s hs h3 h2 hq e he
    have hq0 := hq q (List.mem_cons_self _ _)
    simp only [pollEvents, List.mem_cons] at he
    have key : ¬ isRepeated (getButtonEvent s q.1 q.2).1 ∧
        (getButtonEvent s q.1 q.2).2.buttonState ≠ 3 ∧
        ((getButtonEvent s q.1 q.2).2.buttonState = 2 →
          p ≤ (getButtonEvent s q.1 q.2).2.buttonEventStartTime ∧
          (getButtonEvent s q.1 q.2).2.buttonEventStartTime < p + 800) := by
      unfold IdOk at hs
      unfold isRepeated
      rcases getButtonEvent_cases s q.1 q.2 with
        ⟨e, h⟩ | ⟨e, h⟩ | ⟨e, h⟩ | ⟨e, h⟩ | ⟨e, h⟩ | ⟨e, h⟩ | ⟨e, h⟩ | ⟨e, h⟩ | ⟨e, h⟩ |
        ⟨e, h⟩ | ⟨e, h⟩ | ⟨e, h⟩ | ⟨e, h⟩ | ⟨e, h⟩ | ⟨e, h⟩ | ⟨e, h⟩ | ⟨e, h⟩
      all_goals
        rw [e]
        simp only [BUTTON_REPEAT_EVENT, WAITING_FOR_BUTTON_DOWN_STATE] at hs ⊢
        refine ⟨?_, ?_, ?_⟩
        · rintro ⟨k, hk1, hk4, hk⟩
          omega
        · omega
        · intro h2'
          omega
    rcases he with he | he
    · rw [he]
      exact key.1
    · exact ih _ (getButtonEvent_idOk s q.1 q.2 hs hq0.1) key.2.1 key.2.2
        (fun r hr => hq r (List.mem_cons_of_mem _ hr)) e he

/-- C7 (code at the failing input): Pushed of Select is returned at `p = 4294966396`, Select
is sampled by the two later polls, at `p + 800` and `p + 801`; with `t = 801` the polls in
`(p, p + t]` return two Repeated events, not one, because the timer sum
`4294967196 + 130` wraps to 30. -/
theorem getButtonEvent_two_repeats_at_wrap :
    pollEvents (buttonsInitialize ⟨0, 0, 0⟩)
        [(BUTTON_ID_SELECT, 4294966366), (BUTTON_ID_SELECT, 4294966396),
          (BUTTON_ID_SELECT, 4294966396 + 800), (BUTTON_ID_SELECT, 4294966396 + 801)] =
      [BUTTON_NO_EVENT, BUTTON_PUSHED_EVENT + BUTTON_ID_SELECT,
        BUTTON_REPEAT_EVENT + BUTTON_ID_SELECT, BUTTON_REPEAT_EVENT + BUTTON_ID_SELECT] ∧
    List.count (BUTTON_REPEAT_EVENT + BUTTON_ID_SELECT)
        (pollEvents ⟨WAITING_FOR_BUTTON_UP_STATE, BUTTON_ID_SELECT, 4294966396⟩
          [(BUTTON_ID_SELECT, 4294966396 + 800), (BUTTON_ID_SELECT, 4294966396 + 801)]) = 2 ∧
    4294966396 + 801 < 4294967296 := by
  decide

/-- Polls that each return no event and leave the members unchanged: the event stream. -/
lemma pollEvents_stay_replicate (s : Buttons) (polls : List (Nat × Nat))
    (h : ∀ p ∈ polls, getButtonEvent s p.1 p.2 = (0, s)) :
    pollEvents s polls = List.replicate polls.length 0 := by
  induction polls with
  | nil => rfl
  | cons p ps ih =>
    have hp := h p (List.mem_cons_self _ _)
    have := ih (fun q hq => h q (List.mem_cons_of_mem _ hq))
    simp [pollEvents, hp, this, List.replicate_succ]

/-- Away from the wrap of the 32-bit clock, exactly one Repeated in the 800..930 ms
window: from the state right after Pushed of `b` at time `p`, if `b` is sampled by polls
`early` before `p + 800`, by a poll at `r` in `[p + 800, p + 930)` and by polls `late`
before `p + 930`, the events are: nothing, one Repeated of `b`, nothing. -/
lemma pollEvents_one_repeat_of_no_wrap (b p r : Nat) (early late : List (Nat × Nat))
    (hb : b ≤ 4) (hp : p + 1060 ≤ 4294967296)
    (hearly : ∀ q ∈ early, q.1 = b ∧ q.2 < p + 800) (hr : p + 800 ≤ r) (hr' : r < p + 930)
    (hlate : ∀ q ∈ late, q.1 = b ∧ q.2 < p + 930) :
    pollEvents ⟨2, b, p⟩ (early ++ (b, r) :: late) =
      List.replicate early.length 0 ++ (192 + b) :: List.replicate late.length 0 := by
  have hmod : (p + 800) % 4294967296 = p + 800 := Nat.mod_eq_of_lt (by omega)
  have hmod' : (r + 130) % 4294967296 = r + 130 := Nat.mod_eq_of_lt (by omega)
  have hE : ∀ q ∈ early, getButtonEvent ⟨2, b, p⟩ q.1 q.2 = (0, ⟨2, b, p⟩) := by
    intro q hq
    obtain ⟨h1, h2⟩ := hearly q hq
    simp [getButtonEvent, hmod, h1, h2]
  have hL : ∀ q ∈ late, getButtonEvent ⟨3, b, r⟩ q.1 q.2 = (0, ⟨3, b, r⟩) := by
    intro q hq
    obtain ⟨h1, h2⟩ := hlate q hq
    have : q.2 < r + 130 := by omega
    simp [getButtonEvent, hmod', h1, this]
  have hstep : getButtonEvent ⟨2, b, p⟩ b r = (192 + b, ⟨3, b, r⟩) := by
    have : ¬ r < p + 800 := by omega
    have h256 : (192 + b) % 256 = 192 + b := Nat.mod_eq_of_lt (by omega)
    simp [getButtonEvent, hmod, this, h256]
  rw [pollEvents_append, pollEvents_stay_replicate _ early hE, (pollEvents_stay _ early hE).2]
  simp only [pollEvents, hstep, pollEvents_stay_replicate _ late hL]

/-- C8 (code at the failing input): in the repeating state with the previous Repeated of
Down at time 4294967200, a poll only 1 ms later returns Repeated again, because the timer
sum `4294967200 + 130` wraps to 34; from idle, the two Repeated events of one press of
Down are returned at times 4294967200 and 4294967201. -/
theorem getButtonEvent_repeat_rate_at_wrap :
    getButtonEvent
        ⟨WAITING_FOR_BUTTON_UP_AFTER_AUTO_REPEAT_STATE, BUTTON_ID_DOWN, 4294967200⟩
        BUTTON_ID_DOWN 4294967201 =
      (BUTTON_REPEAT_EVENT + BUTTON_ID_DOWN,
        ⟨WAITING_FOR_BUTTON_UP_AFTER_AUTO_REPEAT_STATE, BUTTON_ID_DOWN, 4294967201⟩) ∧
    4294967201 < 4294967200 + BUTTON_AUTO_REPEAT_RATE ∧
    pollEvents (buttonsInitialize ⟨0, 0, 0⟩)
        [(BUTTON_ID_DOWN, 4294966370), (BUTTON_ID_DOWN, 4294966400),
          (BUTTON_ID_DOWN, 4294967200), (BUTTON_ID_DOWN, 4294967201)] =
      [BUTTON_NO_EVENT, BUTTON_PUSHED_EVENT + BUTTON_ID_DOWN,
        BUTTON_REPEAT_EVENT + BUTTON_ID_DOWN, BUTTON_REPEAT_EVENT + BUTTON_ID_DOWN] := by
  decide

/-- Away from the wrap of the 32-bit clock, the auto-repeat rate: in the repeating state a
poll that samples the tracked button at least 130 ms after the recorded time returns
Repeated, records the poll time and stays in the state; an earlier poll returns no event
and changes nothing, provided the timer sum does not wrap. -/
lemma getButtonEvent_repeating_of_no_wrap (s : Buttons) (t : Nat)
    (hs : s.buttonState = WAITING_FOR_BUTTON_UP_AFTER_AUTO_REPEAT_STATE)
    (hid : s.buttonID ≤ 4) (ht32 : t < 4294967296) :
    (s.buttonEventStartTime + BUTTON_AUTO_REPEAT_RATE ≤ t →
      getButtonEvent s s.buttonID t =
        (BUTTON_REPEAT_EVENT + s.buttonID, { s with buttonEventStartTime := t })) ∧
    (t < s.buttonEventStartTime + BUTTON_AUTO_REPEAT_RATE →
      s.buttonEventStartTime + BUTTON_AUTO_REPEAT_RATE < 4294967296 →
      getButtonEvent s s.buttonID t = (BUTTON_NO_EVENT, s)) := by
  obtain ⟨st, id, tm⟩ := s
  simp only [WAITING_FOR_BUTTON_UP_AFTER_AUTO_REPEAT_STATE, BUTTON_AUTO_REPEAT_RATE,
    BUTTON_REPEAT_EVENT, BUTTON_NO_EVENT] at *
  subst hs
  constructor
  · intro h
    have hmod : (tm + 130) % 4294967296 = tm + 130 := Nat.mod_eq_of_lt (by omega)
    have : ¬ t < tm + 130 := by omega
    have h256 : (192 + id) % 256 = 192 + id := Nat.mod_eq_of_lt (by omega)
    simp [getButtonEvent, hmod, this, h256]
  · intro h h'
    have hmod : (tm + 130) % 4294967296 = tm + 130 := Nat.mod_eq_of_lt h'
    simp [getButtonEvent, hmod, h]

/-- C9 (counterexample): Select is pushed, None is sampled at 40 and 50, which starts the
release confirmation at 50; the poll at 60, before the 30 ms have elapsed, samples Select
again and neither leaves the confirming state nor resets the recorded time; the poll at
80 returns Released although a pressed button was sampled within the period. -/
theorem getButtonEvent_release_wait_not_restarted :
    pollState (buttonsInitialize ⟨0, 0, 0⟩)
        [(BUTTON_ID_SELECT, 0), (BUTTON_ID_SELECT, 30), (BUTTON_ID_NONE, 40),
          (BUTTON_ID_NONE, 50)] =
      ⟨CONFIRM_ALL_BUTTONS_UP_STATE, BUTTON_ID_SELECT, 50⟩ ∧
    60 < 50 + BUTTON_DEBOUNCE_PERIOD ∧
    getButtonEvent ⟨CONFIRM_ALL_BUTTONS_UP_STATE, BUTTON_ID_SELECT, 50⟩ BUTTON_ID_SELECT 60 =
      (BUTTON_NO_EVENT, ⟨CONFIRM_ALL_BUTTONS_UP_STATE, BUTTON_ID_SELECT, 50⟩) ∧
    pollEvents (buttonsInitialize ⟨0, 0, 0⟩)
        [(BUTTON_ID_SELECT, 0), (BUTTON_ID_SELECT, 30), (BUTTON_ID_NONE, 40),
          (BUTTON_ID_NONE, 50), (BUTTON_ID_SELECT, 60), (BUTTON_ID_NONE, 80)] =
      [BUTTON_NO_EVENT, BUTTON_PUSHED_EVENT + BUTTON_ID_SELECT, BUTTON_NO_EVENT,
        BUTTON_NO_EVENT, BUTTON_NO_EVENT, BUTTON_RELEASED_EVENT + BUTTON_ID_SELECT] ∧
    ¬ ∀ (s : Buttons) (b t : Nat), s.buttonState = CONFIRM_ALL_BUTTONS_UP_STATE →
        b ≠ BUTTON_ID_NONE → t < s.buttonEventStartTime + BUTTON_DEBOUNCE_PERIOD →
        (getButtonEvent s b t).2.buttonState ≠ CONFIRM_ALL_BUTTONS_UP_STATE ∨
          (getButtonEvent s b t).2.buttonEventStartTime = t := by
  refine ⟨by decide, by decide, by decide, by decide, ?_⟩
  intro h
  have := h ⟨CONFIRM_ALL_BUTTONS_UP_STATE, BUTTON_ID_SELECT, 50⟩ BUTTON_ID_SELECT 60
    (by decide) (by decide) (by decide)
  revert this
  decide

/-- C9 (amended): in the release-confirming state, with 32-bit poll times and away from the
wrap of the timer sum: (1) a poll before the 30 ms have elapsed returns no event and
changes nothing, whatever it samples; (2) a poll after the 30 ms that samples a pressed
button returns no event and goes back to waiting for all buttons up, from where the next
poll that samples None starts a new confirmation period at its own time; (3) a poll
after the 30 ms that samples None returns Released of the tracked button and goes idle. -/
theorem getButtonEvent_confirm_release (s : Buttons) (b t : Nat)
    (hs : s.buttonState = CONFIRM_ALL_BUTTONS_UP_STATE) (hid : s.buttonID ≤ 4)
    (ht32 : t < 4294967296) :
    (t < s.buttonEventStartTime + BUTTON_DEBOUNCE_PERIOD →
      s.buttonEventStartTime + BUTTON_DEBOUNCE_PERIOD < 4294967296 →
      getButtonEvent s b t = (BUTTON_NO_EVENT, s)) ∧
    (s.buttonEventStartTime + BUTTON_DEBOUNCE_PERIOD ≤ t → b ≠ BUTTON_ID_NONE →
      getButtonEvent s b t =
        (BUTTON_NO_EVENT, { s with buttonState := WAITING_FOR_ALL_BUTTONS_UP_STATE }) ∧
      ∀ t', getButtonEvent { s with buttonState := WAITING_FOR_ALL_BUTTONS_UP_STATE }
          BUTTON_ID_NONE t' =
        (BUTTON_NO_EVENT,
          { s with buttonState := CONFIRM_ALL_BUTTONS_UP_STATE
                   buttonEventStartTime := t' })) ∧
    (s.buttonEventStartTime + BUTTON_DEBOUNCE_PERIOD ≤ t → b = BUTTON_ID_NONE →
      getButtonEvent s b t =
        (BUTTON_RELEASED_EVENT + s.buttonID,
          { s with buttonState := WAITING_FOR_BUTTON_DOWN_STATE })) := by
  obtain ⟨st, id, tm⟩ := s
  simp only [CONFIRM_ALL_BUTTONS_UP_STATE, BUTTON_DEBOUNCE_PERIOD, BUTTON_NO_EVENT,
    BUTTON_ID_NONE, WAITING_FOR_ALL_BUTTONS_UP_STATE, BUTTON_RELEASED_EVENT,
    WAITING_FOR_BUTTON_DOWN_STATE] at *
  subst hs
  refine ⟨?_, ?_, ?_⟩
  · intro h h'
    have hmod : (tm + 30) % 4294967296 = tm + 30 := Nat.mod_eq_of_lt h'
    simp [getButtonEvent, hmod, h]
  · intro h hb
    have hmod : (tm + 30) % 4294967296 = tm + 30 := Nat.mod_eq_of_lt (by omega)
    have : ¬ t < tm + 30 := by omega
    constructor
    · simp [getButtonEvent, hmod, this, hb]
    · intro t'
      simp [getButtonEvent]
  · intro h hb
    have hmod : (tm + 30) % 4294967296 = tm + 30 := Nat.mod_eq_of_lt (by omega)
    have : ¬ t < tm + 30 := by omega
    have h256 : (128 + id) % 256 = 128 + id := Nat.mod_eq_of_lt (by omega)
    simp [getButtonEvent, hmod, this, hb, h256]

/-- Witness of `getButtonEvent_confirm_release`: the confirming state reached at time 50
with Select tracked, polled at 60 with Select sampled. -/
theorem getButtonEvent_confirm_release_witness :
    (⟨5, 1, 50⟩ : Buttons).buttonState = CONFIRM_ALL_BUTTONS_UP_STATE ∧
      (⟨5, 1, 50⟩ : Buttons).buttonID ≤ 4 ∧ 60 < 4294967296 ∧
      60 < (⟨5, 1, 50⟩ : Buttons).buttonEventStartTime + BUTTON_DEBOUNCE_PERIOD ∧
      (⟨5, 1, 50⟩ : Buttons).buttonEventStartTime + BUTTON_DEBOUNCE_PERIOD < 4294967296 ∧
      getButtonEvent ⟨5, 1, 50⟩ BUTTON_ID_SELECT 60 = (BUTTON_NO_EVENT, ⟨5, 1, 50⟩) :=
  ⟨by decide, by decide, by decide, by decide, by decide,
    (getButtonEvent_confirm_release ⟨5, 1, 50⟩ BUTTON_ID_SELECT 60 (by decide) (by decide)
      (by decide)).1 (by decide) (by decide)⟩

/-! ## Theorems: the menu cursor -/

lemma readMenuItem_some (mem : MenuMemory) (k : Nat) (t : List MENU_ITEM) (i : Nat)
    (hk : mem[k]? = some t) : readMenuItem mem (some k) i = t[i]? := by
  simp [readMenuItem, hk]

/-- Drawing a real entry of a well-formed table is defined. -/
lemma drawMenuItem_defined (mem : MenuMemory) (s : MenuCursor) (k : Nat)
    (t : List MENU_ITEM) (N idx line : Nat) (hs : s.currentMenuTable = some k)
    (hk : mem[k]? = some t) (ht : TableWF mem t N) (h1 : 1 ≤ idx) (hN : idx ≤ N) :
    ∃ row, drawMenuItem mem s idx line = some row := by
  obtain ⟨_, _, _, hreal, _⟩ := ht
  obtain ⟨item, hitem, hty⟩ := hreal idx h1 hN
  unfold drawMenuItem
  rw [hs, readMenuItem_some mem k t idx hk, hitem]
  rcases hty with ⟨hty, _⟩ | ⟨hty, _⟩ | ⟨hty, hf⟩
  · simp [hty]
  · simp [hty]
  · obtain ⟨f, hf'⟩ := Option.ne_none_iff_exists'.mp hf
    simp [hty, hf']

/-- The loop of `drawMenu` is defined when it starts on a real entry or on the
end-of-menu entry of a well-formed table. -/
lemma drawMenuLines_defined (mem : MenuMemory) (s : MenuCursor) (k : Nat)
    (t : List MENU_ITEM) (N : Nat) (hs : s.currentMenuTable = some k)
    (hk : mem[k]? = some t) (ht : TableWF mem t N) (n : Nat) :
    ∀ idx line, 1 ≤ idx → idx ≤ N + 1 →
      ∃ rows, drawMenuLines mem s n idx line = some rows := by
  induction n with
  | zero => intro idx line _ _; exact ⟨[], rfl⟩
  | succ n ih =>
    intro idx line h1 hN
    have ht' := ht
    obtain ⟨_, h255, _, hreal, ⟨e, he, hend⟩⟩ := ht'
    unfold drawMenuLines
    rw [hs, readMenuItem_some mem k t idx hk]
    by_cases hlast : idx = N + 1
    · rw [hlast, he]
      simp [hend]
    · have hN' : idx ≤ N := by omega
      obtain ⟨item, hitem, hty⟩ := hreal idx h1 hN'
      obtain ⟨row, hrow⟩ := drawMenuItem_defined mem s k t N idx line hs hk ht h1 hN'
      have hnext : (idx + 1) % 256 = idx + 1 := Nat.mod_eq_of_lt (by omega)
      obtain ⟨rows, hrows⟩ := ih (idx + 1) (line + 1) (by omega) (by omega)
      have hne : item.MenuItemType ≠ 5 := by
        rcases hty with ⟨hty, _⟩ | ⟨hty, _⟩ | ⟨hty, _⟩ <;> simp [hty]
      simp [hitem, hne, hrow, hnext, hrows]

lemma drawMenu_defined (mem : MenuMemory) (s : MenuCursor) (hs : CursorInv mem s) :
    ∃ rows, drawMenu mem s = some rows := by
  obtain ⟨k, t, N, hk, ht, hwf, h1, h2, h3, h4⟩ := hs
  exact drawMenuLines_defined mem s k t N hk ht hwf _ _ _ h3 (by omega)

/-- The function `selectAndDrawMenu` on a table of a well-formed memory is defined and
sets the cursor to the first entry, which satisfies the invariant. -/
lemma selectAndDrawMenu_inv (mem : MenuMemory) (hmem : MemoryWF mem) (k : Nat)
    (hk : k < mem.length) :
    CursorInv mem ⟨some k, 1, 1⟩ ∧
      ∃ out, selectAndDrawMenu mem (some k) = some (⟨some k, 1, 1⟩, out) := by
  have hget : mem[k]? = some mem[k] := List.getElem?_eq_getElem hk
  obtain ⟨N, hwf⟩ := hmem mem[k] (List.getElem_mem hk)
  have hinv : CursorInv mem ⟨some k, 1, 1⟩ :=
    ⟨k, mem[k], N, rfl, hget, hwf, le_refl _, by simp, le_refl _, hwf.1⟩
  refine ⟨hinv, ?_⟩
  obtain ⟨rows, hrows⟩ := drawMenu_defined mem _ hinv
  obtain ⟨_, _, ⟨h, hh, _⟩, _, _⟩ := hwf
  unfold selectAndDrawMenu
  simp only [hrows, readMenuItem_some mem k _ 0 hget, hh]
  split_ifs
  · exact ⟨_, rfl⟩
  · exact ⟨_, rfl⟩

/-- The function `executeMenuItem` is defined and keeps the cursor invariant. -/
lemma executeMenuItem_inv (mem : MenuMemory) (hmem : MemoryWF mem) (s : MenuCursor)
    (hs : CursorInv mem s) :
    ∃ s' out, executeMenuItem mem s = some (s', out) ∧ CursorInv mem s' := by
  have hs' := hs
  obtain ⟨k, t, N, hk, ht, hwf, h1, h2, h3, h4⟩ := hs'
  have hklt : k < mem.length := by
    rcases Nat.lt_or_ge k mem.length with h | h
    · exact h
    · rw [List.getElem?_eq_none h] at ht
      exact absurd ht (by simp)
  obtain ⟨item, hitem, hty⟩ := hwf.2.2.2.1 s.currentMenuItemIdx (by omega) h4
  unfold executeMenuItem
  rw [hk, readMenuItem_some mem k t _ ht, hitem]
  rcases hty with ⟨hty, k', hsub, hk'⟩ | ⟨hty, hf⟩ | ⟨hty, hf⟩
  · obtain ⟨hinv, out, hout⟩ := selectAndDrawMenu_inv mem hmem k' hk'
    exact ⟨_, out, by simp [hty, hsub, hout], hinv⟩
  · obtain ⟨f, hf'⟩ := Option.ne_none_iff_exists'.mp hf
    obtain ⟨hinv, out, hout⟩ := selectAndDrawMenu_inv mem hmem k hklt
    exact ⟨_, MenuEffect.callCommand f :: out, by simp [hty, hf', hout], hinv⟩
  · obtain ⟨f, hf'⟩ := Option.ne_none_iff_exists'.mp hf
    obtain ⟨row, hrow⟩ := drawMenuItem_defined mem s k t N s.currentMenuItemIdx
      ((s.currentMenuItemIdx + 256 - s.currentMenuTopLineItemIdx) % 256) hk ht hwf
      (by omega) h4
    exact ⟨s, MenuEffect.callToggle f true :: row, by simp [hty, hf', hrow], hs⟩

/-- One turn of the loop of `displayAndExecuteMenu` is defined and keeps the cursor
invariant, whatever byte `getButtonEvent` returned. -/
lemma menuLoopBody_inv (mem : MenuMemory) (hmem : MemoryWF mem) (s : MenuCursor)
    (buttonEvent : Nat) (hs : CursorInv mem s) :
    ∃ s' r out, menuLoopBody mem s buttonEvent = some (s', r, out) ∧ CursorInv mem s' := by
  have hs' := hs
  obtain ⟨k, t, N, hk, ht, hwf, h1, h2, h3, h4⟩ := hs'
  simp only [MAX_MENU_ITEMS_TO_DISPLAY] at h2
  have hwf' := hwf
  obtain ⟨hN1, h255, ⟨hd, hhd, hhty⟩, hreal, ⟨e, he, hend⟩⟩ := hwf'
  by_cases hdown : buttonEvent = BUTTON_ID_DOWN + BUTTON_PUSHED_EVENT ∨
      buttonEvent = BUTTON_ID_DOWN + BUTTON_REPEAT_EVENT
  · rw [menuLoopBody, if_pos hdown]
    have hnew : (s.currentMenuItemIdx + 1) % 256 = s.currentMenuItemIdx + 1 :=
      Nat.mod_eq_of_lt (by omega)
    simp only [hnew, hk, readMenuItem_some mem k t _ ht]
    by_cases hlast : s.currentMenuItemIdx = N
    · rw [hlast, he]
      exact ⟨s, false, [], by simp [hend], hs⟩
    · have hle : s.currentMenuItemIdx + 1 ≤ N := by omega
      obtain ⟨item, hitem, hty⟩ := hreal (s.currentMenuItemIdx + 1) (by omega) hle
      have hne : item.MenuItemType ≠ MENU_ITEM_TYPE_END_OF_MENU := by
        rcases hty with ⟨hty, _⟩ | ⟨hty, _⟩ | ⟨hty, _⟩ <;> simp [hty]
      rw [hitem]
      simp only [if_neg hne]
      by_cases hscroll : ((s.currentMenuItemIdx + 1 : Nat) : Int) -
          (s.currentMenuTopLineItemIdx : Int) ≥ (MAX_MENU_ITEMS_TO_DISPLAY : Int)
      · rw [if_pos hscroll]
        simp only [MAX_MENU_ITEMS_TO_DISPLAY] at hscroll
        have htop : (s.currentMenuTopLineItemIdx + 1) % 256 =
            s.currentMenuTopLineItemIdx + 1 := Nat.mod_eq_of_lt (by omega)
        have hinv : CursorInv mem ⟨some k, s.currentMenuItemIdx + 1,
            s.currentMenuTopLineItemIdx + 1⟩ :=
          ⟨k, t, N, rfl, ht, hwf, by simp only []; omega,
            by simp only [MAX_MENU_ITEMS_TO_DISPLAY]; omega, by simp only []; omega,
            hle⟩
        obtain ⟨rows, hrows⟩ := drawMenu_defined mem _ hinv
        simp only [htop, hrows]
        exact ⟨_, false, rows, rfl, hinv⟩
      · rw [if_neg hscroll]
        simp only [MAX_MENU_ITEMS_TO_DISPLAY] at hscroll
        have hinv : CursorInv mem ⟨some k, s.currentMenuItemIdx + 1,
            s.currentMenuTopLineItemIdx⟩ :=
          ⟨k, t, N, rfl, ht, hwf, by simp only []; omega,
            by simp only [MAX_MENU_ITEMS_TO_DISPLAY]; omega, by simp only []; omega,
            hle⟩
        obtain ⟨rows, hrows⟩ := drawMenu_defined mem _ hinv
        simp only [hrows]
        exact ⟨_, false, rows, rfl, hinv⟩
  by_cases hup : buttonEvent = BUTTON_ID_UP + BUTTON_PUSHED_EVENT ∨
      buttonEvent = BUTTON_ID_UP + BUTTON_REPEAT_EVENT
  · rw [menuLoopBody, if_neg hdown, if_pos hup]
    have hnew : (s.currentMenuItemIdx + 255) % 256 = s.currentMenuItemIdx - 1 := by omega
    simp only [hnew, hk]
    by_cases hfirst : s.currentMenuItemIdx - 1 = 0
    · rw [if_pos hfirst]
      exact ⟨s, false, [], rfl, hs⟩
    · rw [if_neg hfirst]
      by_cases hscroll : ((s.currentMenuItemIdx - 1 : Nat) : Int) -
          (s.currentMenuTopLineItemIdx : Int) < 0
      · rw [if_pos hscroll]
        have htop : (s.currentMenuTopLineItemIdx + 255) % 256 =
            s.currentMenuTopLineItemIdx - 1 := by omega
        have hinv : CursorInv mem ⟨some k, s.currentMenuItemIdx - 1,
            s.currentMenuTopLineItemIdx - 1⟩ :=
          ⟨k, t, N, rfl, ht, hwf, by simp only []; omega,
            by simp only [MAX_MENU_ITEMS_TO_DISPLAY]; omega, by simp only []; omega,
            by simp only []; omega⟩
        obtain ⟨rows, hrows⟩ := drawMenu_defined mem _ hinv
        simp only [htop, hrows]
        exact ⟨_, false, rows, rfl, hinv⟩
      · rw [if_neg hscroll]
        have hinv : CursorInv mem ⟨some k, s.currentMenuItemIdx - 1,
            s.currentMenuTopLineItemIdx⟩ :=
          ⟨k, t, N, rfl, ht, hwf, by simp only []; omega,
            by simp only [MAX_MENU_ITEMS_TO_DISPLAY]; omega, by simp only []; omega,
            by simp only []; omega⟩
        obtain ⟨rows, hrows⟩ := drawMenu_defined mem _ hinv
        simp only [hrows]
        exact ⟨_, false, rows, rfl, hinv⟩
  by_cases hsel : buttonEvent = BUTTON_ID_SELECT + BUTTON_PUSHED_EVENT
  · rw [menuLoopBody, if_neg hdown, if_neg hup, if_pos hsel]
    obtain ⟨s', out, hex, hinv⟩ := executeMenuItem_inv mem hmem s hs
    exact ⟨s', false, out, by simp [hex], hinv⟩
  by_cases hback : buttonEvent = BUTTON_ID_BACK + BUTTON_PUSHED_EVENT
  · rw [menuLoopBody, if_neg hdown, if_neg hup, if_neg hsel, if_pos hback]
    rw [hk, readMenuItem_some mem k t _ ht, hhd]
    rcases hhty with hmain | ⟨hsub, k', hparent, hk'⟩
    · by_cases hnull : hd.MenuItemSubMenu = none
      · exact ⟨s, true, [], by simp [hmain, hnull], hs⟩
      · exact ⟨s, false, [], by simp [hmain, hnull], hs⟩
    · obtain ⟨hinv, out, hout⟩ := selectAndDrawMenu_inv mem hmem k' hk'
      exact ⟨_, false, out, by simp [hsub, hparent, hout], hinv⟩
  · rw [menuLoopBody, if_neg hdown, if_neg hup, if_neg hsel, if_neg hback]
    exact ⟨s, false, [], rfl, hs⟩

/-- The loop of `displayAndExecuteMenu` is defined and keeps the cursor invariant. -/
lemma menuLoop_inv (mem : MenuMemory) (hmem : MemoryWF mem) (events : List Nat) :
    ∀ s, CursorInv mem s →
      ∃ s' r out, menuLoop mem s events = some (s', r, out) ∧ CursorInv mem s' := by
  induction events with
  | nil => intro s hs; exact ⟨s, false, [], rfl, hs⟩
  | cons ev rest ih =>
    intro s hs
    obtain ⟨s1, r1, out1, h1, hinv1⟩ := menuLoopBody_inv mem hmem s ev hs
    cases r1 with
    | true => exact ⟨s1, true, out1, by simp [menuLoop, h1], hinv1⟩
    | false =>
      obtain ⟨s2, r2, out2, h2, hinv2⟩ := ih s1 hinv1
      exact ⟨s2, r2, out1 ++ out2, by simp [menuLoop, h1, h2], hinv2⟩

/-- C2: for every application whose menu tables are all well-formed (header at index 0,
`N >= 1` real entries, end-of-menu entry at `N + 1 <= 255`, sub-menu and parent links to
tables of the application), and every sequence of bytes returned by `getButtonEvent`,
`displayAndExecuteMenu` is defined and the cursor it reaches satisfies
`topVisibleIndex <= selectedIndex < topVisibleIndex + 4`, `1 <= topVisibleIndex` and
`selectedIndex <= N` for the `N` of the current table. -/
theorem displayAndExecuteMenu_cursor_invariant (mem : MenuMemory) (hmem : MemoryWF mem)
    (root : Nat) (hroot : root < mem.length) (events : List Nat) :
    ∃ s r out, displayAndExecuteMenu mem (some root) events = some (s, r, out) ∧
      ∃ k t N, s.currentMenuTable = some k ∧ mem[k]? = some t ∧ TableWF mem t N ∧
        s.currentMenuTopLineItemIdx ≤ s.currentMenuItemIdx ∧
        s.currentMenuItemIdx < s.currentMenuTopLineItemIdx + 4 ∧
        1 ≤ s.currentMenuTopLineItemIdx ∧ s.currentMenuItemIdx ≤ N := by
  obtain ⟨hinv0, out0, h0⟩ := selectAndDrawMenu_inv mem hmem root hroot
  obtain ⟨s, r, out, h, hinv⟩ := menuLoop_inv mem hmem events _ hinv0
  exact ⟨s, r, out0 ++ out, by simp [displayAndExecuteMenu, h0, h], hinv⟩

/-- The example application is well-formed. -/
lemma exampleMenus_wf : MemoryWF exampleMenus := by
  intro t ht
  simp only [exampleMenus, List.mem_cons, List.mem_singleton, List.not_mem_nil,
    or_false] at ht
  rcases ht with rfl | rfl
  · refine ⟨3, by decide, by decide, ⟨_, rfl, Or.inl rfl⟩, ?_, ⟨_, rfl, rfl⟩⟩
    intro i h1 h3
    interval_cases i
    · exact ⟨_, rfl, Or.inr (Or.inl ⟨rfl, by decide⟩)⟩
    · exact ⟨_, rfl, Or.inr (Or.inr ⟨rfl, by decide⟩)⟩
    · exact ⟨_, rfl, Or.inl ⟨rfl, 1, rfl, by decide⟩⟩
  · refine ⟨5, by decide, by decide, ⟨_, rfl, Or.inr ⟨rfl, 0, rfl, by decide⟩⟩, ?_,
      ⟨_, rfl, rfl⟩⟩
    intro i h1 h5
    interval_cases i
    · exact ⟨_, rfl, Or.inr (Or.inl ⟨rfl, by decide⟩)⟩
    · exact ⟨_, rfl, Or.inr (Or.inl ⟨rfl, by decide⟩)⟩
    · exact ⟨_, rfl, Or.inr (Or.inl ⟨rfl, by decide⟩)⟩
    · exact ⟨_, rfl, Or.inr (Or.inl ⟨rfl, by decide⟩)⟩
    · exact ⟨_, rfl, Or.inr (Or.inl ⟨rfl, by decide⟩)⟩

/-- Witness of `displayAndExecuteMenu_cursor_invariant`: on the example application the
user goes down to Settings, selects it and goes down to its fifth entry, which scrolls;
the cursor is then (table 1, selected 5, top 2). -/
theorem displayAndExecuteMenu_cursor_invariant_witness :
    MemoryWF exampleMenus ∧ 0 < exampleMenus.length ∧
      (displayAndExecuteMenu exampleMenus (some 0) [68, 196, 196, 65, 68, 68, 68, 68]).map
          (fun x => x.1) = some ⟨some 1, 5, 2⟩ ∧
      ∃ s r out,
        displayAndExecuteMenu exampleMenus (some 0) [68, 196, 196, 65, 68, 68, 68, 68] =
          some (s, r, out) ∧
        ∃ k t N, s.currentMenuTable = some k ∧ exampleMenus[k]? = some t ∧
          TableWF exampleMenus t N ∧
          s.currentMenuTopLineItemIdx ≤ s.currentMenuItemIdx ∧
          s.currentMenuItemIdx < s.currentMenuTopLineItemIdx + 4 ∧
          1 ≤ s.currentMenuTopLineItemIdx ∧ s.currentMenuItemIdx ≤ N :=
  ⟨exampleMenus_wf, by decide, by decide,
    displayAndExecuteMenu_cursor_invariant exampleMenus exampleMenus_wf 0 (by decide)
      [68, 196, 196, 65, 68, 68, 68, 68]⟩

/-! ## Theorems: the integer slider -/

/-- The needle computation of `drawSlider` is defined when the 16-bit difference of the
bounds is not 0. -/
lemma drawSliderNeedleLength_defined (s : Slider)
    (h : toInt16 (s.sliderDisplayMaxValue - s.sliderDisplayMinValue) ≠ 0) :
    ∃ n, drawSliderNeedleLength s = some n := by
  have hd : toInt32 (toInt16 (s.sliderDisplayMaxValue - s.sliderDisplayMinValue)) ≠ 0 := by
    unfold toInt32 toInt16 at *
    omega
  unfold drawSliderNeedleLength
  simp only [if_neg hd]
  exact ⟨_, rfl⟩

/-- The needle computation of `drawSlider` is undefined when the 16-bit difference of the
bounds is 0, whatever the value. -/
lemma drawSliderNeedleLength_undefined (s : Slider)
    (h : toInt16 (s.sliderDisplayMaxValue - s.sliderDisplayMinValue) = 0) :
    drawSliderNeedleLength s = none := by
  unfold drawSliderNeedleLength
  simp only [h]
  rfl

/-- The function `displaySlider` in terms of its loop, when the 16-bit difference of the
bounds is not 0. -/
lemma displaySlider_eq (minValue maxValue step initialValue repeatCount : Int)
    (events : List Nat) (hrange : toInt16 (maxValue - minValue) ≠ 0) :
    displaySlider minValue maxValue step initialValue repeatCount events =
      some ((sliderLoop ⟨minValue, maxValue, step, initialValue, repeatCount⟩ events).1,
        (sliderLoop ⟨minValue, maxValue, step, initialValue, repeatCount⟩ events).2.1,
        [SliderEffect.clearDisplaySpace, SliderEffect.printLabel,
          SliderEffect.drawSlider initialValue, SliderEffect.drawButtonBar "Set" "Cancel"] ++
          (sliderLoop ⟨minValue, maxValue, step, initialValue, repeatCount⟩ events).2.2) := by
  obtain ⟨n, hn⟩ := drawSliderNeedleLength_defined
    ⟨minValue, maxValue, step, initialValue, repeatCount⟩ hrange
  unfold displaySlider
  simp only [hn]

/-- The function `displaySlider` is undefined for every list of events when the 16-bit
difference of the bounds is 0: `drawSlider` divides by zero before the first event. -/
lemma displaySlider_undefined (minValue maxValue step initialValue repeatCount : Int)
    (events : List Nat) (hrange : toInt16 (maxValue - minValue) = 0) :
    displaySlider minValue maxValue step initialValue repeatCount events = none := by
  unfold displaySlider
  simp only [drawSliderNeedleLength_undefined
    ⟨minValue, maxValue, step, initialValue, repeatCount⟩ hrange]

/-- C3 (code at the failing input): `displaySlider(0, 100, 20000, 0, ...)` handles Down
Pushed and then 15 Down Repeated events. At the 16th event the repeat count is 16, the
`unsigned int` product `20000 * 2 = 40000` is stored in the `int` `stepSize` as -25536,
the candidate `0 - (-25536) = 25536` is not below the minimum, so 25536 is stored and passed
to the callback with `SLIDER_DISPLAY_VALUE_CHANGED`, although the maximum is 100. -/
theorem displaySlider_value_above_max :
    (0 : Int) ≤ 0 ∧ (0 : Int) ≤ 100 ∧ (0 : Int) < 20000 ∧
    sliderStepSize 20000 16 = -25536 ∧
    displaySlider 0 100 20000 0 0
        ((BUTTON_ID_DOWN + BUTTON_PUSHED_EVENT) ::
          List.replicate 15 (BUTTON_ID_DOWN + BUTTON_REPEAT_EVENT)) =
      some (⟨0, 100, 20000, 25536, 16⟩, false,
        [SliderEffect.clearDisplaySpace, SliderEffect.printLabel, SliderEffect.drawSlider 0,
          SliderEffect.drawButtonBar "Set" "Cancel",
          SliderEffect.callback SLIDER_DISPLAY_VALUE_CHANGED 25536,
          SliderEffect.drawSlider 25536]) ∧
    ¬ (25536 : Int) ≤ 100 :=
  ⟨by decide, by decide, by decide, by decide,
    by
      rw [displaySlider_eq 0 100 20000 0 0 _ (by decide)]
      simp [sliderLoop, sliderLoopBody, sliderDown, sliderStepSize, toInt16,
        toUInt16, List.replicate], by decide⟩

lemma toUInt16_of_range (x : Int) (h0 : 0 ≤ x) (h1 : x ≤ 65535) : toUInt16 x = x := by
  unfold toUInt16
  omega

lemma toInt16_of_range (x : Int) (h0 : -32768 ≤ x) (h1 : x ≤ 32767) : toInt16 x = x := by
  unfold toInt16
  omega

/-- The step size is the exact product when the product fits the `int`. -/
lemma sliderStepSize_of_no_overflow (step count : Int) (hstep : 0 < step)
    (hc0 : 0 ≤ count) (hc1 : count ≤ 65535) (hfit : step * (count / 16 + 1) ≤ 32767) :
    sliderStepSize step count = step * (count / 16 + 1) ∧ 0 < step * (count / 16 + 1) := by
  have hq0 : 0 ≤ count / 16 := by omega
  have hq1 : count / 16 + 1 ≤ 65535 := by omega
  have hle : step ≤ step * (count / 16 + 1) := by nlinarith
  have hpos : 0 < step * (count / 16 + 1) := by nlinarith
  refine ⟨?_, hpos⟩
  unfold sliderStepSize
  rw [toUInt16_of_range step (by omega) (by omega),
    toUInt16_of_range (count / 16 + 1) (by omega) hq1,
    toUInt16_of_range _ (by omega) (by omega), toInt16_of_range _ (by omega) hfit]

/-- Away from 16-bit overflow a Down turn keeps the value within `[min, max]`: `count` is
the repeat count the turn uses. -/
lemma sliderDown_bounds_of_no_overflow (s : Slider) (count : Int)
    (hcount : count = toUInt16 (s.sliderDisplayRepeatCount + 1))
    (hinv : s.sliderDisplayMinValue ≤ s.sliderDisplayValue ∧
      s.sliderDisplayValue ≤ s.sliderDisplayMaxValue)
    (hv : -32768 ≤ s.sliderDisplayValue ∧ s.sliderDisplayValue ≤ 32767)
    (hstep : 0 < s.sliderDisplayStep)
    (hfit : s.sliderDisplayStep * (count / 16 + 1) ≤ 32767)
    (hlo : -32768 ≤ s.sliderDisplayValue - s.sliderDisplayStep * (count / 16 + 1)) :
    s.sliderDisplayMinValue ≤ (sliderDown s).1.sliderDisplayValue ∧
    (sliderDown s).1.sliderDisplayValue ≤ s.sliderDisplayMaxValue ∧
    ∀ v, SliderEffect.callback SLIDER_DISPLAY_VALUE_CHANGED v ∈ (sliderDown s).2 →
      v = (sliderDown s).1.sliderDisplayValue := by
  obtain ⟨mn, mx, st, v, rc⟩ := s
  simp only [] at hcount hinv hv hstep hfit hlo
  have hcr : 0 ≤ count ∧ count ≤ 65535 := by
    rw [hcount]
    unfold toUInt16
    omega
  obtain ⟨hsz, hpos⟩ := sliderStepSize_of_no_overflow st count hstep hcr.1 hcr.2 hfit
  generalize st * (count / 16 + 1) = k at *
  have hnew : toInt16 (v - k) = v - k := toInt16_of_range _ hlo (by omega)
  simp only [sliderDown, ← hcount, hsz, hnew]
  split_ifs <;> simp <;> omega

/-- Away from 16-bit overflow an Up turn keeps the value within `[min, max]`. -/
lemma sliderUp_bounds_of_no_overflow (s : Slider) (count : Int)
    (hcount : count = toUInt16 (s.sliderDisplayRepeatCount + 1))
    (hinv : s.sliderDisplayMinValue ≤ s.sliderDisplayValue ∧
      s.sliderDisplayValue ≤ s.sliderDisplayMaxValue)
    (hv : -32768 ≤ s.sliderDisplayValue ∧ s.sliderDisplayValue ≤ 32767)
    (hstep : 0 < s.sliderDisplayStep)
    (hfit : s.sliderDisplayStep * (count / 16 + 1) ≤ 32767)
    (hhi : s.sliderDisplayValue + s.sliderDisplayStep * (count / 16 + 1) ≤ 32767) :
    s.sliderDisplayMinValue ≤ (sliderUp s).1.sliderDisplayValue ∧
    (sliderUp s).1.sliderDisplayValue ≤ s.sliderDisplayMaxValue ∧
    ∀ v, SliderEffect.callback SLIDER_DISPLAY_VALUE_CHANGED v ∈ (sliderUp s).2 →
      v = (sliderUp s).1.sliderDisplayValue := by
  obtain ⟨mn, mx, st, v, rc⟩ := s
  simp only [] at hcount hinv hv hstep hfit hhi
  have hcr : 0 ≤ count ∧ count ≤ 65535 := by
    rw [hcount]
    unfold toUInt16
    omega
  obtain ⟨hsz, hpos⟩ := sliderStepSize_of_no_overflow st count hstep hcr.1 hcr.2 hfit
  generalize st * (count / 16 + 1) = k at *
  have hnew : toInt16 (v + k) = v + k := toInt16_of_range _ (by omega) hhi
  simp only [sliderUp, ← hcount, hsz, hnew]
  split_ifs <;> simp <;> omega

/-! ## Theorems: the steps of the menu loop -/

/-- A Down turn on a well-formed table with `N` real entries: the entry after the selected
one is the end-of-menu entry exactly when `selectedIndex = N`; then nothing changes,
otherwise the selection moves down and the page scrolls when the selection leaves it. -/
lemma menuLoopBody_down_of_wf (mem : MenuMemory) (s : MenuCursor) (buttonEvent : Nat)
    (k : Nat) (t : List MENU_ITEM) (N : Nat) (hk : s.currentMenuTable = some k)
    (ht : mem[k]? = some t) (hwf : TableWF mem t N)
    (h1 : s.currentMenuTopLineItemIdx ≤ s.currentMenuItemIdx)
    (h2 : s.currentMenuItemIdx < s.currentMenuTopLineItemIdx + 4)
    (h3 : 1 ≤ s.currentMenuTopLineItemIdx) (h4 : s.currentMenuItemIdx ≤ N)
    (hev : buttonEvent = BUTTON_ID_DOWN + BUTTON_PUSHED_EVENT ∨
      buttonEvent = BUTTON_ID_DOWN + BUTTON_REPEAT_EVENT) :
    ∃ next, t[s.currentMenuItemIdx + 1]? = some next ∧
      (next.MenuItemType = MENU_ITEM_TYPE_END_OF_MENU ↔ s.currentMenuItemIdx = N) ∧
      (s.currentMenuItemIdx = N → menuLoopBody mem s buttonEvent = some (s, false, [])) ∧
      (s.currentMenuItemIdx ≠ N →
        ∃ rows, menuLoopBody mem s buttonEvent =
          some (⟨s.currentMenuTable, s.currentMenuItemIdx + 1,
              if s.currentMenuItemIdx + 1 > s.currentMenuTopLineItemIdx + 3 then
                s.currentMenuTopLineItemIdx + 1
              else s.currentMenuTopLineItemIdx⟩, false, rows)) := by
  have hwf' := hwf
  obtain ⟨hN1, h255, -, hreal, ⟨e, he, hend⟩⟩ := hwf'
  have hnew : (s.currentMenuItemIdx + 1) % 256 = s.currentMenuItemIdx + 1 :=
    Nat.mod_eq_of_lt (by omega)
  rw [menuLoopBody, if_pos hev]
  simp only [hnew, hk, readMenuItem_some mem k t _ ht]
  by_cases hlast : s.currentMenuItemIdx = N
  · rw [hlast, he]
    refine ⟨e, rfl, ⟨fun _ => rfl, fun _ => hend⟩, fun _ => ?_, fun hne => absurd rfl hne⟩
    simp [hend]
  · have hle : s.currentMenuItemIdx + 1 ≤ N := by omega
    obtain ⟨item, hitem, hty⟩ := hreal (s.currentMenuItemIdx + 1) (by omega) hle
    have hne : item.MenuItemType ≠ MENU_ITEM_TYPE_END_OF_MENU := by
      rcases hty with ⟨hty, _⟩ | ⟨hty, _⟩ | ⟨hty, _⟩ <;> simp [hty]
    rw [hitem]
    refine ⟨item, rfl, ⟨fun hend' => absurd hend' hne, fun h => absurd h hlast⟩,
      fun h => absurd h hlast, fun _ => ?_⟩
    simp only [if_neg hne]
    by_cases hscroll : s.currentMenuItemIdx + 1 > s.currentMenuTopLineItemIdx + 3
    · have hscroll' : ((s.currentMenuItemIdx + 1 : Nat) : Int) -
          (s.currentMenuTopLineItemIdx : Int) ≥ (MAX_MENU_ITEMS_TO_DISPLAY : Int) := by
        simp only [MAX_MENU_ITEMS_TO_DISPLAY]
        omega
      have htop : (s.currentMenuTopLineItemIdx + 1) % 256 =
          s.currentMenuTopLineItemIdx + 1 := Nat.mod_eq_of_lt (by omega)
      have hinv : CursorInv mem ⟨some k, s.currentMenuItemIdx + 1,
          s.currentMenuTopLineItemIdx + 1⟩ :=
        ⟨k, t, N, rfl, ht, hwf, by simp only []; omega,
          by simp only [MAX_MENU_ITEMS_TO_DISPLAY]; omega, by simp only []; omega, hle⟩
      obtain ⟨rows, hrows⟩ := drawMenu_defined mem _ hinv
      rw [if_pos hscroll', if_pos hscroll]
      simp only [htop, hrows]
      exact ⟨rows, rfl⟩
    · have hscroll' : ¬ ((s.currentMenuItemIdx + 1 : Nat) : Int) -
          (s.currentMenuTopLineItemIdx : Int) ≥ (MAX_MENU_ITEMS_TO_DISPLAY : Int) := by
        simp only [MAX_MENU_ITEMS_TO_DISPLAY]
        omega
      have hinv : CursorInv mem ⟨some k, s.currentMenuItemIdx + 1,
          s.currentMenuTopLineItemIdx⟩ :=
        ⟨k, t, N, rfl, ht, hwf, by simp only []; omega,
          by simp only [MAX_MENU_ITEMS_TO_DISPLAY]; omega, by simp only []; omega, hle⟩
      obtain ⟨rows, hrows⟩ := drawMenu_defined mem _ hinv
      rw [if_neg hscroll', if_neg hscroll]
      simp only [hrows]
      exact ⟨rows, rfl⟩

/-- C12: for every cursor that satisfies the cursor invariant on a well-formed table, a
Down Pushed or Down Repeated event reads the entry at `selectedIndex + 1`; if that entry is
the end-of-menu entry the turn changes nothing and draws nothing; otherwise
`selectedIndex` increases by 1, `topVisibleIndex` increases by 1 if the new `selectedIndex`
exceeds `topVisibleIndex + 3` and is unchanged otherwise, the current table is unchanged,
and the function does not return. -/
theorem menuLoopBody_down (mem : MenuMemory) (s : MenuCursor) (buttonEvent : Nat)
    (hs : CursorInv mem s)
    (hev : buttonEvent = BUTTON_ID_DOWN + BUTTON_PUSHED_EVENT ∨
      buttonEvent = BUTTON_ID_DOWN + BUTTON_REPEAT_EVENT) :
    ∃ next, readMenuItem mem s.currentMenuTable (s.currentMenuItemIdx + 1) = some next ∧
      (next.MenuItemType = MENU_ITEM_TYPE_END_OF_MENU →
        menuLoopBody mem s buttonEvent = some (s, false, [])) ∧
      (next.MenuItemType ≠ MENU_ITEM_TYPE_END_OF_MENU →
        ∃ rows, menuLoopBody mem s buttonEvent =
          some (⟨s.currentMenuTable, s.currentMenuItemIdx + 1,
              if s.currentMenuItemIdx + 1 > s.currentMenuTopLineItemIdx + 3 then
                s.currentMenuTopLineItemIdx + 1
              else s.currentMenuTopLineItemIdx⟩, false, rows)) := by
  obtain ⟨k, t, N, hk, ht, hwf, h1, h2, h3, h4⟩ := hs
  obtain ⟨next, hnext, hiff, hlast, hmove⟩ :=
    menuLoopBody_down_of_wf mem s buttonEvent k t N hk ht hwf h1 h2 h3 h4 hev
  refine ⟨next, ?_, fun hend => hlast (hiff.mp hend), fun hne => hmove (fun h => hne (hiff.mpr h))⟩
  rw [hk, readMenuItem_some mem k t _ ht, hnext]

/-- C13: for every cursor that satisfies the cursor invariant, an Up Pushed or Up Repeated
event changes nothing and draws nothing if `selectedIndex` is 1; otherwise `selectedIndex`
decreases by 1, `topVisibleIndex` decreases by 1 if the new `selectedIndex` is below
`topVisibleIndex` and is unchanged otherwise, the current table is unchanged, and the
function does not return. -/
theorem menuLoopBody_up (mem : MenuMemory) (s : MenuCursor) (buttonEvent : Nat)
    (hs : CursorInv mem s)
    (hev : buttonEvent = BUTTON_ID_UP + BUTTON_PUSHED_EVENT ∨
      buttonEvent = BUTTON_ID_UP + BUTTON_REPEAT_EVENT) :
    (s.currentMenuItemIdx = 1 → menuLoopBody mem s buttonEvent = some (s, false, [])) ∧
    (s.currentMenuItemIdx ≠ 1 →
      ∃ rows, menuLoopBody mem s buttonEvent =
        some (⟨s.currentMenuTable, s.currentMenuItemIdx - 1,
            if s.currentMenuItemIdx - 1 < s.currentMenuTopLineItemIdx then
              s.currentMenuTopLineItemIdx - 1
            else s.currentMenuTopLineItemIdx⟩, false, rows)) := by
  have hs' := hs
  obtain ⟨k, t, N, hk, ht, hwf, h1, h2, h3, h4⟩ := hs'
  simp only [MAX_MENU_ITEMS_TO_DISPLAY] at h2
  have h255 : N + 1 ≤ 255 := hwf.2.1
  have hdown : ¬ (buttonEvent = BUTTON_ID_DOWN + BUTTON_PUSHED_EVENT ∨
      buttonEvent = BUTTON_ID_DOWN + BUTTON_REPEAT_EVENT) := by
    rcases hev with h | h <;> simp [h]
  have hnew : (s.currentMenuItemIdx + 255) % 256 = s.currentMenuItemIdx - 1 := by omega
  rw [menuLoopBody, if_neg hdown, if_pos hev]
  simp only [hnew, hk]
  constructor
  · intro h
    have hfirst : s.currentMenuItemIdx - 1 = 0 := by omega
    rw [if_pos hfirst]
  · intro h
    have hfirst : ¬ s.currentMenuItemIdx - 1 = 0 := by omega
    rw [if_neg hfirst]
    by_cases hscroll : s.currentMenuItemIdx - 1 < s.currentMenuTopLineItemIdx
    · have hscroll' : ((s.currentMenuItemIdx - 1 : Nat) : Int) -
          (s.currentMenuTopLineItemIdx : Int) < 0 := by omega
      have htop : (s.currentMenuTopLineItemIdx + 255) % 256 =
          s.currentMenuTopLineItemIdx - 1 := by omega
      have hinv : CursorInv mem ⟨some k, s.currentMenuItemIdx - 1,
          s.currentMenuTopLineItemIdx - 1⟩ :=
        ⟨k, t, N, rfl, ht, hwf, by simp only []; omega,
          by simp only [MAX_MENU_ITEMS_TO_DISPLAY]; omega, by simp only []; omega,
          by simp only []; omega⟩
      obtain ⟨rows, hrows⟩ := drawMenu_defined mem _ hinv
      rw [if_pos hscroll', if_pos hscroll]
      simp only [htop, hrows]
      exact ⟨rows, rfl⟩
    · have hscroll' : ¬ ((s.currentMenuItemIdx - 1 : Nat) : Int) -
          (s.currentMenuTopLineItemIdx : Int) < 0 := by omega
      have hinv : CursorInv mem ⟨some k, s.currentMenuItemIdx - 1,
          s.currentMenuTopLineItemIdx⟩ :=
        ⟨k, t, N, rfl, ht, hwf, by simp only []; omega,
          by simp only [MAX_MENU_ITEMS_TO_DISPLAY]; omega, by simp only []; omega,
          by simp only []; omega⟩
      obtain ⟨rows, hrows⟩ := drawMenu_defined mem _ hinv
      rw [if_neg hscroll', if_neg hscroll]
      simp only [hrows]
      exact ⟨rows, rfl⟩

/-- The function `selectAndDrawMenu` on a well-formed table is defined, sets the cursor to
the first entry and draws the page and then the button bar. -/
lemma selectAndDrawMenu_of_wf (mem : MenuMemory) (k : Nat) (t : List MENU_ITEM) (N : Nat)
    (hk : mem[k]? = some t) (hwf : TableWF mem t N) :
    ∃ rows h, t[0]? = some h ∧ drawMenu mem ⟨some k, 1, 1⟩ = some rows ∧
      selectAndDrawMenu mem (some k) =
        some (⟨some k, 1, 1⟩,
          MenuEffect.clearDisplaySpace :: rows ++
            [MenuEffect.drawButtonBar "Select"
              (if h.MenuItemType = MENU_ITEM_TYPE_MAIN_MENU_HEADER ∧ h.MenuItemSubMenu ≠ none
                then "" else "Back")]) := by
  have hinv : CursorInv mem ⟨some k, 1, 1⟩ :=
    ⟨k, t, N, rfl, hk, hwf, le_refl _, by simp, le_refl _, hwf.1⟩
  obtain ⟨rows, hrows⟩ := drawMenu_defined mem _ hinv
  obtain ⟨_, _, ⟨h, hh, _⟩, _, _⟩ := hwf
  refine ⟨rows, h, hh, hrows, ?_⟩
  unfold selectAndDrawMenu
  simp only [hrows, readMenuItem_some mem k _ 0 hk, hh]
  split_ifs <;> rfl

/-- What `drawMenuItem` does: a Toggle entry calls its function once, with
`toggleMenuChangeStateFlag = false`, and then draws its row; a SubMenu or Command entry
draws its row; any other entry draws nothing. -/
lemma drawMenuItem_effects (mem : MenuMemory) (s : MenuCursor) (menuIdx menuLine : Nat)
    (out : List MenuEffect) (h : drawMenuItem mem s menuIdx menuLine = some out) :
    ∃ item, readMenuItem mem s.currentMenuTable menuIdx = some item ∧
      ((item.MenuItemType = MENU_ITEM_TYPE_TOGGLE ∧ ∃ f, item.MenuItemFunction = some f ∧
          out = [MenuEffect.callToggle f false,
            MenuEffect.drawRow menuIdx menuLine (decide (menuIdx = s.currentMenuItemIdx))]) ∨
        (item.MenuItemType ≠ MENU_ITEM_TYPE_TOGGLE ∧
          (out = [MenuEffect.drawRow menuIdx menuLine
              (decide (menuIdx = s.currentMenuItemIdx))] ∨ out = []))) := by
  unfold drawMenuItem at h
  cases hread : readMenuItem mem s.currentMenuTable menuIdx with
  | none => rw [hread] at h; simp at h
  | some item =>
    rw [hread] at h
    refine ⟨item, rfl, ?_⟩
    simp only [] at h
    by_cases h2 : item.MenuItemType = MENU_ITEM_TYPE_SUB_MENU
    · rw [if_pos h2] at h
      exact Or.inr ⟨by simp [h2], Or.inl (Option.some.inj h).symm⟩
    rw [if_neg h2] at h
    by_cases h3 : item.MenuItemType = MENU_ITEM_TYPE_COMMAND
    · rw [if_pos h3] at h
      exact Or.inr ⟨by simp [h3], Or.inl (Option.some.inj h).symm⟩
    rw [if_neg h3] at h
    by_cases h4 : item.MenuItemType = MENU_ITEM_TYPE_TOGGLE
    · rw [if_pos h4] at h
      cases hf : item.MenuItemFunction with
      | none => rw [hf] at h; simp at h
      | some f =>
        rw [hf] at h
        exact Or.inl ⟨h4, f, rfl, (Option.some.inj h).symm⟩
    · rw [if_neg h4] at h
      exact Or.inr ⟨h4, Or.inr (Option.some.inj h).symm⟩

lemma drawMenuItem_queryOnly (mem : MenuMemory) (s : MenuCursor) (menuIdx menuLine : Nat)
    (out rest : List MenuEffect) (h : drawMenuItem mem s menuIdx menuLine = some out)
    (hrest : queryOnlyRows rest = true) : queryOnlyRows (out ++ rest) = true := by
  obtain ⟨item, -, ⟨-, f, -, rfl⟩ | ⟨-, rfl | rfl⟩⟩ := drawMenuItem_effects mem s _ _ out h
  · simp [queryOnlyRows, hrest]
  · simp [queryOnlyRows, hrest]
  · simpa using hrest

/-- The effects of the loop of `drawMenu` are rows and query calls, each call directly
followed by a row. -/
lemma drawMenuLines_queryOnly (mem : MenuMemory) (s : MenuCursor) (n : Nat) :
    ∀ menuIdx menuLine rows, drawMenuLines mem s n menuIdx menuLine = some rows →
      queryOnlyRows rows = true := by
  induction n with
  | zero =>
    intro menuIdx menuLine rows h
    simp only [drawMenuLines, Option.some.injEq] at h
    rw [← h]
    rfl
  | succ n ih =>
    intro menuIdx menuLine rows h
    unfold drawMenuLines at h
    cases hread : readMenuItem mem s.currentMenuTable menuIdx with
    | none => rw [hread] at h; simp at h
    | some item =>
      rw [hread] at h
      simp only [] at h
      by_cases hend : item.MenuItemType = MENU_ITEM_TYPE_END_OF_MENU
      · rw [if_pos hend] at h
        rw [← Option.some.inj h]
        rfl
      · rw [if_neg hend] at h
        cases hrow : drawMenuItem mem s menuIdx menuLine with
        | none => rw [hrow] at h; simp at h
        | some row =>
          rw [hrow] at h
          cases hrows : drawMenuLines mem s n ((menuIdx + 1) % 256) (menuLine + 1) with
          | none => rw [hrows] at h; simp at h
          | some rows' =>
            rw [hrows] at h
            rw [← Option.some.inj h]
            exact drawMenuItem_queryOnly mem s _ _ row rows' hrow (ih _ _ _ hrows)

/-- Rows and query calls are effects that neither advance a toggle nor run a command, and
none of them is the button bar. -/
lemma queryOnlyRows_mem (rows : List MenuEffect) (h : queryOnlyRows rows = true) :
    ∀ e ∈ rows, (∃ i l b, e = MenuEffect.drawRow i l b) ∨
      ∃ f, e = MenuEffect.callToggle f false := by
  induction rows with
  | nil => intro e he; simp at he
  | cons x xs ih =>
    intro e he
    cases x with
    | drawRow i l b =>
      simp only [queryOnlyRows] at h
      rcases List.mem_cons.mp he with rfl | he'
      · exact Or.inl ⟨i, l, b, rfl⟩
      · exact ih h e he'
    | callToggle f flag =>
      simp only [queryOnlyRows, Bool.and_eq_true, Bool.not_eq_true'] at h
      rcases List.mem_cons.mp he with rfl | he'
      · exact Or.inr ⟨f, by rw [h.1.1]⟩
      · exact ih h.2 e he'
    | clearDisplaySpace => simp [queryOnlyRows] at h
    | callCommand f => simp [queryOnlyRows] at h
    | drawButtonBar l r => simp [queryOnlyRows] at h

lemma queryOnlyRows_queryEffect (rows : List MenuEffect) (h : queryOnlyRows rows = true) :
    ∀ e ∈ rows, queryEffect e = true := by
  intro e he
  rcases queryOnlyRows_mem rows h e he with ⟨i, l, b, rfl⟩ | ⟨f, rfl⟩ <;> rfl

/-- Every effect of `selectAndDrawMenu` is one that neither advances a toggle nor runs a
command. -/
lemma selectAndDrawMenu_queryEffect (mem : MenuMemory) (menu : Option Nat) (s : MenuCursor)
    (out : List MenuEffect) (h : selectAndDrawMenu mem menu = some (s, out)) :
    ∀ e ∈ out, queryEffect e = true := by
  unfold selectAndDrawMenu at h
  simp only [] at h
  cases hrows : drawMenu mem ⟨menu, 1, 1⟩ with
  | none => rw [hrows] at h; simp at h
  | some rows =>
    rw [hrows] at h
    have hq := queryOnlyRows_queryEffect rows (drawMenuLines_queryOnly mem _ _ _ _ _ hrows)
    cases hhd : readMenuItem mem menu 0 with
    | none => rw [hhd] at h; simp at h
    | some header =>
      rw [hhd] at h
      simp only [] at h
      intro e he
      split_ifs at h
      all_goals
        simp only [Option.some.injEq, Prod.mk.injEq] at h
        rw [← h.2] at he
        simp only [List.mem_cons, List.mem_append, List.mem_singleton, List.not_mem_nil,
          or_false] at he
        rcases he with (rfl | he) | rfl
        · rfl
        · exact hq e he
        · rfl

/-- The main menu of the example application is well-formed, with three real entries. -/
lemma mainMenu_wf : TableWF exampleMenus mainMenu 3 := by
  refine ⟨by decide, by decide, ⟨_, rfl, Or.inl rfl⟩, ?_, ⟨_, rfl, rfl⟩⟩
  intro i h1 h3
  interval_cases i
  · exact ⟨_, rfl, Or.inr (Or.inl ⟨rfl, by decide⟩)⟩
  · exact ⟨_, rfl, Or.inr (Or.inr ⟨rfl, by decide⟩)⟩
  · exact ⟨_, rfl, Or.inl ⟨rfl, 1, rfl, by decide⟩⟩

/-- The settings menu of the example application is well-formed, with five real
entries. -/
lemma settingsMenu_wf : TableWF exampleMenus settingsMenu 5 := by
  refine ⟨by decide, by decide, ⟨_, rfl, Or.inr ⟨rfl, 0, rfl, by decide⟩⟩, ?_, ⟨_, rfl, rfl⟩⟩
  intro i h1 h5
  interval_cases i <;> exact ⟨_, rfl, Or.inr (Or.inl ⟨rfl, by decide⟩)⟩

/-- The table `fourItemMenu` is well-formed, with four real entries. -/
lemma fourItemMenu_wf : TableWF [fourItemMenu] fourItemMenu 4 := by
  refine ⟨by decide, by decide, ⟨_, rfl, Or.inl rfl⟩, ?_, ⟨_, rfl, rfl⟩⟩
  intro i h1 h4
  interval_cases i <;> exact ⟨_, rfl, Or.inr (Or.inl ⟨rfl, by decide⟩)⟩

/-- Witness of `menuLoopBody_down`: on the settings menu of the example application with
the fourth entry selected and the first entry on top, Down Pushed selects the fifth entry
and scrolls. -/
theorem menuLoopBody_down_witness :
    CursorInv exampleMenus ⟨some 1, 4, 1⟩ ∧
      (menuLoopBody exampleMenus ⟨some 1, 4, 1⟩ 68).map (fun x => (x.1, x.2.1)) =
        some (⟨some 1, 5, 2⟩, false) ∧
      ∃ next, readMenuItem exampleMenus (some 1) (4 + 1) = some next ∧
        (next.MenuItemType = MENU_ITEM_TYPE_END_OF_MENU →
          menuLoopBody exampleMenus ⟨some 1, 4, 1⟩ 68 = some (⟨some 1, 4, 1⟩, false, [])) ∧
        (next.MenuItemType ≠ MENU_ITEM_TYPE_END_OF_MENU →
          ∃ rows, menuLoopBody exampleMenus ⟨some 1, 4, 1⟩ 68 =
            some (⟨some 1, 4 + 1, if 4 + 1 > 1 + 3 then 1 + 1 else 1⟩, false, rows)) :=
  ⟨⟨1, settingsMenu, 5, rfl, rfl, settingsMenu_wf, by decide, by decide, by decide,
      by decide⟩,
    by decide,
    menuLoopBody_down exampleMenus ⟨some 1, 4, 1⟩ 68
      ⟨1, settingsMenu, 5, rfl, rfl, settingsMenu_wf, by decide, by decide, by decide,
        by decide⟩ (Or.inl (by decide))⟩

/-- Witness of `menuLoopBody_up`: on the settings menu of the example application with
the second entry selected and on top, Up Repeated selects the first entry and scrolls
back. -/
theorem menuLoopBody_up_witness :
    CursorInv exampleMenus ⟨some 1, 2, 2⟩ ∧
      (menuLoopBody exampleMenus ⟨some 1, 2, 2⟩ 195).map (fun x => (x.1, x.2.1)) =
        some (⟨some 1, 1, 1⟩, false) ∧
      ((2 : Nat) = 1 →
        menuLoopBody exampleMenus ⟨some 1, 2, 2⟩ 195 = some (⟨some 1, 2, 2⟩, false, [])) ∧
      ((2 : Nat) ≠ 1 →
        ∃ rows, menuLoopBody exampleMenus ⟨some 1, 2, 2⟩ 195 =
          some (⟨some 1, 2 - 1, if 2 - 1 < 2 then 2 - 1 else 2⟩, false, rows)) :=
  ⟨⟨1, settingsMenu, 5, rfl, rfl, settingsMenu_wf, by decide, by decide, by decide,
      by decide⟩,
    by decide,
    menuLoopBody_up exampleMenus ⟨some 1, 2, 2⟩ 195
      ⟨1, settingsMenu, 5, rfl, rfl, settingsMenu_wf, by decide, by decide, by decide,
        by decide⟩ (Or.inr (by decide))⟩

/-- Down Pushed events on a table with four real entries, from the page that starts at
the first entry: the selection moves down to the fourth entry and the page never
scrolls. -/
lemma menuLoop_down_four (mem : MenuMemory) (root : Nat) (t : List MENU_ITEM)
    (hroot : mem[root]? = some t) (hwf : TableWF mem t 4) (n : Nat) :
    ∀ i, 1 ≤ i → i ≤ 4 →
      ∃ out, menuLoop mem ⟨some root, i, 1⟩
          (List.replicate n (BUTTON_ID_DOWN + BUTTON_PUSHED_EVENT)) =
        some (⟨some root, min (i + n) 4, 1⟩, false, out) := by
  induction n with
  | zero =>
    intro i h1 h4
    exact ⟨[], by simp [menuLoop, Nat.min_eq_left h4]⟩
  | succ n ih =>
    intro i h1 h4
    obtain ⟨next, -, -, hlast, hmove⟩ :=
      menuLoopBody_down_of_wf mem ⟨some root, i, 1⟩ (BUTTON_ID_DOWN + BUTTON_PUSHED_EVENT)
        root t 4 rfl hroot hwf h1 (by simp only []; omega) (le_refl _) h4 (Or.inl rfl)
    simp only [] at hlast hmove
    by_cases hi : i = 4
    · subst hi
      obtain ⟨out, hout⟩ := ih 4 (by omega) (le_refl _)
      refine ⟨[] ++ out, ?_⟩
      have hmin : min (4 + (n + 1)) 4 = min (4 + n) 4 := by omega
      rw [List.replicate_succ, menuLoop, hlast rfl, hmin]
      simp only [hout]
    · obtain ⟨rows, hrows⟩ := hmove hi
      have hno : ¬ i + 1 > 1 + 3 := by omega
      rw [if_neg hno] at hrows
      obtain ⟨out, hout⟩ := ih (i + 1) (by omega) (by omega)
      refine ⟨rows ++ out, ?_⟩
      have hmin : min (i + (n + 1)) 4 = min (i + 1 + n) 4 := by omega
      rw [List.replicate_succ, menuLoop, hrows, hmin]
      simp only [hout]

/-- C11 (counterexample): on the 6-entry main menu `fourItemMenu` the cursor after four
Down Pushed events is (selected 4, top 1): `topVisibleIndex` has not become 2. -/
theorem displayAndExecuteMenu_four_entries_top_stays :
    (displayAndExecuteMenu [fourItemMenu] (some 0)
        (List.replicate 4 (BUTTON_ID_DOWN + BUTTON_PUSHED_EVENT))).map (fun x => x.1) =
      some ⟨some 0, 4, 1⟩ ∧
    ¬ (displayAndExecuteMenu [fourItemMenu] (some 0)
        (List.replicate 4 (BUTTON_ID_DOWN + BUTTON_PUSHED_EVENT))).map
          (fun x => x.1.currentMenuTopLineItemIdx) = some 2 := by
  decide

/-- C11 (amended): on every well-formed table with four real entries (six table entries
with the header and the end-of-menu entry), starting from `selectAndDrawMenu`, after `n`
Down Pushed events `selectedIndex` is `min (n + 1) 4` (it moves from 1 to 4 in three
presses and stays at 4 on the 4th and the 5th press) and `topVisibleIndex` is still 1: the
four entries fit the page of four lines; the function has not returned. -/
theorem displayAndExecuteMenu_four_entries_down (mem : MenuMemory) (root : Nat)
    (t : List MENU_ITEM) (hroot : mem[root]? = some t) (hwf : TableWF mem t 4) (n : Nat) :
    ∃ out, displayAndExecuteMenu mem (some root)
        (List.replicate n (BUTTON_ID_DOWN + BUTTON_PUSHED_EVENT)) =
      some (⟨some root, min (n + 1) 4, 1⟩, false, out) := by
  obtain ⟨rows, h, -, -, hsel⟩ := selectAndDrawMenu_of_wf mem root t 4 hroot hwf
  obtain ⟨out, hout⟩ := menuLoop_down_four mem root t hroot hwf n 1 (le_refl _) (by omega)
  rw [Nat.add_comm 1 n] at hout
  simp only [displayAndExecuteMenu, hsel, hout]
  exact ⟨_, rfl⟩

/-- Witness of `displayAndExecuteMenu_four_entries_down`: five Down Pushed events on
`fourItemMenu`. -/
theorem displayAndExecuteMenu_four_entries_down_witness :
    ([fourItemMenu] : MenuMemory)[0]? = some fourItemMenu ∧
      TableWF [fourItemMenu] fourItemMenu 4 ∧
      ∃ out, displayAndExecuteMenu [fourItemMenu] (some 0)
          (List.replicate 5 (BUTTON_ID_DOWN + BUTTON_PUSHED_EVENT)) =
        some (⟨some 0, min (5 + 1) 4, 1⟩, false, out) :=
  ⟨rfl, fourItemMenu_wf,
    displayAndExecuteMenu_four_entries_down [fourItemMenu] 0 fourItemMenu rfl
      fourItemMenu_wf 5⟩

/-- The loop of `displayAndExecuteMenu` returns to the caller only on Back Pushed with a
current table whose header is a main menu header with a `NULL` fourth field. -/
lemma menuLoopBody_returned (mem : MenuMemory) (s s' : MenuCursor) (buttonEvent : Nat)
    (out : List MenuEffect) (h : menuLoopBody mem s buttonEvent = some (s', true, out)) :
    buttonEvent = BUTTON_ID_BACK + BUTTON_PUSHED_EVENT ∧
      ∃ header, readMenuItem mem s.currentMenuTable 0 = some header ∧
        header.MenuItemType = MENU_ITEM_TYPE_MAIN_MENU_HEADER ∧
        header.MenuItemSubMenu = none := by
  unfold menuLoopBody at h
  by_cases hdown : buttonEvent = BUTTON_ID_DOWN + BUTTON_PUSHED_EVENT ∨
      buttonEvent = BUTTON_ID_DOWN + BUTTON_REPEAT_EVENT
  · rw [if_pos hdown] at h
    simp only [] at h
    split at h
    · simp at h
    · split_ifs at h
      · simp at h
      · split at h <;> simp at h
      · split at h <;> simp at h
  rw [if_neg hdown] at h
  by_cases hup : buttonEvent = BUTTON_ID_UP + BUTTON_PUSHED_EVENT ∨
      buttonEvent = BUTTON_ID_UP + BUTTON_REPEAT_EVENT
  · rw [if_pos hup] at h
    simp only [] at h
    split_ifs at h
    · simp at h
    · split at h <;> simp at h
    · split at h <;> simp at h
  rw [if_neg hup] at h
  by_cases hsel : buttonEvent = BUTTON_ID_SELECT + BUTTON_PUSHED_EVENT
  · rw [if_pos hsel] at h
    split at h <;> simp at h
  rw [if_neg hsel] at h
  by_cases hback : buttonEvent = BUTTON_ID_BACK + BUTTON_PUSHED_EVENT
  · rw [if_pos hback] at h
    refine ⟨hback, ?_⟩
    cases hread : readMenuItem mem s.currentMenuTable 0 with
    | none => rw [hread] at h; simp at h
    | some header =>
      rw [hread] at h
      simp only [] at h
      by_cases hsub : header.MenuItemType = MENU_ITEM_TYPE_SUB_MENU_HEADER
      · rw [if_pos hsub] at h
        split at h <;> simp at h
      rw [if_neg hsub] at h
      by_cases hmain : header.MenuItemType = MENU_ITEM_TYPE_MAIN_MENU_HEADER
      · rw [if_pos hmain] at h
        by_cases hnull : header.MenuItemSubMenu = none
        · exact ⟨header, rfl, hmain, hnull⟩
        · rw [if_neg hnull] at h
          simp at h
      · rw [if_neg hmain] at h
        simp at h
  · rw [if_neg hback] at h
    simp at h

/-- C14: in a well-formed application, for every cursor, whatever `selectedIndex` and
`topVisibleIndex` are: Select Pushed on a SubMenu entry makes the cursor (the table of
that entry, 1, 1), and Back Pushed while the header of the current table is a sub menu
header makes the cursor (the parent table of the header, 1, 1); the function does not
return. -/
theorem menuLoopBody_table_change (mem : MenuMemory) (hmem : MemoryWF mem) (s : MenuCursor) :
    (∀ item child, readMenuItem mem s.currentMenuTable s.currentMenuItemIdx = some item →
      item.MenuItemType = MENU_ITEM_TYPE_SUB_MENU → item.MenuItemSubMenu = some child →
      child < mem.length →
      ∃ out, menuLoopBody mem s (BUTTON_ID_SELECT + BUTTON_PUSHED_EVENT) =
        some (⟨some child, 1, 1⟩, false, out)) ∧
    (∀ header parent, readMenuItem mem s.currentMenuTable 0 = some header →
      header.MenuItemType = MENU_ITEM_TYPE_SUB_MENU_HEADER →
      header.MenuItemSubMenu = some parent → parent < mem.length →
      ∃ out, menuLoopBody mem s (BUTTON_ID_BACK + BUTTON_PUSHED_EVENT) =
        some (⟨some parent, 1, 1⟩, false, out)) := by
  constructor
  · intro item child hitem hty hsub hchild
    obtain ⟨-, out, hout⟩ := selectAndDrawMenu_inv mem hmem child hchild
    exact ⟨out, by simp [menuLoopBody, executeMenuItem, hitem, hty, hsub, hout]⟩
  · intro header parent hhd hty hsub hparent
    obtain ⟨-, out, hout⟩ := selectAndDrawMenu_inv mem hmem parent hparent
    exact ⟨out, by simp [menuLoopBody, hhd, hty, hsub, hout]⟩

/-- Witness of `menuLoopBody_table_change`: in the example application Select Pushed on
the Settings entry of the main menu enters table 1. -/
theorem menuLoopBody_table_change_witness :
    MemoryWF exampleMenus ∧
      readMenuItem exampleMenus (some 0) 3 =
        some ⟨MENU_ITEM_TYPE_SUB_MENU, "Settings", none, some 1⟩ ∧
      1 < exampleMenus.length ∧
      ∃ out, menuLoopBody exampleMenus ⟨some 0, 3, 1⟩ (BUTTON_ID_SELECT + BUTTON_PUSHED_EVENT) =
        some (⟨some 1, 1, 1⟩, false, out) :=
  ⟨exampleMenus_wf, rfl, by decide,
    (menuLoopBody_table_change exampleMenus exampleMenus_wf ⟨some 0, 3, 1⟩).1 _ 1 rfl rfl rfl
      (by decide)⟩

/-- C15: when the header of the current table is a main menu header with a `NULL` fourth
field, a Back Pushed event makes `displayAndExecuteMenu` return to its caller: the turn
of the loop returns with the cursor unchanged and without any effect (no menu action is
invoked, nothing is drawn), and later events are not handled. -/
theorem menuLoopBody_back_dismisses (mem : MenuMemory) (s : MenuCursor) (header : MENU_ITEM)
    (hread : readMenuItem mem s.currentMenuTable 0 = some header)
    (hmain : header.MenuItemType = MENU_ITEM_TYPE_MAIN_MENU_HEADER)
    (hnull : header.MenuItemSubMenu = none) :
    menuLoopBody mem s (BUTTON_ID_BACK + BUTTON_PUSHED_EVENT) = some (s, true, []) ∧
    (∀ rest, menuLoop mem s ((BUTTON_ID_BACK + BUTTON_PUSHED_EVENT) :: rest) =
      some (s, true, [])) ∧
    (∀ s0 out0 rest, selectAndDrawMenu mem s.currentMenuTable = some (s0, out0) →
      displayAndExecuteMenu mem s.currentMenuTable
          ((BUTTON_ID_BACK + BUTTON_PUSHED_EVENT) :: rest) =
        some (s0, true, out0)) := by
  have hbody : menuLoopBody mem s (BUTTON_ID_BACK + BUTTON_PUSHED_EVENT) =
      some (s, true, []) := by
    simp [menuLoopBody, hread, hmain, hnull]
  refine ⟨hbody, fun rest => by rw [menuLoop, hbody], ?_⟩
  intro s0 out0 rest hsel
  have hs0 : s0.currentMenuTable = s.currentMenuTable := by
    unfold selectAndDrawMenu at hsel
    simp only [] at hsel
    split at hsel
    · simp at hsel
    · split at hsel
      · simp at hsel
      · split_ifs at hsel <;>
          (simp only [Option.some.injEq, Prod.mk.injEq] at hsel; rw [← hsel.1])
  have hbody0 : menuLoopBody mem s0 (BUTTON_ID_BACK + BUTTON_PUSHED_EVENT) =
      some (s0, true, []) := by
    simp [menuLoopBody, hs0, hread, hmain, hnull]
  rw [displayAndExecuteMenu, hsel]
  simp only []
  rw [menuLoop, hbody0]
  simp

/-- Witness of `menuLoopBody_back_dismisses`: Back Pushed on `fourItemMenu`, whose header
has a `NULL` fourth field. -/
theorem menuLoopBody_back_dismisses_witness :
    readMenuItem [fourItemMenu] (some 0) 0 =
        some ⟨MENU_ITEM_TYPE_MAIN_MENU_HEADER, "", none, none⟩ ∧
      menuLoopBody [fourItemMenu] ⟨some 0, 2, 1⟩ (BUTTON_ID_BACK + BUTTON_PUSHED_EVENT) =
        some (⟨some 0, 2, 1⟩, true, []) :=
  ⟨rfl,
    (menuLoopBody_back_dismisses [fourItemMenu] ⟨some 0, 2, 1⟩ _ rfl rfl rfl).1⟩

/-- In an application where no main menu header has a `NULL` fourth field, the loop of
`displayAndExecuteMenu` is defined, keeps the cursor invariant and does not return. -/
lemma menuLoop_not_returned (mem : MenuMemory) (hmem : MemoryWF mem)
    (hlink : ∀ k header, k < mem.length → readMenuItem mem (some k) 0 = some header →
      header.MenuItemType = MENU_ITEM_TYPE_MAIN_MENU_HEADER → header.MenuItemSubMenu ≠ none)
    (events : List Nat) :
    ∀ s, CursorInv mem s →
      ∃ s' out, menuLoop mem s events = some (s', false, out) ∧ CursorInv mem s' := by
  induction events with
  | nil => intro s hs; exact ⟨s, [], rfl, hs⟩
  | cons ev rest ih =>
    intro s hs
    obtain ⟨s1, r1, out1, h1, hinv1⟩ := menuLoopBody_inv mem hmem s ev hs
    cases r1 with
    | true =>
      obtain ⟨-, header, hread, hmain, hnull⟩ := menuLoopBody_returned mem s s1 ev out1 h1
      obtain ⟨k, t, N, hk, ht, -⟩ := hs
      have hklt : k < mem.length := by
        rcases Nat.lt_or_ge k mem.length with h | h
        · exact h
        · rw [List.getElem?_eq_none h] at ht
          exact absurd ht (by simp)
      rw [hk] at hread
      exact absurd hnull (hlink k header hklt hread hmain)
    | false =>
      obtain ⟨s2, out2, h2, hinv2⟩ := ih s1 hinv1
      exact ⟨s2, out1 ++ out2, by simp [menuLoop, h1, h2], hinv2⟩

/-- C16: in a well-formed application whose root table has a main menu header that points
back to the root itself and whose other tables all have a sub menu header, for every finite
sequence of bytes returned by `getButtonEvent`, `displayAndExecuteMenu(root)` is defined and
has not returned; and Back Pushed while the root is the current table changes nothing. -/
theorem displayAndExecuteMenu_unremovable_root (mem : MenuMemory) (hmem : MemoryWF mem)
    (root : Nat) (hroot : root < mem.length)
    (hself : ∃ header, readMenuItem mem (some root) 0 = some header ∧
      header.MenuItemType = MENU_ITEM_TYPE_MAIN_MENU_HEADER ∧
      header.MenuItemSubMenu = some root)
    (hothers : ∀ k, k < mem.length → k ≠ root →
      ∃ header, readMenuItem mem (some k) 0 = some header ∧
        header.MenuItemType = MENU_ITEM_TYPE_SUB_MENU_HEADER)
    (events : List Nat) :
    (∃ s out, displayAndExecuteMenu mem (some root) events = some (s, false, out)) ∧
    (∀ s : MenuCursor, s.currentMenuTable = some root →
      menuLoopBody mem s (BUTTON_ID_BACK + BUTTON_PUSHED_EVENT) = some (s, false, [])) := by
  obtain ⟨hroothd, hrootread, hrootmain, hrootlink⟩ := hself
  constructor
  · have hlink : ∀ k header, k < mem.length → readMenuItem mem (some k) 0 = some header →
        header.MenuItemType = MENU_ITEM_TYPE_MAIN_MENU_HEADER →
        header.MenuItemSubMenu ≠ none := by
      intro k header hk hread hmain
      by_cases hkr : k = root
      · subst hkr
        rw [hrootread] at hread
        rw [← Option.some.inj hread, hrootlink]
        simp
      · obtain ⟨h', hread', hsub⟩ := hothers k hk hkr
        rw [hread'] at hread
        rw [← Option.some.inj hread, hsub] at hmain
        simp at hmain
    obtain ⟨hinv0, out0, h0⟩ := selectAndDrawMenu_inv mem hmem root hroot
    obtain ⟨s, out, h, -⟩ := menuLoop_not_returned mem hmem hlink events _ hinv0
    exact ⟨s, out0 ++ out, by simp [displayAndExecuteMenu, h0, h]⟩
  · intro s hs
    simp [menuLoopBody, hs, hrootread, hrootmain, hrootlink]

/-- Witness of `displayAndExecuteMenu_unremovable_root`: the example application, whose
main menu points back to itself, with Back Pushed on the root, in the sub menu and on the
root again. -/
theorem displayAndExecuteMenu_unremovable_root_witness :
    MemoryWF exampleMenus ∧ 0 < exampleMenus.length ∧
      (displayAndExecuteMenu exampleMenus (some 0) [66, 68, 68, 65, 68, 66, 66]).map
          (fun x => (x.1, x.2.1)) = some (⟨some 0, 1, 1⟩, false) ∧
      (∃ s out, displayAndExecuteMenu exampleMenus (some 0) [66, 68, 68, 65, 68, 66, 66] =
        some (s, false, out)) ∧
      (∀ s : MenuCursor, s.currentMenuTable = some 0 →
        menuLoopBody exampleMenus s (BUTTON_ID_BACK + BUTTON_PUSHED_EVENT) =
          some (s, false, [])) :=
  ⟨exampleMenus_wf, by decide, by decide,
    displayAndExecuteMenu_unremovable_root exampleMenus exampleMenus_wf 0 (by decide)
      ⟨_, rfl, rfl, rfl⟩
      (fun k hk hk0 => by
        have hk1 : k = 1 := by
          simp only [exampleMenus, List.length_cons, List.length_nil] at hk
          omega
        subst hk1
        exact ⟨_, rfl, rfl⟩)
      [66, 68, 68, 65, 68, 66, 66]⟩

/-- Outside the tables that the file header documents: the main menu `linkedMainMenu`,
table 0, has a header whose fourth field points to table 1, neither `NULL` nor the menu
itself; the test `MenuItemSubMenu != NULL` of `selectAndDrawMenu` then gives the empty
right label as well. -/
lemma selectAndDrawMenu_empty_label_without_self_link :
    readMenuItem linkedMenus (some 0) 0 =
      some ⟨MENU_ITEM_TYPE_MAIN_MENU_HEADER, "", none, some 1⟩ ∧
    (some 1 : Option Nat) ≠ some 0 ∧
    selectAndDrawMenu linkedMenus (some 0) =
      some (⟨some 0, 1, 1⟩,
        [MenuEffect.clearDisplaySpace, MenuEffect.drawRow 1 0 true,
          MenuEffect.drawButtonBar "Select" ""]) := by
  decide

/-- The button bar in terms of the test of the code: for every well-formed table passed to
`selectAndDrawMenu`, the button bar is drawn once, after the page, with left label
"Select" and with right label "Back" unless the header is a main menu header whose fourth
field is not `NULL`, in which case (and only in that case) the right label is empty; when
the fourth field of the header is `NULL` or points to the table itself, as the file header
documents, that case is the one of a main menu header that points to the table itself. -/
lemma selectAndDrawMenu_button_bar (mem : MenuMemory) (k : Nat) (t : List MENU_ITEM)
    (N : Nat) (hk : mem[k]? = some t) (hwf : TableWF mem t N) :
    ∃ rows header rightButtonText, t[0]? = some header ∧
      selectAndDrawMenu mem (some k) =
        some (⟨some k, 1, 1⟩,
          MenuEffect.clearDisplaySpace :: rows ++
            [MenuEffect.drawButtonBar "Select" rightButtonText]) ∧
      (∀ e ∈ rows, ∀ l r, e ≠ MenuEffect.drawButtonBar l r) ∧
      (rightButtonText = "" ∨ rightButtonText = "Back") ∧
      (rightButtonText = "" ↔
        (header.MenuItemType = MENU_ITEM_TYPE_MAIN_MENU_HEADER ∧
          header.MenuItemSubMenu ≠ none)) ∧
      ((header.MenuItemSubMenu = none ∨ header.MenuItemSubMenu = some k) →
        (rightButtonText = "" ↔
          (header.MenuItemType = MENU_ITEM_TYPE_MAIN_MENU_HEADER ∧
            header.MenuItemSubMenu = some k))) := by
  obtain ⟨rows, header, hhd, hrows, hsel⟩ := selectAndDrawMenu_of_wf mem k t N hk hwf
  have hq := queryOnlyRows_mem rows (drawMenuLines_queryOnly mem _ _ _ _ _ hrows)
  refine ⟨rows, header, _, hhd, hsel, ?_, ?_, ?_, ?_⟩
  · intro e he l r heq
    rcases hq e he with ⟨i, l', b, h⟩ | ⟨f, h⟩ <;> rw [h] at heq <;> cases heq
  · split_ifs
    · exact Or.inl rfl
    · exact Or.inr rfl
  · split_ifs with h
    · exact ⟨fun _ => h, fun _ => rfl⟩
    · exact ⟨fun hc => absurd hc (by decide), fun hc => absurd hc h⟩
  · intro hdoc
    split_ifs with h
    · refine ⟨fun _ => ⟨h.1, ?_⟩, fun _ => rfl⟩
      rcases hdoc with hnone | hself
      · exact absurd hnone h.2
      · exact hself
    · refine ⟨fun hc => absurd hc (by decide), fun hc => absurd ⟨hc.1, ?_⟩ h⟩
      rw [hc.2]
      simp

/-- The lemma `selectAndDrawMenu_button_bar` at the main menu of the example application,
whose header points back to the menu itself. -/
lemma selectAndDrawMenu_button_bar_witness :
    exampleMenus[0]? = some mainMenu ∧ TableWF exampleMenus mainMenu 3 ∧
      selectAndDrawMenu exampleMenus (some 0) =
        some (⟨some 0, 1, 1⟩,
          [MenuEffect.clearDisplaySpace, MenuEffect.drawRow 1 0 true,
            MenuEffect.callToggle 1 false, MenuEffect.drawRow 2 1 false,
            MenuEffect.drawRow 3 2 false, MenuEffect.drawButtonBar "Select" ""]) ∧
      ∃ rows header rightButtonText, mainMenu[0]? = some header ∧
        selectAndDrawMenu exampleMenus (some 0) =
          some (⟨some 0, 1, 1⟩,
            MenuEffect.clearDisplaySpace :: rows ++
              [MenuEffect.drawButtonBar "Select" rightButtonText]) ∧
        (∀ e ∈ rows, ∀ l r, e ≠ MenuEffect.drawButtonBar l r) ∧
        (rightButtonText = "" ∨ rightButtonText = "Back") ∧
        (rightButtonText = "" ↔
          (header.MenuItemType = MENU_ITEM_TYPE_MAIN_MENU_HEADER ∧
            header.MenuItemSubMenu ≠ none)) ∧
        ((header.MenuItemSubMenu = none ∨ header.MenuItemSubMenu = some 0) →
          (rightButtonText = "" ↔
            (header.MenuItemType = MENU_ITEM_TYPE_MAIN_MENU_HEADER ∧
              header.MenuItemSubMenu = some 0))) :=
  ⟨rfl, mainMenu_wf, by decide,
    selectAndDrawMenu_button_bar exampleMenus 0 mainMenu 3 rfl mainMenu_wf⟩

/-- C17: the labels of the button bar. For every well-formed table passed to
`selectAndDrawMenu` whose header has one of the documented forms (the fourth field of a
main menu header is `NULL` or a pointer back to the table itself), the button bar is
drawn once, after the page, with the left label "Select" and with the right label "Back"
unless the header kind is MainMenu and its back-link refers to the table itself, in
which case, and only in that case, the right label is empty. -/
theorem selectAndDrawMenu_button_bar_labels (mem : MenuMemory) (k : Nat)
    (t : List MENU_ITEM) (N : Nat) (hk : mem[k]? = some t) (hwf : TableWF mem t N)
    (hdoc : ∀ header, t[0]? = some header →
      header.MenuItemType = MENU_ITEM_TYPE_MAIN_MENU_HEADER →
      header.MenuItemSubMenu = none ∨ header.MenuItemSubMenu = some k) :
    ∃ rows header rightButtonText, t[0]? = some header ∧
      selectAndDrawMenu mem (some k) =
        some (⟨some k, 1, 1⟩,
          MenuEffect.clearDisplaySpace :: rows ++
            [MenuEffect.drawButtonBar "Select" rightButtonText]) ∧
      (∀ e ∈ rows, ∀ l r, e ≠ MenuEffect.drawButtonBar l r) ∧
      (rightButtonText = "" ∨ rightButtonText = "Back") ∧
      (rightButtonText = "" ↔
        (header.MenuItemType = MENU_ITEM_TYPE_MAIN_MENU_HEADER ∧
          header.MenuItemSubMenu = some k)) := by
  obtain ⟨rows, header, rightButtonText, hhd, hsel, hrows, hlabel, hcode, -⟩ :=
    selectAndDrawMenu_button_bar mem k t N hk hwf
  refine ⟨rows, header, rightButtonText, hhd, hsel, hrows, hlabel, ?_⟩
  rw [hcode]
  constructor
  · rintro ⟨hmain, hlink⟩
    rcases hdoc header hhd hmain with hnone | hself
    · exact absurd hnone hlink
    · exact ⟨hmain, hself⟩
  · rintro ⟨hmain, hself⟩
    refine ⟨hmain, ?_⟩
    rw [hself]
    simp

/-- C17 at the main menu of the example application, whose header points back to the menu
itself: the page is drawn and the button bar has the labels "Select" and "", the right
label is empty. -/
theorem selectAndDrawMenu_button_bar_labels_witness :
    exampleMenus[0]? = some mainMenu ∧ TableWF exampleMenus mainMenu 3 ∧
      (∀ header, mainMenu[0]? = some header →
        header.MenuItemType = MENU_ITEM_TYPE_MAIN_MENU_HEADER →
        header.MenuItemSubMenu = none ∨ header.MenuItemSubMenu = some 0) ∧
      selectAndDrawMenu exampleMenus (some 0) =
        some (⟨some 0, 1, 1⟩,
          [MenuEffect.clearDisplaySpace, MenuEffect.drawRow 1 0 true,
            MenuEffect.callToggle 1 false, MenuEffect.drawRow 2 1 false,
            MenuEffect.drawRow 3 2 false, MenuEffect.drawButtonBar "Select" ""]) ∧
      ∃ rows header rightButtonText, mainMenu[0]? = some header ∧
        selectAndDrawMenu exampleMenus (some 0) =
          some (⟨some 0, 1, 1⟩,
            MenuEffect.clearDisplaySpace :: rows ++
              [MenuEffect.drawButtonBar "Select" rightButtonText]) ∧
        (∀ e ∈ rows, ∀ l r, e ≠ MenuEffect.drawButtonBar l r) ∧
        (rightButtonText = "" ∨ rightButtonText = "Back") ∧
        (rightButtonText = "" ↔
          (header.MenuItemType = MENU_ITEM_TYPE_MAIN_MENU_HEADER ∧
            header.MenuItemSubMenu = some 0)) :=
  ⟨rfl, mainMenu_wf,
    fun header hh _ => by
      have he : header = ⟨MENU_ITEM_TYPE_MAIN_MENU_HEADER, "", none, some 0⟩ :=
        (Option.some.inj hh).symm
      rw [he]
      exact Or.inr rfl,
    by decide,
    selectAndDrawMenu_button_bar_labels exampleMenus 0 mainMenu 3 rfl mainMenu_wf
      (fun header hh _ => by
        have he : header = ⟨MENU_ITEM_TYPE_MAIN_MENU_HEADER, "", none, some 0⟩ :=
          (Option.some.inj hh).symm
        rw [he]
        exact Or.inr rfl)⟩

/-- C19: for every cursor that satisfies the cursor invariant and whose selected entry is
a Toggle entry with function `f`, a Select Pushed event calls `f` with
`toggleMenuChangeStateFlag = true`, then draws one row, the selected entry, drawn selected,
on display line `selectedIndex - topVisibleIndex`, which is at most 3, after calling `f`
once more with the flag `false`; there is no other effect, the cursor is unchanged and the
function does not return. -/
theorem menuLoopBody_select_toggle (mem : MenuMemory) (s : MenuCursor) (item : MENU_ITEM)
    (f : Nat) (hs : CursorInv mem s)
    (hitem : readMenuItem mem s.currentMenuTable s.currentMenuItemIdx = some item)
    (hty : item.MenuItemType = MENU_ITEM_TYPE_TOGGLE) (hf : item.MenuItemFunction = some f) :
    menuLoopBody mem s (BUTTON_ID_SELECT + BUTTON_PUSHED_EVENT) =
        some (s, false,
          [MenuEffect.callToggle f true, MenuEffect.callToggle f false,
            MenuEffect.drawRow s.currentMenuItemIdx
              (s.currentMenuItemIdx - s.currentMenuTopLineItemIdx) true]) ∧
      s.currentMenuItemIdx - s.currentMenuTopLineItemIdx ≤ 3 := by
  obtain ⟨k, t, N, hk, ht, hwf, h1, h2, h3, h4⟩ := hs
  simp only [MAX_MENU_ITEMS_TO_DISPLAY] at h2
  have h255 : N + 1 ≤ 255 := hwf.2.1
  have hline : (s.currentMenuItemIdx + 256 - s.currentMenuTopLineItemIdx) % 256 =
      s.currentMenuItemIdx - s.currentMenuTopLineItemIdx := by omega
  refine ⟨?_, by omega⟩
  simp [menuLoopBody, executeMenuItem, drawMenuItem, hitem, hty, hf, hline]

/-- Witness of `menuLoopBody_select_toggle`: Select Pushed on the Sound entry of the main
menu of the example application. -/
theorem menuLoopBody_select_toggle_witness :
    CursorInv exampleMenus ⟨some 0, 2, 1⟩ ∧
      readMenuItem exampleMenus (some 0) 2 =
        some ⟨MENU_ITEM_TYPE_TOGGLE, "Sound", some 1, none⟩ ∧
      menuLoopBody exampleMenus ⟨some 0, 2, 1⟩ (BUTTON_ID_SELECT + BUTTON_PUSHED_EVENT) =
        some (⟨some 0, 2, 1⟩, false,
          [MenuEffect.callToggle 1 true, MenuEffect.callToggle 1 false,
            MenuEffect.drawRow 2 (2 - 1) true]) ∧
      2 - 1 ≤ 3 :=
  ⟨⟨0, mainMenu, 3, rfl, rfl, mainMenu_wf, by decide, by decide, by decide, by decide⟩, rfl,
    menuLoopBody_select_toggle exampleMenus ⟨some 0, 2, 1⟩ _ 1
      ⟨0, mainMenu, 3, rfl, rfl, mainMenu_wf, by decide, by decide, by decide, by decide⟩
      rfl rfl rfl⟩

lemma drawMenu_queryEffect (mem : MenuMemory) (s : MenuCursor) (rows : List MenuEffect)
    (h : drawMenu mem s = some rows) : ∀ e ∈ rows, queryEffect e = true :=
  queryOnlyRows_queryEffect rows (drawMenuLines_queryOnly mem s _ _ _ _ h)

/-- Whenever a turn of the loop of `displayAndExecuteMenu` for Down, Up or Back is defined,
none of its effects advances a toggle or runs a command. -/
lemma menuLoopBody_nav_queryEffect (mem : MenuMemory) (s s' : MenuCursor)
    (buttonEvent : Nat) (r : Bool) (out : List MenuEffect)
    (hev : buttonEvent ≠ BUTTON_ID_SELECT + BUTTON_PUSHED_EVENT)
    (h : menuLoopBody mem s buttonEvent = some (s', r, out)) :
    ∀ e ∈ out, queryEffect e = true := by
  unfold menuLoopBody at h
  by_cases hdown : buttonEvent = BUTTON_ID_DOWN + BUTTON_PUSHED_EVENT ∨
      buttonEvent = BUTTON_ID_DOWN + BUTTON_REPEAT_EVENT
  · rw [if_pos hdown] at h
    simp only [] at h
    split at h
    · simp at h
    · split_ifs at h
      · simp only [Option.some.injEq, Prod.mk.injEq] at h
        rw [← h.2.2]
        simp
      · split at h
        · simp at h
        · rename_i rows hrows
          simp only [Option.some.injEq, Prod.mk.injEq] at h
          rw [← h.2.2]
          exact drawMenu_queryEffect mem _ rows hrows
      · split at h
        · simp at h
        · rename_i rows hrows
          simp only [Option.some.injEq, Prod.mk.injEq] at h
          rw [← h.2.2]
          exact drawMenu_queryEffect mem _ rows hrows
  rw [if_neg hdown] at h
  by_cases hup : buttonEvent = BUTTON_ID_UP + BUTTON_PUSHED_EVENT ∨
      buttonEvent = BUTTON_ID_UP + BUTTON_REPEAT_EVENT
  · rw [if_pos hup] at h
    simp only [] at h
    split_ifs at h
    · simp only [Option.some.injEq, Prod.mk.injEq] at h
      rw [← h.2.2]
      simp
    · split at h
      · simp at h
      · rename_i rows hrows
        simp only [Option.some.injEq, Prod.mk.injEq] at h
        rw [← h.2.2]
        exact drawMenu_queryEffect mem _ rows hrows
    · split at h
      · simp at h
      · rename_i rows hrows
        simp only [Option.some.injEq, Prod.mk.injEq] at h
        rw [← h.2.2]
        exact drawMenu_queryEffect mem _ rows hrows
  rw [if_neg hup, if_neg hev] at h
  by_cases hback : buttonEvent = BUTTON_ID_BACK + BUTTON_PUSHED_EVENT
  · rw [if_pos hback] at h
    split at h
    · simp at h
    · split_ifs at h
      · split at h
        · simp at h
        · rename_i s1 out1 hsel
          simp only [Option.some.injEq, Prod.mk.injEq] at h
          rw [← h.2.2]
          exact selectAndDrawMenu_queryEffect mem _ s1 out1 hsel
      all_goals
        simp only [Option.some.injEq, Prod.mk.injEq] at h
        rw [← h.2.2]
        simp
  · rw [if_neg hback] at h
    simp only [Option.some.injEq, Prod.mk.injEq] at h
    rw [← h.2.2]
    simp

/-- C20: in a well-formed application, for every cursor that satisfies the cursor
invariant: (1) whenever `drawMenuItem` is defined, it calls a function only for a Toggle
entry, exactly once, with `toggleMenuChangeStateFlag = false`, and before it draws the
row; (2) `drawMenu` is defined and its effects are rows and such query calls, each call
directly followed by a row; (3) `selectAndDrawMenu` on every table is defined and none of
its effects advances a toggle or runs a command; (4) the turns of the loop for Down, Up
and Back are defined and none of their effects advances a toggle or runs a command;
(5) the same holds for Select Pushed on a SubMenu entry. -/
theorem drawMenuItem_query_only (mem : MenuMemory) (hmem : MemoryWF mem) (s : MenuCursor)
    (hs : CursorInv mem s) :
    (∀ menuIdx menuLine out, drawMenuItem mem s menuIdx menuLine = some out →
      ∃ item, readMenuItem mem s.currentMenuTable menuIdx = some item ∧
        ((item.MenuItemType = MENU_ITEM_TYPE_TOGGLE ∧ ∃ f, item.MenuItemFunction = some f ∧
            out = [MenuEffect.callToggle f false,
              MenuEffect.drawRow menuIdx menuLine
                (decide (menuIdx = s.currentMenuItemIdx))]) ∨
          (item.MenuItemType ≠ MENU_ITEM_TYPE_TOGGLE ∧
            (out = [MenuEffect.drawRow menuIdx menuLine
                (decide (menuIdx = s.currentMenuItemIdx))] ∨ out = [])))) ∧
    (∃ rows, drawMenu mem s = some rows ∧ queryOnlyRows rows = true) ∧
    (∀ k, k < mem.length →
      ∃ out, selectAndDrawMenu mem (some k) = some (⟨some k, 1, 1⟩, out) ∧
        ∀ e ∈ out, queryEffect e = true) ∧
    (∀ buttonEvent,
      (buttonEvent = BUTTON_ID_DOWN + BUTTON_PUSHED_EVENT ∨
        buttonEvent = BUTTON_ID_DOWN + BUTTON_REPEAT_EVENT ∨
        buttonEvent = BUTTON_ID_UP + BUTTON_PUSHED_EVENT ∨
        buttonEvent = BUTTON_ID_UP + BUTTON_REPEAT_EVENT ∨
        buttonEvent = BUTTON_ID_BACK + BUTTON_PUSHED_EVENT) →
      ∃ s' r out, menuLoopBody mem s buttonEvent = some (s', r, out) ∧
        ∀ e ∈ out, queryEffect e = true) ∧
    (∀ item, readMenuItem mem s.currentMenuTable s.currentMenuItemIdx = some item →
      item.MenuItemType = MENU_ITEM_TYPE_SUB_MENU →
      ∃ s' out, menuLoopBody mem s (BUTTON_ID_SELECT + BUTTON_PUSHED_EVENT) =
          some (s', false, out) ∧
        ∀ e ∈ out, queryEffect e = true) := by
  refine ⟨fun menuIdx menuLine out h => drawMenuItem_effects mem s menuIdx menuLine out h,
    ?_, ?_, ?_, ?_⟩
  · obtain ⟨rows, hrows⟩ := drawMenu_defined mem s hs
    exact ⟨rows, hrows, drawMenuLines_queryOnly mem s _ _ _ _ hrows⟩
  · intro k hk
    obtain ⟨-, out, hout⟩ := selectAndDrawMenu_inv mem hmem k hk
    exact ⟨out, hout, selectAndDrawMenu_queryEffect mem _ _ _ hout⟩
  · intro buttonEvent hev
    obtain ⟨s', r, out, h, -⟩ := menuLoopBody_inv mem hmem s buttonEvent hs
    refine ⟨s', r, out, h, menuLoopBody_nav_queryEffect mem s s' buttonEvent r out ?_ h⟩
    rcases hev with h | h | h | h | h <;> simp [h]
  · intro item hitem hty
    obtain ⟨k, t, N, hk, ht, hwf, h1, h2, h3, h4⟩ := hs
    have hitem' := hitem
    rw [hk, readMenuItem_some mem k t _ ht] at hitem'
    obtain ⟨item', hitem'', hkind⟩ := hwf.2.2.2.1 s.currentMenuItemIdx (by omega) h4
    rw [hitem''] at hitem'
    have heq : item' = item := Option.some.inj hitem'
    subst heq
    rcases hkind with ⟨-, child, hsub, hchild⟩ | ⟨hc, -⟩ | ⟨hc, -⟩
    · obtain ⟨-, out, hout⟩ := selectAndDrawMenu_inv mem hmem child hchild
      refine ⟨⟨some child, 1, 1⟩, out, ?_, selectAndDrawMenu_queryEffect mem _ _ _ hout⟩
      simp [menuLoopBody, executeMenuItem, hitem, hty, hsub, hout]
    · rw [hty] at hc
      simp at hc
    · rw [hty] at hc
      simp at hc

/-- Witness of `drawMenuItem_query_only`: the page of the main menu of the example
application, whose second entry is a Toggle entry. -/
theorem drawMenuItem_query_only_witness :
    MemoryWF exampleMenus ∧ CursorInv exampleMenus ⟨some 0, 1, 1⟩ ∧
      drawMenuItem exampleMenus ⟨some 0, 1, 1⟩ 2 1 =
        some [MenuEffect.callToggle 1 false, MenuEffect.drawRow 2 1 false] ∧
      ∃ rows, drawMenu exampleMenus ⟨some 0, 1, 1⟩ = some rows ∧ queryOnlyRows rows = true :=
  ⟨exampleMenus_wf,
    ⟨0, mainMenu, 3, rfl, rfl, mainMenu_wf, by decide, by decide, by decide, by decide⟩,
    by decide,
    (drawMenuItem_query_only exampleMenus exampleMenus_wf ⟨some 0, 1, 1⟩
      ⟨0, mainMenu, 3, rfl, rfl, mainMenu_wf, by decide, by decide, by decide,
        by decide⟩).2.1⟩

/-! ## Theorems: the turns of the slider loop -/

lemma sliderCallbacks_append (a b : List SliderEffect) :
    sliderCallbacks (a ++ b) = sliderCallbacks a ++ sliderCallbacks b := by
  induction a with
  | nil => rfl
  | cons e a ih => cases e <;> simp [sliderCallbacks, ih]

/-- A Down block keeps the bounds and the step and counts the turn. -/
lemma sliderDown_fields (s : Slider) :
    (sliderDown s).1.sliderDisplayMinValue = s.sliderDisplayMinValue ∧
    (sliderDown s).1.sliderDisplayMaxValue = s.sliderDisplayMaxValue ∧
    (sliderDown s).1.sliderDisplayStep = s.sliderDisplayStep ∧
    (sliderDown s).1.sliderDisplayRepeatCount = toUInt16 (s.sliderDisplayRepeatCount + 1) := by
  unfold sliderDown
  simp only []
  split_ifs <;> simp

/-- An Up block keeps the bounds and the step and counts the turn. -/
lemma sliderUp_fields (s : Slider) :
    (sliderUp s).1.sliderDisplayMinValue = s.sliderDisplayMinValue ∧
    (sliderUp s).1.sliderDisplayMaxValue = s.sliderDisplayMaxValue ∧
    (sliderUp s).1.sliderDisplayStep = s.sliderDisplayStep ∧
    (sliderUp s).1.sliderDisplayRepeatCount = toUInt16 (s.sliderDisplayRepeatCount + 1) := by
  unfold sliderUp
  simp only []
  split_ifs <;> simp

/-- A Down block either keeps the value and calls nothing, or reports the value that it
has stored, once. -/
lemma sliderDown_turn (s : Slider) :
    ((sliderDown s).1.sliderDisplayValue = s.sliderDisplayValue ∧
        sliderCallbacks (sliderDown s).2 = []) ∨
      sliderCallbacks (sliderDown s).2 =
        [(SLIDER_DISPLAY_VALUE_CHANGED, (sliderDown s).1.sliderDisplayValue)] := by
  unfold sliderDown
  simp only []
  split_ifs <;> first | exact Or.inl ⟨rfl, rfl⟩ | exact Or.inr rfl

/-- An Up block either keeps the value and calls nothing, or reports the value that it
has stored, once. -/
lemma sliderUp_turn (s : Slider) :
    ((sliderUp s).1.sliderDisplayValue = s.sliderDisplayValue ∧
        sliderCallbacks (sliderUp s).2 = []) ∨
      sliderCallbacks (sliderUp s).2 =
        [(SLIDER_DISPLAY_VALUE_CHANGED, (sliderUp s).1.sliderDisplayValue)] := by
  unfold sliderUp
  simp only []
  split_ifs <;> first | exact Or.inl ⟨rfl, rfl⟩ | exact Or.inr rfl

/-- Away from 16-bit overflow a Down block does what the specification says of its
candidate `value − step × (repeatCount/16 + 1)` clamped up to `min`: if the candidate is
the value, the value is kept and nothing is called, otherwise the candidate is stored and
reported once. The repeat count does not wrap and the product and the difference fit the
16-bit `int`. -/
lemma sliderDown_reportsChange_of_no_overflow (s : Slider)
    (hc : 0 ≤ s.sliderDisplayRepeatCount ∧ s.sliderDisplayRepeatCount + 1 ≤ 65535)
    (hv : -32768 ≤ s.sliderDisplayValue ∧ s.sliderDisplayValue ≤ 32767)
    (hstep : 0 < s.sliderDisplayStep)
    (hfit : s.sliderDisplayStep * ((s.sliderDisplayRepeatCount + 1) / 16 + 1) ≤ 32767)
    (hlo : -32768 ≤ s.sliderDisplayValue -
      s.sliderDisplayStep * ((s.sliderDisplayRepeatCount + 1) / 16 + 1)) :
    ReportsChange s.sliderDisplayValue (sliderDownCandidate s)
      ((sliderDown s).1, false, (sliderDown s).2) := by
  obtain ⟨mn, mx, st, v, rc⟩ := s
  simp only [] at hc hv hstep hfit hlo
  have hcount : toUInt16 (rc + 1) = rc + 1 := toUInt16_of_range _ (by omega) hc.2
  obtain ⟨hsz, hpos⟩ :=
    sliderStepSize_of_no_overflow st (rc + 1) hstep (by omega) hc.2 hfit
  simp only [sliderDownCandidate]
  generalize st * ((rc + 1) / 16 + 1) = k at *
  have hnew : toInt16 (v - k) = v - k := toInt16_of_range _ hlo (by omega)
  simp only [sliderDown, ReportsChange, hcount, hsz, hnew]
  rcases lt_or_le (v - k) mn with h | h
  · rw [max_eq_left (le_of_lt h), if_pos h]
    by_cases hval : mn = v
    · rw [if_pos hval]
      exact ⟨trivial, fun _ => ⟨rfl, rfl⟩, fun hne => absurd hval hne⟩
    · rw [if_neg hval]
      exact ⟨trivial, fun he => absurd he hval, fun _ => ⟨rfl, rfl⟩⟩
  · rw [max_eq_right h, if_neg (not_lt.2 h)]
    have hval : ¬ (v - k = v) := by omega
    rw [if_neg hval]
    exact ⟨trivial, fun he => absurd he hval, fun _ => ⟨rfl, rfl⟩⟩

/-- Away from 16-bit overflow an Up block does what the specification says of its
candidate `value + step × (repeatCount/16 + 1)` clamped down to `max`. -/
lemma sliderUp_reportsChange_of_no_overflow (s : Slider)
    (hc : 0 ≤ s.sliderDisplayRepeatCount ∧ s.sliderDisplayRepeatCount + 1 ≤ 65535)
    (hv : -32768 ≤ s.sliderDisplayValue ∧ s.sliderDisplayValue ≤ 32767)
    (hstep : 0 < s.sliderDisplayStep)
    (hfit : s.sliderDisplayStep * ((s.sliderDisplayRepeatCount + 1) / 16 + 1) ≤ 32767)
    (hhi : s.sliderDisplayValue +
      s.sliderDisplayStep * ((s.sliderDisplayRepeatCount + 1) / 16 + 1) ≤ 32767) :
    ReportsChange s.sliderDisplayValue (sliderUpCandidate s)
      ((sliderUp s).1, false, (sliderUp s).2) := by
  obtain ⟨mn, mx, st, v, rc⟩ := s
  simp only [] at hc hv hstep hfit hhi
  have hcount : toUInt16 (rc + 1) = rc + 1 := toUInt16_of_range _ (by omega) hc.2
  obtain ⟨hsz, hpos⟩ :=
    sliderStepSize_of_no_overflow st (rc + 1) hstep (by omega) hc.2 hfit
  simp only [sliderUpCandidate]
  generalize st * ((rc + 1) / 16 + 1) = k at *
  have hnew : toInt16 (v + k) = v + k := toInt16_of_range _ (by omega) hhi
  simp only [sliderUp, ReportsChange, hcount, hsz, hnew]
  rcases lt_or_le mx (v + k) with h | h
  · rw [min_eq_left (le_of_lt h), if_pos h]
    by_cases hval : mx = v
    · rw [if_pos hval]
      exact ⟨trivial, fun _ => ⟨rfl, rfl⟩, fun hne => absurd hval hne⟩
    · rw [if_neg hval]
      exact ⟨trivial, fun he => absurd he hval, fun _ => ⟨rfl, rfl⟩⟩
  · rw [min_eq_right h, if_neg (not_lt.2 h)]
    have hval : ¬ (v + k = v) := by omega
    rw [if_neg hval]
    exact ⟨trivial, fun he => absurd he hval, fun _ => ⟨rfl, rfl⟩⟩

/-- C24 (code at the failing input): two slider states with `min <= value <= max`, the
slider 0..100 with the step 20000 and the repeat count 15, reached by
`displaySlider(0, 100, 20000, 0, ...)` after Down Pushed and 14 Down Repeated events and by
`displaySlider(0, 100, 20000, 100, ...)` after Up Pushed and 14 Up Repeated events. At the
value 0 the candidate of a Down Repeated event, `0 − 20000 × (16/16 + 1)` clamped up to 0,
is the current value 0, yet the code stores 25536 and calls the callback function with
`SLIDER_DISPLAY_VALUE_CHANGED`. At the value 100 the candidate of an Up Repeated event,
`100 + 40000` clamped down to 100, is the current value 100, yet the code stores -25436
and calls the callback function. -/
theorem sliderLoopBody_reports_change_at_bound :
    (∃ r, displaySlider 0 100 20000 0 0
        ((BUTTON_ID_DOWN + BUTTON_PUSHED_EVENT) ::
          List.replicate 14 (BUTTON_ID_DOWN + BUTTON_REPEAT_EVENT)) = some r ∧
      r.1 = ⟨0, 100, 20000, 0, 15⟩) ∧
    ((0 : Int) ≤ 0 ∧ (0 : Int) ≤ 100) ∧
    sliderDownCandidate ⟨0, 100, 20000, 0, 15⟩ = 0 ∧
    sliderLoopBody ⟨0, 100, 20000, 0, 15⟩ (BUTTON_ID_DOWN + BUTTON_REPEAT_EVENT) =
      (⟨0, 100, 20000, 25536, 16⟩, false,
        [SliderEffect.callback SLIDER_DISPLAY_VALUE_CHANGED 25536,
          SliderEffect.drawSlider 25536]) ∧
    (∃ r, displaySlider 0 100 20000 100 0
        ((BUTTON_ID_UP + BUTTON_PUSHED_EVENT) ::
          List.replicate 14 (BUTTON_ID_UP + BUTTON_REPEAT_EVENT)) = some r ∧
      r.1 = ⟨0, 100, 20000, 100, 15⟩) ∧
    ((0 : Int) ≤ 100 ∧ (100 : Int) ≤ 100) ∧
    sliderUpCandidate ⟨0, 100, 20000, 100, 15⟩ = 100 ∧
    sliderLoopBody ⟨0, 100, 20000, 100, 15⟩ (BUTTON_ID_UP + BUTTON_REPEAT_EVENT) =
      (⟨0, 100, 20000, -25436, 16⟩, false,
        [SliderEffect.callback SLIDER_DISPLAY_VALUE_CHANGED (-25436),
          SliderEffect.drawSlider (-25436)]) := by
  refine ⟨⟨_, displaySlider_eq 0 100 20000 0 0 _ (by decide), ?_⟩, by decide, by decide,
    by decide, ⟨_, displaySlider_eq 0 100 20000 100 0 _ (by decide), ?_⟩, by decide,
    by decide, by decide⟩
  · simp [sliderLoop, sliderLoopBody, sliderDown, sliderStepSize, toInt16, toUInt16,
      List.replicate]
  · simp [sliderLoop, sliderLoopBody, sliderUp, sliderStepSize, toInt16, toUInt16,
      List.replicate]

/-! ## Theorems: runs of the slider loop -/

/-- The loop over `a ++ b` when it does not return within `a`: it goes on over `b` from
the state after `a`. -/
lemma sliderLoop_append (a b : List Nat) (s : Slider) (h : (sliderLoop s a).2.1 = false) :
    sliderLoop s (a ++ b) =
      ((sliderLoop (sliderLoop s a).1 b).1, (sliderLoop (sliderLoop s a).1 b).2.1,
        (sliderLoop s a).2.2 ++ (sliderLoop (sliderLoop s a).1 b).2.2) := by
  induction a generalizing s with
  | nil => simp [sliderLoop]
  | cons e a ih =>
    rcases hb : sliderLoopBody s e with ⟨s1, r1, o1⟩
    cases r1 with
    | true => simp [sliderLoop, hb] at h
    | false =>
      have h1 : (sliderLoop s1 a).2.1 = false := by simpa [sliderLoop, hb] using h
      simp [sliderLoop, hb, ih s1 h1]

/-- A turn for an event other than Select Pushed and Back Pushed does not return, and
either keeps the value and calls nothing or reports the new value once. -/
lemma sliderLoopBody_turn (s : Slider) (e : Nat)
    (he : e ≠ BUTTON_ID_SELECT + BUTTON_PUSHED_EVENT ∧ e ≠ BUTTON_ID_BACK + BUTTON_PUSHED_EVENT) :
    (sliderLoopBody s e).2.1 = false ∧
    (((sliderLoopBody s e).1.sliderDisplayValue = s.sliderDisplayValue ∧
        sliderCallbacks (sliderLoopBody s e).2.2 = []) ∨
      sliderCallbacks (sliderLoopBody s e).2.2 =
        [(SLIDER_DISPLAY_VALUE_CHANGED, (sliderLoopBody s e).1.sliderDisplayValue)]) := by
  unfold sliderLoopBody
  split_ifs
  · exact ⟨rfl, sliderDown_turn { s with sliderDisplayRepeatCount := 0 }⟩
  · exact ⟨rfl, sliderDown_turn s⟩
  · exact ⟨rfl, sliderUp_turn { s with sliderDisplayRepeatCount := 0 }⟩
  · exact ⟨rfl, sliderUp_turn s⟩
  · exact absurd ‹_› he.1
  · exact absurd ‹_› he.2
  · exact ⟨rfl, Or.inl ⟨rfl, rfl⟩⟩

/-- A run over events other than Select Pushed and Back Pushed does not return, calls the
callback function with `SLIDER_DISPLAY_VALUE_CHANGED` only, and ends with the value of the
last call (the value at the start when there was no call). -/
lemma sliderLoop_no_return (pre : List Nat) (s : Slider)
    (hpre : ∀ e ∈ pre, e ≠ BUTTON_ID_SELECT + BUTTON_PUSHED_EVENT ∧
      e ≠ BUTTON_ID_BACK + BUTTON_PUSHED_EVENT) :
    (sliderLoop s pre).2.1 = false ∧
    (∀ c ∈ sliderCallbacks (sliderLoop s pre).2.2, c.1 = SLIDER_DISPLAY_VALUE_CHANGED) ∧
    lastCallbackValue s.sliderDisplayValue (sliderCallbacks (sliderLoop s pre).2.2) =
      (sliderLoop s pre).1.sliderDisplayValue := by
  induction pre generalizing s with
  | nil => simp [sliderLoop, sliderCallbacks, lastCallbackValue]
  | cons e pre ih =>
    obtain ⟨hr, hcb⟩ := sliderLoopBody_turn s e (hpre e (List.mem_cons_self _ _))
    rcases hb : sliderLoopBody s e with ⟨s1, r1, o1⟩
    rw [hb] at hr hcb
    simp only [] at hr hcb
    subst hr
    obtain ⟨ih1, ih2, ih3⟩ := ih s1 (fun x hx => hpre x (List.mem_cons_of_mem _ hx))
    have hloop : sliderLoop s (e :: pre) =
        ((sliderLoop s1 pre).1, (sliderLoop s1 pre).2.1, o1 ++ (sliderLoop s1 pre).2.2) := by
      simp [sliderLoop, hb]
    rw [hloop]
    simp only [sliderCallbacks_append]
    refine ⟨ih1, ?_, ?_⟩
    · intro c hc
      rcases List.mem_append.1 hc with hc | hc
      · rcases hcb with ⟨-, ho⟩ | ho
        · rw [ho] at hc
          cases hc
        · rw [ho] at hc
          rw [List.mem_singleton.1 hc]
      · exact ih2 c hc
    · rw [lastCallbackValue, List.foldl_append]
      rcases hcb with ⟨hv, ho⟩ | ho
      · rw [ho, ← hv]
        exact ih3
      · rw [ho]
        exact ih3

/-- A run that meets Select Pushed after events that do not return: it returns there
with one more effect, the call with `SLIDER_DISPLAY_VALUE_SET` and the value. -/
lemma sliderLoop_then_select (pre rest : List Nat) (s : Slider)
    (hpre : ∀ e ∈ pre, e ≠ BUTTON_ID_SELECT + BUTTON_PUSHED_EVENT ∧
      e ≠ BUTTON_ID_BACK + BUTTON_PUSHED_EVENT) :
    sliderLoop s (pre ++ (BUTTON_ID_SELECT + BUTTON_PUSHED_EVENT) :: rest) =
      ((sliderLoop s pre).1, true,
        (sliderLoop s pre).2.2 ++
          [SliderEffect.callback SLIDER_DISPLAY_VALUE_SET
            (sliderLoop s pre).1.sliderDisplayValue]) := by
  rw [sliderLoop_append _ _ _ (sliderLoop_no_return pre s hpre).1]
  simp [sliderLoop, sliderLoopBody]

/-- A run that meets Back Pushed after events that do not return: it returns there with
one more effect, the call with `SLIDER_DISPLAY_CANCELED` and 0. -/
lemma sliderLoop_then_back (pre rest : List Nat) (s : Slider)
    (hpre : ∀ e ∈ pre, e ≠ BUTTON_ID_SELECT + BUTTON_PUSHED_EVENT ∧
      e ≠ BUTTON_ID_BACK + BUTTON_PUSHED_EVENT) :
    sliderLoop s (pre ++ (BUTTON_ID_BACK + BUTTON_PUSHED_EVENT) :: rest) =
      ((sliderLoop s pre).1, true,
        (sliderLoop s pre).2.2 ++ [SliderEffect.callback SLIDER_DISPLAY_CANCELED 0]) := by
  rw [sliderLoop_append _ _ _ (sliderLoop_no_return pre s hpre).1]
  simp [sliderLoop, sliderLoopBody]

/-- C25: Set reports the current value. For every run of `displaySlider` that handles
events (the 16-bit difference of the bounds is not 0, so that `drawSlider` is defined)
and whose events reach a Select Pushed (the events `pre` before it are the ones the loop
handles without returning, that is none of them is Select Pushed or Back Pushed): the run
is defined and the function returns at that event; the calls of the callback function
are calls with `SLIDER_DISPLAY_VALUE_CHANGED` followed by one last call with
`SLIDER_DISPLAY_VALUE_SET` and the value of the most recent of those calls, or the initial
value if there is none; and nothing that follows the Select Pushed has any effect. -/
theorem displaySlider_set_reports_current_value
    (minValue maxValue step initialValue repeatCount : Int) (pre rest : List Nat)
    (hrange : toInt16 (maxValue - minValue) ≠ 0)
    (hpre : ∀ e ∈ pre, e ≠ BUTTON_ID_SELECT + BUTTON_PUSHED_EVENT ∧
      e ≠ BUTTON_ID_BACK + BUTTON_PUSHED_EVENT) :
    ∃ r, displaySlider minValue maxValue step initialValue repeatCount
        (pre ++ (BUTTON_ID_SELECT + BUTTON_PUSHED_EVENT) :: rest) = some r ∧
      r.2.1 = true ∧
      (∃ calls, (∀ c ∈ calls, c.1 = SLIDER_DISPLAY_VALUE_CHANGED) ∧
        sliderCallbacks r.2.2 =
          calls ++ [(SLIDER_DISPLAY_VALUE_SET, lastCallbackValue initialValue calls)]) ∧
      displaySlider minValue maxValue step initialValue repeatCount
          (pre ++ (BUTTON_ID_SELECT + BUTTON_PUSHED_EVENT) :: rest) =
        displaySlider minValue maxValue step initialValue repeatCount
          (pre ++ [BUTTON_ID_SELECT + BUTTON_PUSHED_EVENT]) := by
  obtain ⟨-, hch, hlast⟩ :=
    sliderLoop_no_return pre ⟨minValue, maxValue, step, initialValue, repeatCount⟩ hpre
  have heq := displaySlider_eq minValue maxValue step initialValue repeatCount
    (pre ++ (BUTTON_ID_SELECT + BUTTON_PUSHED_EVENT) :: rest) hrange
  rw [sliderLoop_then_select pre rest _ hpre] at heq
  refine ⟨_, heq, rfl, ⟨_, hch, ?_⟩, ?_⟩
  · show sliderCallbacks (_ ++ [_]) = _
    rw [sliderCallbacks_append, hlast]
    rfl
  · rw [heq, displaySlider_eq minValue maxValue step initialValue repeatCount
      (pre ++ [BUTTON_ID_SELECT + BUTTON_PUSHED_EVENT]) hrange,
      sliderLoop_then_select pre [] _ hpre]

/-- C25 at a run from 50 in 0..100 with step 1: Down Pushed, Down Repeated, a Released
event, Up Pushed and then Select Pushed. -/
theorem displaySlider_set_reports_current_value_witness :
    toInt16 ((100 : Int) - 0) ≠ 0 ∧
    (∀ e ∈ [68, 196, 132, 67], e ≠ BUTTON_ID_SELECT + BUTTON_PUSHED_EVENT ∧
      e ≠ BUTTON_ID_BACK + BUTTON_PUSHED_EVENT) ∧
    ∃ r, displaySlider 0 100 1 50 0
        ([68, 196, 132, 67] ++ (BUTTON_ID_SELECT + BUTTON_PUSHED_EVENT) :: [68]) = some r ∧
      r.2.1 = true ∧
      (∃ calls, (∀ c ∈ calls, c.1 = SLIDER_DISPLAY_VALUE_CHANGED) ∧
        sliderCallbacks r.2.2 =
          calls ++ [(SLIDER_DISPLAY_VALUE_SET, lastCallbackValue 50 calls)]) ∧
      displaySlider 0 100 1 50 0
          ([68, 196, 132, 67] ++ (BUTTON_ID_SELECT + BUTTON_PUSHED_EVENT) :: [68]) =
        displaySlider 0 100 1 50 0
          ([68, 196, 132, 67] ++ [BUTTON_ID_SELECT + BUTTON_PUSHED_EVENT]) :=
  ⟨by decide, by decide,
    displaySlider_set_reports_current_value 0 100 1 50 0 [68, 196, 132, 67] [68]
      (by decide) (by decide)⟩

/-- C26: Cancel. In every slider state a Back Pushed event makes one call of the callback
function, with `SLIDER_DISPLAY_CANCELED` and the value 0, changes no member and returns.
In a run of `displaySlider` that handles events (the 16-bit difference of the bounds is
not 0, so that `drawSlider` is defined) and reaches a Back Pushed (none of the events
`pre` before it is Select Pushed or Back Pushed), the run and the run over `pre` alone are
defined, the function returns at that event, the calls are the calls made for `pre`, all
with `SLIDER_DISPLAY_VALUE_CHANGED`, followed by that one call, and the members are the
ones reached after `pre`: the value last reported stays. -/
theorem displaySlider_cancel
    (minValue maxValue step initialValue repeatCount : Int) (pre rest : List Nat)
    (hrange : toInt16 (maxValue - minValue) ≠ 0)
    (hpre : ∀ e ∈ pre, e ≠ BUTTON_ID_SELECT + BUTTON_PUSHED_EVENT ∧
      e ≠ BUTTON_ID_BACK + BUTTON_PUSHED_EVENT) :
    (∀ s : Slider, sliderLoopBody s (BUTTON_ID_BACK + BUTTON_PUSHED_EVENT) =
      (s, true, [SliderEffect.callback SLIDER_DISPLAY_CANCELED 0])) ∧
    ∃ r before,
      displaySlider minValue maxValue step initialValue repeatCount
        (pre ++ (BUTTON_ID_BACK + BUTTON_PUSHED_EVENT) :: rest) = some r ∧
      displaySlider minValue maxValue step initialValue repeatCount pre = some before ∧
      r.2.1 = true ∧
      sliderCallbacks r.2.2 = sliderCallbacks before.2.2 ++ [(SLIDER_DISPLAY_CANCELED, 0)] ∧
      (∀ c ∈ sliderCallbacks before.2.2, c.1 = SLIDER_DISPLAY_VALUE_CHANGED) ∧
      r.1 = before.1 ∧
      before.1.sliderDisplayValue =
        lastCallbackValue initialValue (sliderCallbacks before.2.2) := by
  obtain ⟨-, hch, hlast⟩ :=
    sliderLoop_no_return pre ⟨minValue, maxValue, step, initialValue, repeatCount⟩ hpre
  have heq := displaySlider_eq minValue maxValue step initialValue repeatCount
    (pre ++ (BUTTON_ID_BACK + BUTTON_PUSHED_EVENT) :: rest) hrange
  rw [sliderLoop_then_back pre rest _ hpre] at heq
  have hbefore := displaySlider_eq minValue maxValue step initialValue repeatCount pre hrange
  refine ⟨fun s => rfl, _, _, heq, hbefore, rfl, ?_, hch, rfl, hlast.symm⟩
  show sliderCallbacks (_ ++ [_]) = sliderCallbacks _ ++ _
  rw [sliderCallbacks_append]
  rfl

/-- C26 at a run from 50 in 0..100 with step 1: Up Pushed, Up Repeated and then Back
Pushed. -/
theorem displaySlider_cancel_witness :
    toInt16 ((100 : Int) - 0) ≠ 0 ∧
    (∀ e ∈ [67, 195], e ≠ BUTTON_ID_SELECT + BUTTON_PUSHED_EVENT ∧
      e ≠ BUTTON_ID_BACK + BUTTON_PUSHED_EVENT) ∧
    ((∀ s : Slider, sliderLoopBody s (BUTTON_ID_BACK + BUTTON_PUSHED_EVENT) =
      (s, true, [SliderEffect.callback SLIDER_DISPLAY_CANCELED 0])) ∧
    ∃ r before,
      displaySlider 0 100 1 50 0
        ([67, 195] ++ (BUTTON_ID_BACK + BUTTON_PUSHED_EVENT) :: []) = some r ∧
      displaySlider 0 100 1 50 0 [67, 195] = some before ∧
      r.2.1 = true ∧
      sliderCallbacks r.2.2 = sliderCallbacks before.2.2 ++ [(SLIDER_DISPLAY_CANCELED, 0)] ∧
      (∀ c ∈ sliderCallbacks before.2.2, c.1 = SLIDER_DISPLAY_VALUE_CHANGED) ∧
      r.1 = before.1 ∧
      before.1.sliderDisplayValue = lastCallbackValue 50 (sliderCallbacks before.2.2)) :=
  ⟨by decide, by decide, displaySlider_cancel 0 100 1 50 0 [67, 195] [] (by decide) (by decide)⟩

/-- A Down block of the slider 0..100 with step 1 keeps the value in 0..100: the step
size is at most 4096 and nothing overflows. -/
lemma sliderDown_unit_step (s : Slider)
    (hs : s.sliderDisplayMinValue = 0 ∧ s.sliderDisplayMaxValue = 100 ∧
      s.sliderDisplayStep = 1 ∧ 0 ≤ s.sliderDisplayValue ∧ s.sliderDisplayValue ≤ 100 ∧
      0 ≤ s.sliderDisplayRepeatCount ∧ s.sliderDisplayRepeatCount ≤ 65535) :
    (sliderDown s).1.sliderDisplayMinValue = 0 ∧ (sliderDown s).1.sliderDisplayMaxValue = 100 ∧
      (sliderDown s).1.sliderDisplayStep = 1 ∧ 0 ≤ (sliderDown s).1.sliderDisplayValue ∧
      (sliderDown s).1.sliderDisplayValue ≤ 100 ∧
      0 ≤ (sliderDown s).1.sliderDisplayRepeatCount ∧
      (sliderDown s).1.sliderDisplayRepeatCount ≤ 65535 := by
  obtain ⟨hmin, hmax, hstep, hv0, hv1, hc0, hc1⟩ := hs
  obtain ⟨f1, f2, f3, f4⟩ := sliderDown_fields s
  have hcr : 0 ≤ toUInt16 (s.sliderDisplayRepeatCount + 1) ∧
      toUInt16 (s.sliderDisplayRepeatCount + 1) ≤ 65535 := by
    unfold toUInt16
    omega
  obtain ⟨b1, b2, -⟩ := sliderDown_bounds_of_no_overflow s
    (toUInt16 (s.sliderDisplayRepeatCount + 1)) rfl (by omega) (by omega) (by omega)
    (by rw [hstep]; omega) (by rw [hstep]; omega)
  rw [f1, f2, f3, f4]
  rw [hmin] at b1
  rw [hmax] at b2
  exact ⟨hmin, hmax, hstep, b1, b2, hcr.1, hcr.2⟩

/-- A run of the slider 0..100 with step 1 over Down events keeps the value in 0..100 and
reports values in 0..100 only. -/
lemma sliderLoop_down_unit_step (events : List Nat) (s : Slider)
    (hev : ∀ e ∈ events, e = BUTTON_ID_DOWN + BUTTON_PUSHED_EVENT ∨
      e = BUTTON_ID_DOWN + BUTTON_REPEAT_EVENT)
    (hs : s.sliderDisplayMinValue = 0 ∧ s.sliderDisplayMaxValue = 100 ∧
      s.sliderDisplayStep = 1 ∧ 0 ≤ s.sliderDisplayValue ∧ s.sliderDisplayValue ≤ 100 ∧
      0 ≤ s.sliderDisplayRepeatCount ∧ s.sliderDisplayRepeatCount ≤ 65535) :
    0 ≤ (sliderLoop s events).1.sliderDisplayValue ∧
    (sliderLoop s events).1.sliderDisplayValue ≤ 100 ∧
    ∀ c ∈ sliderCallbacks (sliderLoop s events).2.2, 0 ≤ c.2 ∧ c.2 ≤ 100 := by
  induction events generalizing s with
  | nil =>
    simp only [sliderLoop, sliderCallbacks]
    exact ⟨hs.2.2.2.1, hs.2.2.2.2.1, fun c hc => by cases hc⟩
  | cons e events ih =>
    have hne : e ≠ BUTTON_ID_SELECT + BUTTON_PUSHED_EVENT ∧
        e ≠ BUTTON_ID_BACK + BUTTON_PUSHED_EVENT := by
      rcases hev e (List.mem_cons_self _ _) with h | h <;> rw [h] <;> decide
    obtain ⟨hr, hcb⟩ := sliderLoopBody_turn s e hne
    have hinv : (sliderLoopBody s e).1.sliderDisplayMinValue = 0 ∧
        (sliderLoopBody s e).1.sliderDisplayMaxValue = 100 ∧
        (sliderLoopBody s e).1.sliderDisplayStep = 1 ∧
        0 ≤ (sliderLoopBody s e).1.sliderDisplayValue ∧
        (sliderLoopBody s e).1.sliderDisplayValue ≤ 100 ∧
        0 ≤ (sliderLoopBody s e).1.sliderDisplayRepeatCount ∧
        (sliderLoopBody s e).1.sliderDisplayRepeatCount ≤ 65535 := by
      rcases hev e (List.mem_cons_self _ _) with h | h
      · rw [h]
        exact sliderDown_unit_step { s with sliderDisplayRepeatCount := 0 }
          ⟨hs.1, hs.2.1, hs.2.2.1, hs.2.2.2.1, hs.2.2.2.2.1, le_refl _,
            show (0 : Int) ≤ 65535 by decide⟩
      · rw [h]
        exact sliderDown_unit_step s hs
    rcases hb : sliderLoopBody s e with ⟨s1, r1, o1⟩
    rw [hb] at hr hcb hinv
    simp only [] at hr hcb hinv
    subst hr
    obtain ⟨ih1, ih2, ih3⟩ := ih s1 (fun x hx => hev x (List.mem_cons_of_mem _ hx)) hinv
    have hloop : sliderLoop s (e :: events) =
        ((sliderLoop s1 events).1, (sliderLoop s1 events).2.1,
          o1 ++ (sliderLoop s1 events).2.2) := by
      simp [sliderLoop, hb]
    rw [hloop]
    simp only [sliderCallbacks_append]
    refine ⟨ih1, ih2, fun c hc => ?_⟩
    rcases List.mem_append.1 hc with hc | hc
    · rcases hcb with ⟨-, ho⟩ | ho
      · rw [ho] at hc
        cases hc
      · rw [ho] at hc
        rw [List.mem_singleton.1 hc]
        exact ⟨hinv.2.2.2.1, hinv.2.2.2.2.1⟩
    · exact ih3 c hc

/-- C22: the acceleration scenario. The slider with min 0, max 100, step 1, initial value
50 and repeat count 0 has, after 20 Down Repeated events, the value 25, which is less than
30: fifteen steps of 1 and five steps of 2. Whatever Down Pushed and Down Repeated events
follow, the run is defined, the value stays in 0..100, and so does every value passed to
the callback function during the whole run. -/
theorem displaySlider_acceleration (events : List Nat)
    (hev : ∀ e ∈ events, e = BUTTON_ID_DOWN + BUTTON_PUSHED_EVENT ∨
      e = BUTTON_ID_DOWN + BUTTON_REPEAT_EVENT) :
    (∃ r, displaySlider 0 100 1 50 0
        (List.replicate 20 (BUTTON_ID_DOWN + BUTTON_REPEAT_EVENT)) = some r ∧
      r.1.sliderDisplayValue = 25 ∧ r.1.sliderDisplayValue < 30) ∧
    ∃ r, displaySlider 0 100 1 50 0
        (List.replicate 20 (BUTTON_ID_DOWN + BUTTON_REPEAT_EVENT) ++ events) = some r ∧
      0 ≤ r.1.sliderDisplayValue ∧
      ∀ c ∈ sliderCallbacks r.2.2, 0 ≤ c.2 := by
  have hall : ∀ e ∈ List.replicate 20 (BUTTON_ID_DOWN + BUTTON_REPEAT_EVENT) ++ events,
      e = BUTTON_ID_DOWN + BUTTON_PUSHED_EVENT ∨ e = BUTTON_ID_DOWN + BUTTON_REPEAT_EVENT := by
    intro e he
    rcases List.mem_append.1 he with h | h
    · exact Or.inr (List.eq_of_mem_replicate h)
    · exact hev e h
  obtain ⟨h1, -, h3⟩ := sliderLoop_down_unit_step _ ⟨0, 100, 1, 50, 0⟩ hall
    ⟨rfl, rfl, rfl, by decide, by decide, le_refl _, by decide⟩
  have h25 : (sliderLoop ⟨0, 100, 1, 50, 0⟩ (List.replicate 20
      (BUTTON_ID_DOWN + BUTTON_REPEAT_EVENT))).1.sliderDisplayValue = 25 := by
    simp [sliderLoop, sliderLoopBody, sliderDown, sliderStepSize, toInt16,
      toUInt16, List.replicate]
  have hrange : toInt16 ((100 : Int) - 0) ≠ 0 := by decide
  have heq20 := displaySlider_eq 0 100 1 50 0
    (List.replicate 20 (BUTTON_ID_DOWN + BUTTON_REPEAT_EVENT)) hrange
  have heq := displaySlider_eq 0 100 1 50 0
    (List.replicate 20 (BUTTON_ID_DOWN + BUTTON_REPEAT_EVENT) ++ events) hrange
  rcases hL20 : sliderLoop ⟨0, 100, 1, 50, 0⟩ (List.replicate 20
      (BUTTON_ID_DOWN + BUTTON_REPEAT_EVENT)) with ⟨s20, r20, o20⟩
  rcases hL : sliderLoop ⟨0, 100, 1, 50, 0⟩ (List.replicate 20
      (BUTTON_ID_DOWN + BUTTON_REPEAT_EVENT) ++ events) with ⟨s', r', o'⟩
  rw [hL20] at heq20 h25
  rw [hL] at heq h1 h3
  simp only [] at heq20 h25 heq h1 h3
  have h30 : s20.sliderDisplayValue < 30 := by
    rw [h25]
    decide
  exact ⟨⟨_, heq20, h25, h30⟩, ⟨_, heq, h1, fun c hc => (h3 c hc).1⟩⟩

/-- C22 with three more events after the twenty: Down Repeated, Down Pushed, Down
Repeated. -/
theorem displaySlider_acceleration_witness :
    (∀ e ∈ [196, 68, 196], e = BUTTON_ID_DOWN + BUTTON_PUSHED_EVENT ∨
      e = BUTTON_ID_DOWN + BUTTON_REPEAT_EVENT) ∧
    ((∃ r, displaySlider 0 100 1 50 0
        (List.replicate 20 (BUTTON_ID_DOWN + BUTTON_REPEAT_EVENT)) = some r ∧
      r.1.sliderDisplayValue = 25 ∧ r.1.sliderDisplayValue < 30) ∧
    ∃ r, displaySlider 0 100 1 50 0
        (List.replicate 20 (BUTTON_ID_DOWN + BUTTON_REPEAT_EVENT) ++ [196, 68, 196]) =
          some r ∧
      0 ≤ r.1.sliderDisplayValue ∧
      ∀ c ∈ sliderCallbacks r.2.2, 0 ≤ c.2) :=
  ⟨by decide, displaySlider_acceleration [196, 68, 196] (by decide)⟩

/-- A Pushed event uses the step itself: with the repeat count reset to 0 and then
incremented to 1, the step size is `sliderDisplayStep`, for every 16-bit step. -/
lemma sliderStepSize_pushed (step : Int) (h0 : -32768 ≤ step) (h1 : step ≤ 32767) :
    toUInt16 (0 + 1) = 1 ∧ sliderStepSize step (toUInt16 (0 + 1)) = step := by
  unfold sliderStepSize toInt16 toUInt16
  refine ⟨by decide, ?_⟩
  norm_num
  omega

/-- Consecutive Repeated events count up: after `events`, each of them Down Repeated or
Up Repeated, the repeat count has grown by their number, as long as it stays below
`2 ^ 16`. -/
lemma sliderLoop_repeat_count (events : List Nat) (s : Slider)
    (hev : ∀ e ∈ events, e = BUTTON_ID_DOWN + BUTTON_REPEAT_EVENT ∨
      e = BUTTON_ID_UP + BUTTON_REPEAT_EVENT)
    (h0 : 0 ≤ s.sliderDisplayRepeatCount)
    (h1 : s.sliderDisplayRepeatCount + events.length ≤ 65535) :
    (sliderLoop s events).1.sliderDisplayRepeatCount =
      s.sliderDisplayRepeatCount + events.length := by
  induction events generalizing s with
  | nil => simp [sliderLoop]
  | cons e events ih =>
    simp only [List.length_cons, Nat.cast_add, Nat.cast_one] at h1
    have hc : toUInt16 (s.sliderDisplayRepeatCount + 1) = s.sliderDisplayRepeatCount + 1 :=
      toUInt16_of_range _ (by omega) (by omega)
    have hb : ∃ s1 o1, sliderLoopBody s e = (s1, false, o1) ∧
        s1.sliderDisplayRepeatCount = s.sliderDisplayRepeatCount + 1 := by
      rcases hev e (List.mem_cons_self _ _) with h | h
      · refine ⟨(sliderDown s).1, (sliderDown s).2, ?_, ?_⟩
        · rw [h]
          rfl
        · rw [(sliderDown_fields s).2.2.2, hc]
      · refine ⟨(sliderUp s).1, (sliderUp s).2, ?_, ?_⟩
        · rw [h]
          rfl
        · rw [(sliderUp_fields s).2.2.2, hc]
    obtain ⟨s1, o1, hb, hcount⟩ := hb
    have hloop : sliderLoop s (e :: events) =
        ((sliderLoop s1 events).1, (sliderLoop s1 events).2.1,
          o1 ++ (sliderLoop s1 events).2.2) := by
      simp [sliderLoop, hb]
    rw [hloop]
    simp only [List.length_cons, Nat.cast_add, Nat.cast_one]
    rw [ih s1 (fun x hx => hev x (List.mem_cons_of_mem _ hx)) (by omega) (by omega), hcount]
    ring

/-- C23, the code at `displaySlider(0, 30000, 20000, 30000, ...)`: Down Pushed and 14
Down Repeated events leave the value at the minimum 0 with the repeat count 15. The 15th
Down Repeated event has the repeat count 16; its step size `20000 * (16 / 16 + 1)` is not
40000 but -25536, and the Down event raises the value from 0 to 25536. -/
theorem displaySlider_step_size_wraps :
    (∃ r, displaySlider 0 30000 20000 30000 0
      ((BUTTON_ID_DOWN + BUTTON_PUSHED_EVENT) ::
        List.replicate 14 (BUTTON_ID_DOWN + BUTTON_REPEAT_EVENT)) = some r ∧
      r.1 = ⟨0, 30000, 20000, 0, 15⟩) ∧
    sliderStepSize 20000 16 = -25536 ∧
    sliderLoopBody ⟨0, 30000, 20000, 0, 15⟩ (BUTTON_ID_DOWN + BUTTON_REPEAT_EVENT) =
      (⟨0, 30000, 20000, 25536, 16⟩, false,
        [SliderEffect.callback SLIDER_DISPLAY_VALUE_CHANGED 25536,
          SliderEffect.drawSlider 25536]) := by
  have hrange : toInt16 ((30000 : Int) - 0) ≠ 0 := by decide
  have heq := displaySlider_eq 0 30000 20000 30000 0
    ((BUTTON_ID_DOWN + BUTTON_PUSHED_EVENT) ::
      List.replicate 14 (BUTTON_ID_DOWN + BUTTON_REPEAT_EVENT)) hrange
  have hloop : (sliderLoop ⟨0, 30000, 20000, 30000, 0⟩
      ((BUTTON_ID_DOWN + BUTTON_PUSHED_EVENT) ::
        List.replicate 14 (BUTTON_ID_DOWN + BUTTON_REPEAT_EVENT))).1 =
      ⟨0, 30000, 20000, 0, 15⟩ := by
    simp [sliderLoop, sliderLoopBody, sliderDown, sliderStepSize, toInt16,
      toUInt16, List.replicate]
  rcases hL : sliderLoop ⟨0, 30000, 20000, 30000, 0⟩
      ((BUTTON_ID_DOWN + BUTTON_PUSHED_EVENT) ::
        List.replicate 14 (BUTTON_ID_DOWN + BUTTON_REPEAT_EVENT)) with ⟨s', r', o'⟩
  rw [hL] at heq hloop
  simp only [] at heq hloop
  exact ⟨⟨_, heq, hloop⟩, by decide, by decide⟩

/-! ## Theorems: the needle of the integer slider -/

lemma toInt32_of_range (x : Int) (h0 : -2147483648 ≤ x) (h1 : x ≤ 2147483647) :
    toInt32 x = x := by
  unfold toInt32
  omega

/-- The needle length when the difference of the bounds fits the 16-bit `int`: the
quotient of the integer division. -/
lemma drawSliderNeedleLength_of_fit (s : Slider)
    (hlt : s.sliderDisplayMinValue < s.sliderDisplayMaxValue)
    (hv : s.sliderDisplayMinValue ≤ s.sliderDisplayValue ∧
      s.sliderDisplayValue ≤ s.sliderDisplayMaxValue)
    (hfit : s.sliderDisplayMaxValue - s.sliderDisplayMinValue ≤ 32767) :
    drawSliderNeedleLength s =
        some ((s.sliderDisplayValue - s.sliderDisplayMinValue) * 77 /
          (s.sliderDisplayMaxValue - s.sliderDisplayMinValue)) ∧
      0 ≤ (s.sliderDisplayValue - s.sliderDisplayMinValue) * 77 /
          (s.sliderDisplayMaxValue - s.sliderDisplayMinValue) ∧
      (s.sliderDisplayValue - s.sliderDisplayMinValue) * 77 /
          (s.sliderDisplayMaxValue - s.sliderDisplayMinValue) ≤ 77 := by
  obtain ⟨mn, mx, st, v, rc⟩ := s
  simp only [] at hlt hv hfit
  have hd : toInt32 (toInt16 (mx - mn)) = mx - mn := by
    rw [toInt16_of_range _ (by omega) hfit, toInt32_of_range _ (by omega) (by omega)]
  have hn : toInt32 (toInt32 (v - mn) * SLIDER_NEEDLE_WIDTH) = (v - mn) * 77 := by
    rw [toInt32_of_range (v - mn) (by omega) (by omega)]
    simp only [SLIDER_NEEDLE_WIDTH, SLIDER_FRAME_RIGHT_X, LCD_LAST_COLUMN_X,
      LCD_WIDTH_IN_PIXELS, SLIDER_FRAME_LEFT_X, SLIDER_NEEDLE_PADDING_FROM_FRAME]
    norm_num
    exact toInt32_of_range _ (by omega) (by omega)
  have hq0 : 0 ≤ (v - mn) * 77 / (mx - mn) := Int.ediv_nonneg (by omega) (by omega)
  have hq1 : (v - mn) * 77 / (mx - mn) ≤ 77 :=
    Int.ediv_le_of_le_mul (by omega) (by nlinarith)
  refine ⟨?_, hq0, hq1⟩
  simp only [drawSliderNeedleLength, hd, hn]
  rw [if_neg (by omega), Int.tdiv_eq_ediv (by omega) (by omega)]
  congr 1
  omega

/-- C28, the code against the specification: for the slider 0..100 at the value 10 the
code computes the needle length 7, the quotient of 770 by 100, while
`round(10 / 100 × 77)` is 8. -/
theorem drawSliderNeedleLength_truncates :
    drawSliderNeedleLength ⟨0, 100, 1, 10, 0⟩ = some 7 ∧ roundedNeedle 0 100 10 = 8 := by
  refine ⟨by decide, ?_⟩
  unfold roundedNeedle
  rw [round_eq, Int.floor_eq_iff]
  norm_num

/-- C28 as amended: for all bounds `min < max` whose difference fits the 16-bit `int` and
every value in `min..max`, the needle length computed by `drawSlider` is the integer part
`⌊(value − min) / (max − min) × 77⌋`, that is the quotient of the integer division of
`(value − min) × 77` by `max − min`: the largest `n` with
`n × (max − min) ≤ (value − min) × 77`. -/
theorem drawSliderNeedleLength_floor (s : Slider)
    (hlt : s.sliderDisplayMinValue < s.sliderDisplayMaxValue)
    (hv : s.sliderDisplayMinValue ≤ s.sliderDisplayValue ∧
      s.sliderDisplayValue ≤ s.sliderDisplayMaxValue)
    (hfit : s.sliderDisplayMaxValue - s.sliderDisplayMinValue ≤ 32767) :
    ∃ n : Int, drawSliderNeedleLength s = some n ∧
      n = ⌊(((s.sliderDisplayValue - s.sliderDisplayMinValue : Int) : ℚ) /
        ((s.sliderDisplayMaxValue - s.sliderDisplayMinValue : Int) : ℚ)) * 77⌋ ∧
      n = (s.sliderDisplayValue - s.sliderDisplayMinValue) * 77 /
        (s.sliderDisplayMaxValue - s.sliderDisplayMinValue) ∧
      n * (s.sliderDisplayMaxValue - s.sliderDisplayMinValue) ≤
        (s.sliderDisplayValue - s.sliderDisplayMinValue) * 77 ∧
      (s.sliderDisplayValue - s.sliderDisplayMinValue) * 77 <
        (n + 1) * (s.sliderDisplayMaxValue - s.sliderDisplayMinValue) := by
  obtain ⟨hn, -, -⟩ := drawSliderNeedleLength_of_fit s hlt hv hfit
  have hd : 0 < s.sliderDisplayMaxValue - s.sliderDisplayMinValue := by omega
  have h1 := Int.ediv_mul_le ((s.sliderDisplayValue - s.sliderDisplayMinValue) * 77)
    (ne_of_gt hd)
  have h2 := Int.lt_ediv_add_one_mul_self
    ((s.sliderDisplayValue - s.sliderDisplayMinValue) * 77) hd
  refine ⟨_, hn, ?_, rfl, h1, h2⟩
  symm
  rw [Int.floor_eq_iff]
  have hdq : (0 : ℚ) < ((s.sliderDisplayMaxValue - s.sliderDisplayMinValue : Int) : ℚ) := by
    exact_mod_cast hd
  constructor
  · rw [div_mul_eq_mul_div, le_div_iff₀ hdq]
    exact_mod_cast h1
  · rw [div_mul_eq_mul_div, div_lt_iff₀ hdq]
    exact_mod_cast h2

/-- C28 as amended, at the slider 0..100 with the value 10: the needle length is 7. -/
theorem drawSliderNeedleLength_floor_witness :
    ((0 : Int) < 100 ∧ ((0 : Int) ≤ 10 ∧ (10 : Int) ≤ 100) ∧ (100 : Int) - 0 ≤ 32767) ∧
    ∃ n : Int, drawSliderNeedleLength ⟨0, 100, 1, 10, 0⟩ = some n ∧
      n = ⌊((((10 : Int) - 0 : Int) : ℚ) / (((100 : Int) - 0 : Int) : ℚ)) * 77⌋ ∧
      n = ((10 : Int) - 0) * 77 / (100 - 0) ∧
      n * ((100 : Int) - 0) ≤ ((10 : Int) - 0) * 77 ∧
      ((10 : Int) - 0) * 77 < (n + 1) * ((100 : Int) - 0) :=
  ⟨⟨by decide, ⟨by decide, by decide⟩, by decide⟩,
    drawSliderNeedleLength_floor ⟨0, 100, 1, 10, 0⟩ (by decide) ⟨by decide, by decide⟩
      (by decide)⟩

/-- C29, the code at `displaySlider(5, 5, 1, 5, ...)`: with `max == min` the divisor of
the needle computation in `drawSlider` is 0 and the code divides by it, so the needle
length is not defined (it is not 0). -/
theorem drawSliderNeedleLength_degenerate :
    toInt32 (toInt16 ((5 : Int) - 5)) = 0 ∧ drawSliderNeedleLength ⟨5, 5, 1, 5, 0⟩ = none ∧
      drawSliderNeedleLength ⟨5, 5, 1, 5, 0⟩ ≠ some 0 := by
  decide

/-! ## Theorems: the settings in the EEPROM -/

/-- C30: the Int settings round trip. For every content of the EEPROM, every address,
every 16-bit signed value and every default, `readConfigurationInt` on the content that
`writeConfigurationInt` leaves returns the value written: also when the byte at the
address was 0xFF before, when the value is the default and when it is negative. -/
theorem readConfigurationInt_writeConfigurationInt (eeprom : EEPROM)
    (EEPromAddress value defaultValue : Int)
    (hvalue : -32768 ≤ value ∧ value ≤ 32767) :
    readConfigurationInt (writeConfigurationInt eeprom EEPromAddress value) EEPromAddress
      defaultValue = value := by
  have h1 : toInt16 (EEPromAddress + 1) ≠ EEPromAddress := by
    unfold toInt16
    omega
  have h2 : toInt16 (EEPromAddress + 2) ≠ EEPromAddress := by
    unfold toInt16
    omega
  have h12 : toInt16 (EEPromAddress + 1) ≠ toInt16 (EEPromAddress + 2) := by
    unfold toInt16
    omega
  have hsentinel : writeConfigurationInt eeprom EEPromAddress value EEPromAddress ≠ 0xff := by
    simp only [writeConfigurationInt, EEPROM.write, EEPROM.read, if_neg h1.symm,
      if_neg h2.symm]
    split_ifs with h
    · simp [EEPROM.write]
    · exact h
  have hlow : writeConfigurationInt eeprom EEPromAddress value (toInt16 (EEPromAddress + 1)) =
      toUInt16 value % 256 := by
    simp only [writeConfigurationInt, EEPROM.write, if_neg h12, if_true]
  have hhigh : writeConfigurationInt eeprom EEPromAddress value
      (toInt16 (EEPromAddress + 2)) = toUInt16 value / 256 % 256 := by
    simp only [writeConfigurationInt, EEPROM.write, if_true]
  simp only [readConfigurationInt, EEPROM.read, if_neg hsentinel, hlow, hhigh]
  unfold toInt16 toUInt16
  omega

/-- C30 at an EEPROM that was never written (every byte 0xFF), the address 10 and the
negative value -2, which is also the default. -/
theorem readConfigurationInt_writeConfigurationInt_witness :
    ((-32768 : Int) ≤ -2 ∧ (-2 : Int) ≤ 32767) ∧
    readConfigurationInt (writeConfigurationInt (fun _ => 0xff) 10 (-2)) 10 (-2) = -2 :=
  ⟨⟨by decide, by decide⟩,
    readConfigurationInt_writeConfigurationInt (fun _ => 0xff) 10 (-2) (-2)
      ⟨by decide, by decide⟩⟩

/-! ## Theorems: the cursor of the display -/

/-- Printing a text that ends at or before column 255 moves the cursor by six columns for
each character and sends the cells of the text. -/
lemma lcdPrintCharacters_spec (cs : List Char) (lcd : Lcd) (h0 : 0 ≤ lcd.lcdCursorColumnX)
    (h1 : lcd.lcdCursorColumnX + 6 * (cs.length : Int) ≤ 255) :
    (lcdPrintCharacters lcd cs).lcdCursorColumnX = lcd.lcdCursorColumnX + 6 * (cs.length : Int) ∧
    (lcdPrintCharacters lcd cs).lcdCursorRowY = lcd.lcdCursorRowY ∧
    (lcdPrintCharacters lcd cs).written =
      lcd.written ++ printedCharacters lcd.lcdCursorColumnX lcd.lcdCursorRowY false cs := by
  induction cs generalizing lcd with
  | nil => simp [lcdPrintCharacters, printedCharacters]
  | cons c cs ih =>
    simp only [List.length_cons, Nat.cast_add, Nat.cast_one] at h1
    have hx : (lcd.lcdCursorColumnX + 6) % 256 = lcd.lcdCursorColumnX + 6 := by omega
    obtain ⟨i1, i2, i3⟩ := ih (lcdPrintCharacter lcd ((c.toNat : Int) % 256))
      (by simp only [lcdPrintCharacter, hx]; omega)
      (by simp only [lcdPrintCharacter, hx]; omega)
    simp only [lcdPrintCharacter, hx] at i1 i2 i3
    simp only [lcdPrintCharacters, lcdPrintCharacter, hx, i1, i2, i3, printedCharacters,
      List.length_cons, Nat.cast_add, Nat.cast_one, List.append_assoc, List.singleton_append]
    refine ⟨by ring, trivial, trivial⟩

/-- Printing a text in reverse video that ends at or before column 255. -/
lemma lcdPrintCharactersReverse_spec (cs : List Char) (lcd : Lcd)
    (h0 : 0 ≤ lcd.lcdCursorColumnX)
    (h1 : lcd.lcdCursorColumnX + 6 * (cs.length : Int) ≤ 255) :
    (lcdPrintCharactersReverse lcd cs).lcdCursorColumnX =
      lcd.lcdCursorColumnX + 6 * (cs.length : Int) ∧
    (lcdPrintCharactersReverse lcd cs).lcdCursorRowY = lcd.lcdCursorRowY ∧
    (lcdPrintCharactersReverse lcd cs).written =
      lcd.written ++ printedCharacters lcd.lcdCursorColumnX lcd.lcdCursorRowY true cs := by
  induction cs generalizing lcd with
  | nil => simp [lcdPrintCharactersReverse, printedCharacters]
  | cons c cs ih =>
    simp only [List.length_cons, Nat.cast_add, Nat.cast_one] at h1
    have hx : (lcd.lcdCursorColumnX + 6) % 256 = lcd.lcdCursorColumnX + 6 := by omega
    obtain ⟨i1, i2, i3⟩ := ih (lcdPrintCharacterReverse lcd ((c.toNat : Int) % 256))
      (by simp only [lcdPrintCharacterReverse, hx]; omega)
      (by simp only [lcdPrintCharacterReverse, hx]; omega)
    simp only [lcdPrintCharacterReverse, hx] at i1 i2 i3
    simp only [lcdPrintCharactersReverse, lcdPrintCharacterReverse, hx, i1, i2, i3,
      printedCharacters, List.length_cons, Nat.cast_add, Nat.cast_one, List.append_assoc,
      List.singleton_append]
    refine ⟨by ring, trivial, trivial⟩

/-- Printing a text, plain or in reverse video, that ends at or before column 255. -/
lemma lcdPrint_spec (reverse : Bool) (s : String) (lcd : Lcd)
    (h0 : 0 ≤ lcd.lcdCursorColumnX)
    (h1 : lcd.lcdCursorColumnX + 6 * (s.length : Int) ≤ 255) :
    (if reverse then lcdPrintStringReverse lcd s else lcdPrintString lcd s) =
      ⟨lcd.lcdCursorColumnX + 6 * (s.length : Int), lcd.lcdCursorRowY,
        lcd.written ++
          printedCharacters lcd.lcdCursorColumnX lcd.lcdCursorRowY reverse s.toList⟩ := by
  have hlen : (s.toList.length : Int) = (s.length : Int) := rfl
  cases reverse with
  | false =>
    obtain ⟨a, b, c⟩ := lcdPrintCharacters_spec s.toList lcd h0 (by rw [hlen]; exact h1)
    rw [hlen] at a
    simp only [Bool.false_eq_true, if_false, lcdPrintString]
    rcases hr : lcdPrintCharacters lcd s.toList with ⟨x, y, w⟩
    rw [hr] at a b c
    simp only [] at a b c
    rw [a, b, c]
  | true =>
    obtain ⟨a, b, c⟩ := lcdPrintCharactersReverse_spec s.toList lcd h0
      (by rw [hlen]; exact h1)
    rw [hlen] at a
    simp only [if_true, lcdPrintStringReverse]
    rcases hr : lcdPrintCharactersReverse lcd s.toList with ⟨x, y, w⟩
    rw [hr] at a b c
    simp only [] at a b c
    rw [a, b, c]

/-- Filling to a column `X` at or right of the cursor: the cursor is set where it is,
the columns up to `X` are filled if there are any, and the cursor is left at `X` on the
same line. -/
lemma lcdFillToColumnX_spec (lcd : Lcd) (X byteOfPixels : Int)
    (h0 : 0 ≤ lcd.lcdCursorColumnX) (hX : lcd.lcdCursorColumnX ≤ X) (h1 : 1 ≤ X)
    (h2 : X ≤ 255) (hrow : 0 ≤ lcd.lcdCursorRowY ∧ lcd.lcdCursorRowY ≤ 255) :
    lcdFillToColumnX lcd X byteOfPixels =
      ⟨X, lcd.lcdCursorRowY,
        lcd.written ++ (LcdWrite.cursor lcd.lcdCursorColumnX lcd.lcdCursorRowY ::
          (if lcd.lcdCursorColumnX < X then
            [LcdWrite.pixels lcd.lcdCursorColumnX lcd.lcdCursorRowY
              (X - lcd.lcdCursorColumnX) byteOfPixels]
          else []))⟩ := by
  obtain ⟨x, y, w⟩ := lcd
  simp only [] at h0 hX hrow
  have hX1 : toInt16 (X - 1) = X - 1 := toInt16_of_range _ (by omega) (by omega)
  have hc : toInt16 (X - 1 - x + 1) = X - x := by
    rw [toInt16_of_range _ (by omega) (by omega)]
    ring
  have hy : y % 256 = y := by omega
  have hx : x % 256 = x := by omega
  simp only [lcdFillToColumnX, hX1, lcdDrawRowOfPixels, lcdSetCursorXY, hc, hx, hy]
  rw [if_neg (by omega)]
  by_cases hlt : x < X
  · have hsum : (x + (X - x)) % 256 = X := by omega
    rw [if_neg (by omega), if_pos hlt, hsum]
    simp
  · have hxX : x = X := by omega
    rw [if_pos (by omega), if_neg hlt, hxX]

/-- C21: the status text of a Toggle row is right-aligned. For every Toggle row whose
label has `L` characters and whose status text has `S` characters with
`3 + 6 * L ≤ 84 - 6 * S`, selected or not, `drawMenuItem` leaves the cursor at column 84,
the width of the display, and sends to the display, in this order: the cursor commands
and three columns of fill, the cells of the label from column 3, the fill from the end of
the label up to column `84 - 6 * S` if there is room, and the cells of the status text
from column `84 - 6 * S`, which does not depend on `L`; label, fill and status text are
in reverse video exactly when the row is selected. -/
theorem drawMenuItemToggle_right_aligned (lcd : Lcd) (menuLine : Int)
    (menuItemSelected : Bool) (menuItemText toggleMenuStateText : String)
    (hfit : 3 + 6 * (menuItemText.length : Int) ≤
      84 - 6 * (toggleMenuStateText.length : Int)) :
    drawMenuItemToggle lcd menuLine menuItemSelected menuItemText toggleMenuStateText =
      ⟨84, menuLine % 256,
        lcd.written ++
          ([LcdWrite.cursor 0 menuLine, LcdWrite.cursor 0 (menuLine % 256),
              LcdWrite.pixels 0 (menuLine % 256) 3 (if menuItemSelected then 0xff else 0x00)] ++
            printedCharacters 3 (menuLine % 256) menuItemSelected menuItemText.toList ++
            LcdWrite.cursor (3 + 6 * (menuItemText.length : Int)) (menuLine % 256) ::
              (if 3 + 6 * (menuItemText.length : Int) <
                  84 - 6 * (toggleMenuStateText.length : Int) then
                [LcdWrite.pixels (3 + 6 * (menuItemText.length : Int)) (menuLine % 256)
                  (84 - 6 * (toggleMenuStateText.length : Int) -
                    (3 + 6 * (menuItemText.length : Int)))
                  (if menuItemSelected then 0xff else 0x00)]
              else []) ++
            printedCharacters (84 - 6 * (toggleMenuStateText.length : Int)) (menuLine % 256)
              menuItemSelected toggleMenuStateText.toList)⟩ := by
  have hL : (0 : Int) ≤ (menuItemText.length : Int) := Int.natCast_nonneg _
  have hS : (0 : Int) ≤ (toggleMenuStateText.length : Int) := Int.natCast_nonneg _
  have hrow : 0 ≤ menuLine % 256 ∧ menuLine % 256 ≤ 255 := by omega
  have hwidth : lcdStringWidthInPixels toggleMenuStateText =
      6 * (toggleMenuStateText.length : Int) := by
    unfold lcdStringWidthInPixels toUInt16
    omega
  generalize hfill : (if menuItemSelected then (0xff : Int) else 0x00) = fillCharacter
  have h0 : lcdSetCursorXY lcd 0 menuLine =
      ⟨0, menuLine % 256, lcd.written ++ [LcdWrite.cursor 0 menuLine]⟩ := by
    simp [lcdSetCursorXY]
  have h1 := lcdFillToColumnX_spec
    ⟨0, menuLine % 256, lcd.written ++ [LcdWrite.cursor 0 menuLine]⟩ 3 fillCharacter
    (le_refl _) (show (0 : Int) ≤ 3 by decide) (by decide) (by decide) hrow
  simp only [] at h1
  rw [if_pos (by decide)] at h1
  have h2 := lcdPrint_spec menuItemSelected menuItemText
    ⟨3, menuLine % 256, lcd.written ++ [LcdWrite.cursor 0 menuLine] ++
      (LcdWrite.cursor 0 (menuLine % 256) ::
        [LcdWrite.pixels 0 (menuLine % 256) (3 - 0) fillCharacter])⟩
    (show (0 : Int) ≤ 3 by decide) (by simp only []; omega)
  simp only [] at h2
  have h3 := lcdFillToColumnX_spec
    ⟨3 + 6 * (menuItemText.length : Int), menuLine % 256,
      lcd.written ++ [LcdWrite.cursor 0 menuLine] ++
        (LcdWrite.cursor 0 (menuLine % 256) ::
          [LcdWrite.pixels 0 (menuLine % 256) (3 - 0) fillCharacter]) ++
        printedCharacters 3 (menuLine % 256) menuItemSelected menuItemText.toList⟩
    (84 - 6 * (toggleMenuStateText.length : Int)) fillCharacter
    (by simp only []; omega) hfit (by omega) (by omega) hrow
  simp only [] at h3
  have h4 := lcdPrint_spec menuItemSelected toggleMenuStateText
    ⟨84 - 6 * (toggleMenuStateText.length : Int), menuLine % 256,
      lcd.written ++ [LcdWrite.cursor 0 menuLine] ++
        (LcdWrite.cursor 0 (menuLine % 256) ::
          [LcdWrite.pixels 0 (menuLine % 256) (3 - 0) fillCharacter]) ++
        printedCharacters 3 (menuLine % 256) menuItemSelected menuItemText.toList ++
        (LcdWrite.cursor (3 + 6 * (menuItemText.length : Int)) (menuLine % 256) ::
          (if 3 + 6 * (menuItemText.length : Int) <
              84 - 6 * (toggleMenuStateText.length : Int) then
            [LcdWrite.pixels (3 + 6 * (menuItemText.length : Int)) (menuLine % 256)
              (84 - 6 * (toggleMenuStateText.length : Int) -
                (3 + 6 * (menuItemText.length : Int))) fillCharacter]
          else []))⟩
    (by simp only []; omega) (by simp only []; omega)
  simp only [] at h4
  have hend : (84 : Int) - 6 * (toggleMenuStateText.length : Int) +
      6 * (toggleMenuStateText.length : Int) = 84 := by ring
  rw [hend] at h4
  unfold drawMenuItemToggle
  simp only [h0, hfill, hwidth, LCD_WIDTH_IN_PIXELS, h1]
  cases menuItemSelected with
  | false =>
    simp only [Bool.false_eq_true, if_false] at h2 h4 ⊢
    rw [h2, h3, h4]
    simp
  | true =>
    simp only [if_true] at h2 h4 ⊢
    rw [h2, h3, h4]
    simp

/-- C21 at the selected row "Sound" with the status text "Off" on line 2: the status
text starts at column 66. -/
theorem drawMenuItemToggle_right_aligned_witness :
    3 + 6 * (("Sound".length : Nat) : Int) ≤ 84 - 6 * (("Off".length : Nat) : Int) ∧
    drawMenuItemToggle ⟨17, 4, []⟩ 2 true "Sound" "Off" =
      ⟨84, 2 % 256,
        [] ++
          ([LcdWrite.cursor 0 2, LcdWrite.cursor 0 (2 % 256),
              LcdWrite.pixels 0 (2 % 256) 3 (if true then 0xff else 0x00)] ++
            printedCharacters 3 (2 % 256) true "Sound".toList ++
            LcdWrite.cursor (3 + 6 * (("Sound".length : Nat) : Int)) (2 % 256) ::
              (if 3 + 6 * (("Sound".length : Nat) : Int) <
                  84 - 6 * (("Off".length : Nat) : Int) then
                [LcdWrite.pixels (3 + 6 * (("Sound".length : Nat) : Int)) (2 % 256)
                  (84 - 6 * (("Off".length : Nat) : Int) -
                    (3 + 6 * (("Sound".length : Nat) : Int)))
                  (if true then 0xff else 0x00)]
              else []) ++
            printedCharacters (84 - 6 * (("Off".length : Nat) : Int)) (2 % 256)
              true "Off".toList)⟩ :=
  ⟨by decide, drawMenuItemToggle_right_aligned ⟨17, 4, []⟩ 2 true "Sound" "Off" (by decide)⟩

/-! ## Theorems: the Byte and Long settings -/

lemma EEPROM.write_same (eeprom : EEPROM) (address value : Int) :
    EEPROM.write eeprom address value address = value := by
  simp [EEPROM.write]

lemma EEPROM.write_other (eeprom : EEPROM) (address value x : Int) (h : x ≠ address) :
    EEPROM.write eeprom address value x = eeprom x := by
  simp [EEPROM.write, h]

/-- The byte at the address after the test of the sentinel: 0 if it was 0xFF, and
unchanged otherwise; it is never 0xFF. -/
lemma sentinel_written (eeprom : EEPROM) (a : Int) :
    (if EEPROM.read eeprom a = 0xff then EEPROM.write eeprom a 0 else eeprom) a =
        (if eeprom a = 0xff then 0 else eeprom a) ∧
      (if EEPROM.read eeprom a = 0xff then EEPROM.write eeprom a 0 else eeprom) a ≠ 0xff ∧
      ∀ x, x ≠ a →
        (if EEPROM.read eeprom a = 0xff then EEPROM.write eeprom a 0 else eeprom) x =
          eeprom x := by
  unfold EEPROM.read
  by_cases h : eeprom a = 0xff
  · simp only [if_pos h, EEPROM.write_same]
    exact ⟨trivial, by decide, fun x hx => EEPROM.write_other _ _ _ _ hx⟩
  · simp only [if_neg h]
    exact ⟨trivial, h, fun x _ => trivial⟩

/-- The content after `writeConfigurationLong`, cell by cell. -/
lemma writeConfigurationLong_cells (eeprom : EEPROM) (a v : Int) :
    writeConfigurationLong eeprom a v a = (if eeprom a = 0xff then 0 else eeprom a) ∧
    writeConfigurationLong eeprom a v a ≠ 0xff ∧
    writeConfigurationLong eeprom a v (toInt16 (a + 1)) = toUInt32 v % 256 ∧
    writeConfigurationLong eeprom a v (toInt16 (a + 2)) = toUInt32 (v / 256) % 256 ∧
    writeConfigurationLong eeprom a v (toInt16 (a + 3)) = toUInt32 (v / 256 / 256) % 256 ∧
    writeConfigurationLong eeprom a v (toInt16 (a + 4)) =
      toUInt32 (v / 256 / 256 / 256) % 256 ∧
    ∀ x, x ≠ a → x ≠ toInt16 (a + 1) → x ≠ toInt16 (a + 2) → x ≠ toInt16 (a + 3) →
      x ≠ toInt16 (a + 4) → writeConfigurationLong eeprom a v x = eeprom x := by
  have h01 : a ≠ toInt16 (a + 1) := by unfold toInt16; omega
  have h02 : a ≠ toInt16 (a + 2) := by unfold toInt16; omega
  have h03 : a ≠ toInt16 (a + 3) := by unfold toInt16; omega
  have h04 : a ≠ toInt16 (a + 4) := by unfold toInt16; omega
  have h12 : toInt16 (a + 1) ≠ toInt16 (a + 2) := by unfold toInt16; omega
  have h13 : toInt16 (a + 1) ≠ toInt16 (a + 3) := by unfold toInt16; omega
  have h14 : toInt16 (a + 1) ≠ toInt16 (a + 4) := by unfold toInt16; omega
  have h23 : toInt16 (a + 2) ≠ toInt16 (a + 3) := by unfold toInt16; omega
  have h24 : toInt16 (a + 2) ≠ toInt16 (a + 4) := by unfold toInt16; omega
  have h34 : toInt16 (a + 3) ≠ toInt16 (a + 4) := by unfold toInt16; omega
  obtain ⟨s1, s2, s3⟩ := sentinel_written eeprom a
  simp only [writeConfigurationLong]
  refine ⟨?_, ?_, ?_, ?_, ?_, ?_, ?_⟩
  · rw [EEPROM.write_other _ _ _ _ h04, EEPROM.write_other _ _ _ _ h03,
      EEPROM.write_other _ _ _ _ h02, EEPROM.write_other _ _ _ _ h01]
    exact s1
  · rw [EEPROM.write_other _ _ _ _ h04, EEPROM.write_other _ _ _ _ h03,
      EEPROM.write_other _ _ _ _ h02, EEPROM.write_other _ _ _ _ h01]
    exact s2
  · rw [EEPROM.write_other _ _ _ _ h14, EEPROM.write_other _ _ _ _ h13,
      EEPROM.write_other _ _ _ _ h12, EEPROM.write_same]
  · rw [EEPROM.write_other _ _ _ _ h24, EEPROM.write_other _ _ _ _ h23, EEPROM.write_same]
  · rw [EEPROM.write_other _ _ _ _ h34, EEPROM.write_same]
  · rw [EEPROM.write_same]
  · intro x x0 x1 x2 x3 x4
    rw [EEPROM.write_other _ _ _ _ x4, EEPROM.write_other _ _ _ _ x3,
      EEPROM.write_other _ _ _ _ x2, EEPROM.write_other _ _ _ _ x1]
    exact s3 x x0

/-- C31: the Long settings round trip. For every content of the EEPROM, every address,
every 32-bit signed value `v` and every default, `readConfigurationLong` on the content
that `writeConfigurationLong` leaves returns `v`, and the bytes at the four addresses
after the sentinel are the bytes of `v` in two's complement, lowest byte first: byte `k`
is `(v mod 2^32) / 256^k mod 256`, also for negative `v`. -/
theorem readConfigurationLong_writeConfigurationLong (eeprom : EEPROM)
    (EEPromAddress value defaultValue : Int)
    (hvalue : -2147483648 ≤ value ∧ value ≤ 2147483647) :
    readConfigurationLong (writeConfigurationLong eeprom EEPromAddress value) EEPromAddress
        defaultValue = value ∧
    EEPROM.read (writeConfigurationLong eeprom EEPromAddress value)
        (toInt16 (EEPromAddress + 1)) = toUInt32 value % 256 ∧
    EEPROM.read (writeConfigurationLong eeprom EEPromAddress value)
        (toInt16 (EEPromAddress + 2)) = toUInt32 value / 256 % 256 ∧
    EEPROM.read (writeConfigurationLong eeprom EEPromAddress value)
        (toInt16 (EEPromAddress + 3)) = toUInt32 value / 65536 % 256 ∧
    EEPROM.read (writeConfigurationLong eeprom EEPromAddress value)
        (toInt16 (EEPromAddress + 4)) = toUInt32 value / 16777216 % 256 := by
  obtain ⟨-, c0, c1, c2, c3, c4, -⟩ := writeConfigurationLong_cells eeprom EEPromAddress value
  simp only [readConfigurationLong, EEPROM.read, if_neg c0, c1, c2, c3, c4]
  unfold toInt32 toUInt32
  refine ⟨?_, trivial, ?_, ?_, ?_⟩ <;> omega

/-- C31 at an EEPROM that was never written (every byte 0xFF), the address 10 and the
negative value -2: the bytes written are 0xFE, 0xFF, 0xFF, 0xFF. -/
theorem readConfigurationLong_writeConfigurationLong_witness :
    ((-2147483648 : Int) ≤ -2 ∧ (-2 : Int) ≤ 2147483647) ∧
    (readConfigurationLong (writeConfigurationLong (fun _ => 0xff) 10 (-2)) 10 7 = -2 ∧
    EEPROM.read (writeConfigurationLong (fun _ => 0xff) 10 (-2)) (toInt16 (10 + 1)) =
      toUInt32 (-2) % 256 ∧
    EEPROM.read (writeConfigurationLong (fun _ => 0xff) 10 (-2)) (toInt16 (10 + 2)) =
      toUInt32 (-2) / 256 % 256 ∧
    EEPROM.read (writeConfigurationLong (fun _ => 0xff) 10 (-2)) (toInt16 (10 + 3)) =
      toUInt32 (-2) / 65536 % 256 ∧
    EEPROM.read (writeConfigurationLong (fun _ => 0xff) 10 (-2)) (toInt16 (10 + 4)) =
      toUInt32 (-2) / 16777216 % 256) :=
  ⟨⟨by decide, by decide⟩,
    readConfigurationLong_writeConfigurationLong (fun _ => 0xff) 10 (-2) 7
      ⟨by decide, by decide⟩⟩

/-- C32: the default of a setting that was never written. For every content of the
EEPROM (each cell a byte), every address `a` and every default `d`: when the byte at `a`
is 0xFF, each of `readConfigurationByte`, `readConfigurationInt` and
`readConfigurationLong` returns `d`, whatever the following bytes hold; when it is not
0xFF, the functions return the value decoded from the bytes after `a`, lowest byte first
(the byte itself, the 16-bit and the 32-bit two's-complement value), which does not
depend on `d`. -/
theorem readConfiguration_never_written_default (eeprom : EEPROM)
    (EEPromAddress defaultValue : Int)
    (hbytes : ∀ x, 0 ≤ EEPROM.read eeprom x ∧ EEPROM.read eeprom x ≤ 255) :
    (EEPROM.read eeprom EEPromAddress = 0xff →
      readConfigurationByte eeprom EEPromAddress defaultValue = defaultValue ∧
      readConfigurationInt eeprom EEPromAddress defaultValue = defaultValue ∧
      readConfigurationLong eeprom EEPromAddress defaultValue = defaultValue) ∧
    (EEPROM.read eeprom EEPromAddress ≠ 0xff →
      readConfigurationByte eeprom EEPromAddress defaultValue =
        EEPROM.read eeprom (toInt16 (EEPromAddress + 1)) ∧
      readConfigurationInt eeprom EEPromAddress defaultValue =
        toInt16 (EEPROM.read eeprom (toInt16 (EEPromAddress + 1)) +
          256 * EEPROM.read eeprom (toInt16 (EEPromAddress + 2))) ∧
      readConfigurationLong eeprom EEPromAddress defaultValue =
        toInt32 (EEPROM.read eeprom (toInt16 (EEPromAddress + 1)) +
          256 * EEPROM.read eeprom (toInt16 (EEPromAddress + 2)) +
          65536 * EEPROM.read eeprom (toInt16 (EEPromAddress + 3)) +
          16777216 * EEPROM.read eeprom (toInt16 (EEPromAddress + 4)))) := by
  have h1 := hbytes (toInt16 (EEPromAddress + 1))
  have h2 := hbytes (toInt16 (EEPromAddress + 2))
  have h3 := hbytes (toInt16 (EEPromAddress + 3))
  have h4 := hbytes (toInt16 (EEPromAddress + 4))
  constructor
  · intro h
    simp only [readConfigurationByte, readConfigurationInt, readConfigurationLong, if_pos h]
    exact ⟨trivial, trivial, trivial⟩
  · intro h
    simp only [readConfigurationByte, readConfigurationInt, readConfigurationLong, if_neg h]
    generalize EEPROM.read eeprom (toInt16 (EEPromAddress + 1)) = b1 at h1 ⊢
    generalize EEPROM.read eeprom (toInt16 (EEPromAddress + 2)) = b2 at h2 ⊢
    generalize EEPROM.read eeprom (toInt16 (EEPromAddress + 3)) = b3 at h3 ⊢
    generalize EEPROM.read eeprom (toInt16 (EEPromAddress + 4)) = b4 at h4 ⊢
    refine ⟨trivial, ?_, ?_⟩
    · unfold toInt16 toUInt16
      omega
    · unfold toInt32 toUInt32
      omega

/-- C32 at the address 10 of two EEPROM contents. In the first one, never written, every
byte is 0xFF, the sentinel at the address 10 as well: the three functions return the
default 7. In the second one the cells hold the byte 0x80 except for the sentinel 0 at
the address 10: the three functions return the decoded values 128, -32640 and
-2139062144. -/
theorem readConfiguration_never_written_default_witness :
    ((∀ x, 0 ≤ EEPROM.read (fun _ => 0xff) x ∧ EEPROM.read (fun _ => 0xff) x ≤ 255) ∧
      EEPROM.read (fun _ => 0xff) 10 = 0xff ∧
      readConfigurationByte (fun _ => 0xff) 10 7 = 7 ∧
      readConfigurationInt (fun _ => 0xff) 10 7 = 7 ∧
      readConfigurationLong (fun _ => 0xff) 10 7 = 7) ∧
    ((∀ x, 0 ≤ EEPROM.read (fun a => if a = 10 then 0 else 0x80) x ∧
        EEPROM.read (fun a => if a = 10 then 0 else 0x80) x ≤ 255) ∧
      EEPROM.read (fun a => if a = 10 then 0 else 0x80) 10 ≠ 0xff ∧
      readConfigurationByte (fun a => if a = 10 then 0 else 0x80) 10 7 =
        EEPROM.read (fun a => if a = 10 then 0 else 0x80) (toInt16 (10 + 1)) ∧
      readConfigurationInt (fun a => if a = 10 then 0 else 0x80) 10 7 =
        toInt16 (EEPROM.read (fun a => if a = 10 then 0 else 0x80) (toInt16 (10 + 1)) +
          256 * EEPROM.read (fun a => if a = 10 then 0 else 0x80) (toInt16 (10 + 2))) ∧
      readConfigurationLong (fun a => if a = 10 then 0 else 0x80) 10 7 =
        toInt32 (EEPROM.read (fun a => if a = 10 then 0 else 0x80) (toInt16 (10 + 1)) +
          256 * EEPROM.read (fun a => if a = 10 then 0 else 0x80) (toInt16 (10 + 2)) +
          65536 * EEPROM.read (fun a => if a = 10 then 0 else 0x80) (toInt16 (10 + 3)) +
          16777216 *
            EEPROM.read (fun a => if a = 10 then 0 else 0x80) (toInt16 (10 + 4))) ∧
      readConfigurationByte (fun a => if a = 10 then 0 else 0x80) 10 7 = 128 ∧
      readConfigurationInt (fun a => if a = 10 then 0 else 0x80) 10 7 = -32640 ∧
      readConfigurationLong (fun a => if a = 10 then 0 else 0x80) 10 7 = -2139062144) :=
  ⟨⟨fun x => by unfold EEPROM.read; beta_reduce; decide, by decide,
      (readConfiguration_never_written_default (fun _ => 0xff) 10 7
        (fun x => by unfold EEPROM.read; beta_reduce; decide)).1 (by decide)⟩,
    ⟨fun x => by unfold EEPROM.read; beta_reduce; split_ifs <;> decide, by decide,
      ((readConfiguration_never_written_default (fun a => if a = 10 then 0 else 0x80) 10 7
        (fun x => by unfold EEPROM.read; beta_reduce; split_ifs <;> decide)).2
          (by decide)).1,
      ((readConfiguration_never_written_default (fun a => if a = 10 then 0 else 0x80) 10 7
        (fun x => by unfold EEPROM.read; beta_reduce; split_ifs <;> decide)).2
          (by decide)).2.1,
      ((readConfiguration_never_written_default (fun a => if a = 10 then 0 else 0x80) 10 7
        (fun x => by unfold EEPROM.read; beta_reduce; split_ifs <;> decide)).2
          (by decide)).2.2,
      by decide, by decide, by decide⟩⟩

/-- C36, the code at start times next to the wrap of the 32-bit clock. With the press of
Select first sampled at `s = 4294967290`, the sum `s + 30` of the timer test wraps to 24,
the test `now < s + 30` is false at `now = s + 1`, and Pushed is returned 1 ms after `s`.
In the same way Released is returned 1 ms after the release was first sampled. With the
start time `s = 4294967196` the sum `s + 30` does not wrap; at `now = 5`, after the clock
has wrapped and 105 ms after `s`, the test is still true and the poll returns no event. -/
theorem getButtonEvent_timer_test_at_wrap :
    pollEvents (buttonsInitialize ⟨0, 0, 0⟩)
        [(BUTTON_ID_SELECT, 4294967290), (BUTTON_ID_SELECT, 4294967291)] =
      [BUTTON_NO_EVENT, BUTTON_PUSHED_EVENT + BUTTON_ID_SELECT] ∧
    (4294967291 + 4294967296 - 4294967290) % 4294967296 = 1 ∧
    (4294967290 + BUTTON_DEBOUNCE_PERIOD) % 4294967296 = 24 ∧
    getButtonEvent ⟨CONFIRM_ALL_BUTTONS_UP_STATE, BUTTON_ID_SELECT, 4294967290⟩
        BUTTON_ID_NONE 4294967291 =
      (BUTTON_RELEASED_EVENT + BUTTON_ID_SELECT,
        ⟨WAITING_FOR_BUTTON_DOWN_STATE, BUTTON_ID_SELECT, 4294967290⟩) ∧
    getButtonEvent ⟨CONFIRM_BUTTON_DOWN_STATE, BUTTON_ID_SELECT, 4294967196⟩
        BUTTON_ID_SELECT 5 =
      (BUTTON_NO_EVENT, ⟨CONFIRM_BUTTON_DOWN_STATE, BUTTON_ID_SELECT, 4294967196⟩) ∧
    (5 + 4294967296 - 4294967196) % 4294967296 = 105 := by
  decide

/-- C37, the code at four states with 16-bit `min <= value <= max`, `step > 0` and a
16-bit repeat count. With the step 20000 and the count going from 15 to 16 the step size
wraps to -25536: Down at the value 0 of the slider 0..100 stores 25536, above the maximum,
and Up at the value 100 stores -25436, below the minimum. With the step 1 the sum wraps:
Down at the value -32768 of the slider -32768..0 stores 32767, and Up at the value 32767
of the slider 0..32767 stores -32768. -/
theorem sliderDown_sliderUp_leave_bounds :
    (sliderDown ⟨0, 100, 20000, 0, 15⟩).1.sliderDisplayValue = 25536 ∧
    (sliderUp ⟨0, 100, 20000, 100, 15⟩).1.sliderDisplayValue = -25436 ∧
    (sliderDown ⟨-32768, 0, 1, -32768, 0⟩).1.sliderDisplayValue = 32767 ∧
    (sliderUp ⟨0, 32767, 1, 32767, 0⟩).1.sliderDisplayValue = -32768 := by
  decide

/-- The needle at the ends of a range that fits the 16-bit `int`: the length 0 at
`value == min` and the length 77 at `value == max`. -/
lemma drawSliderNeedleLength_ends_of_fit (minValue maxValue step repeatCount : Int)
    (hlt : minValue < maxValue) (hfit : maxValue - minValue ≤ 32767) :
    drawSliderNeedleLength ⟨minValue, maxValue, step, minValue, repeatCount⟩ = some 0 ∧
    drawSliderNeedleLength ⟨minValue, maxValue, step, maxValue, repeatCount⟩ = some 77 := by
  obtain ⟨h1, -, -⟩ := drawSliderNeedleLength_of_fit
    ⟨minValue, maxValue, step, minValue, repeatCount⟩ hlt ⟨le_refl _, le_of_lt hlt⟩ hfit
  obtain ⟨h2, -, -⟩ := drawSliderNeedleLength_of_fit
    ⟨minValue, maxValue, step, maxValue, repeatCount⟩ hlt ⟨le_of_lt hlt, le_refl _⟩ hfit
  simp only [] at h1 h2
  rw [h1, h2]
  have hd : maxValue - minValue ≠ 0 := by omega
  constructor
  · simp
  · rw [Int.mul_ediv_cancel_left _ hd]

/-- C38, the code at the slider -20000..20000: the difference `max - min = 40000` of the
divisor is taken in the 16-bit `int` and is -25536. At `value == max` the quotient of
3080000 by -25536 is -120, which is 136 as a byte: the needle length is 136, not 77, and
the needle ends at the column 139, right of the frame. At the value 0 the needle length is
196. -/
theorem drawSliderNeedleLength_outside_frame :
    toInt16 ((20000 : Int) - (-20000)) = -25536 ∧
    drawSliderNeedleLength ⟨-20000, 20000, 1, 20000, 0⟩ = some 136 ∧
    SLIDER_NEEDLE_LEFT + 136 = 139 ∧ SLIDER_FRAME_RIGHT_X = 83 ∧
    drawSliderNeedleLength ⟨-20000, 20000, 1, 0, 0⟩ = some 196 ∧
    drawSliderNeedleLength ⟨-20000, 20000, 1, -20000, 0⟩ = some 0 := by
  decide

/-! ## Theorems: events that the menu loop ignores -/

/-- C35: the menu loop ignores all other events. For every cursor state and every byte
returned by `getButtonEvent` other than Down Pushed, Down Repeated, Up Pushed, Up
Repeated, Select Pushed and Back Pushed, a turn of the loop of `displayAndExecuteMenu`
leaves the cursor unchanged, has no effect (no menu action, nothing drawn) and does not
return; and so does a run of the loop over any number of such bytes. -/
theorem menuLoop_ignores_other_events (mem : MenuMemory) (s : MenuCursor)
    (events : List Nat)
    (hev : ∀ e ∈ events,
      e ≠ BUTTON_ID_DOWN + BUTTON_PUSHED_EVENT ∧ e ≠ BUTTON_ID_DOWN + BUTTON_REPEAT_EVENT ∧
      e ≠ BUTTON_ID_UP + BUTTON_PUSHED_EVENT ∧ e ≠ BUTTON_ID_UP + BUTTON_REPEAT_EVENT ∧
      e ≠ BUTTON_ID_SELECT + BUTTON_PUSHED_EVENT ∧ e ≠ BUTTON_ID_BACK + BUTTON_PUSHED_EVENT) :
    (∀ e ∈ events, menuLoopBody mem s e = some (s, false, [])) ∧
      menuLoop mem s events = some (s, false, []) := by
  have hstep : ∀ e ∈ events, menuLoopBody mem s e = some (s, false, []) := by
    intro e he
    obtain ⟨h1, h2, h3, h4, h5, h6⟩ := hev e he
    unfold menuLoopBody
    rw [if_neg (by rintro (h | h) <;> contradiction),
      if_neg (by rintro (h | h) <;> contradiction), if_neg h5, if_neg h6]
  refine ⟨hstep, ?_⟩
  induction events with
  | nil => rfl
  | cons e rest ih =>
    have h0 := hstep e (List.mem_cons_self _ _)
    have hrest := ih (fun x hx => hev x (List.mem_cons_of_mem _ hx))
      (fun x hx => hstep x (List.mem_cons_of_mem _ hx))
    simp [menuLoop, h0, hrest]

/-- C35 at the selected Command of the example application: no event, the four Released
events, Select Repeated and Back Repeated. -/
theorem menuLoop_ignores_other_events_witness :
    (∀ e ∈ [0, 129, 130, 131, 132, 193, 194],
      e ≠ BUTTON_ID_DOWN + BUTTON_PUSHED_EVENT ∧ e ≠ BUTTON_ID_DOWN + BUTTON_REPEAT_EVENT ∧
      e ≠ BUTTON_ID_UP + BUTTON_PUSHED_EVENT ∧ e ≠ BUTTON_ID_UP + BUTTON_REPEAT_EVENT ∧
      e ≠ BUTTON_ID_SELECT + BUTTON_PUSHED_EVENT ∧ e ≠ BUTTON_ID_BACK + BUTTON_PUSHED_EVENT) ∧
    ((∀ e ∈ [0, 129, 130, 131, 132, 193, 194],
        menuLoopBody exampleMenus ⟨some 0, 1, 1⟩ e = some (⟨some 0, 1, 1⟩, false, [])) ∧
      menuLoop exampleMenus ⟨some 0, 1, 1⟩ [0, 129, 130, 131, 132, 193, 194] =
        some (⟨some 0, 1, 1⟩, false, [])) :=
  ⟨by decide,
    menuLoop_ignores_other_events exampleMenus ⟨some 0, 1, 1⟩
      [0, 129, 130, 131, 132, 193, 194] (by decide)⟩

/-! ## Theorems: the page that `drawMenu` draws -/

/-- The rows that `drawMenuItem` draws for a real entry of a well-formed table: one row,
for the entry, selected exactly when the entry is the selected one. -/
lemma drawMenuItem_rows (mem : MenuMemory) (s : MenuCursor) (k : Nat)
    (t : List MENU_ITEM) (N idx line : Nat) (hs : s.currentMenuTable = some k)
    (hk : mem[k]? = some t) (ht : TableWF mem t N) (h1 : 1 ≤ idx) (hN : idx ≤ N) :
    ∃ row, drawMenuItem mem s idx line = some row ∧
      drawnRows row = [(idx, line, decide (idx = s.currentMenuItemIdx))] := by
  obtain ⟨_, _, _, hreal, _⟩ := ht
  obtain ⟨item, hitem, hty⟩ := hreal idx h1 hN
  unfold drawMenuItem
  rw [hs, readMenuItem_some mem k t idx hk, hitem]
  rcases hty with ⟨hty, _⟩ | ⟨hty, _⟩ | ⟨hty, hf⟩
  · simp [hty, drawnRows]
  · simp [hty, drawnRows]
  · obtain ⟨f, hf'⟩ := Option.ne_none_iff_exists'.mp hf
    simp [hty, hf', drawnRows]

lemma drawnRows_append (a b : List MenuEffect) :
    drawnRows (a ++ b) = drawnRows a ++ drawnRows b := by
  induction a with
  | nil => rfl
  | cons e a ih => cases e <;> simp [drawnRows, ih]

/-- The rows that the loop of `drawMenu` draws from the entry `idx` on the line `line`
with `n` lines left: the entries `idx, idx + 1, ...` on the lines `line, line + 1, ...`,
as many as there are lines left and real entries left. -/
lemma drawMenuLines_rows (mem : MenuMemory) (s : MenuCursor) (k : Nat)
    (t : List MENU_ITEM) (N : Nat) (hs : s.currentMenuTable = some k)
    (hk : mem[k]? = some t) (ht : TableWF mem t N) (n : Nat) :
    ∀ idx line, 1 ≤ idx → idx ≤ N + 1 →
      ∃ rows, drawMenuLines mem s n idx line = some rows ∧
        drawnRows rows = (List.range (min n (N + 1 - idx))).map
          (fun i => (idx + i, line + i, decide (idx + i = s.currentMenuItemIdx))) := by
  induction n with
  | zero =>
    intro idx line _ _
    exact ⟨[], rfl, by simp [drawnRows]⟩
  | succ n ih =>
    intro idx line h1 hN
    have ht' := ht
    obtain ⟨_, h255, _, hreal, ⟨e, he, hend⟩⟩ := ht'
    unfold drawMenuLines
    rw [hs, readMenuItem_some mem k t idx hk]
    by_cases hlast : idx = N + 1
    · rw [hlast, he]
      simp [hend, drawnRows]
    · have hN' : idx ≤ N := by omega
      obtain ⟨item, hitem, hty⟩ := hreal idx h1 hN'
      obtain ⟨row, hrow, hrowd⟩ := drawMenuItem_rows mem s k t N idx line hs hk ht h1 hN'
      have hnext : (idx + 1) % 256 = idx + 1 := Nat.mod_eq_of_lt (by omega)
      obtain ⟨rows, hrows, hrowsd⟩ := ih (idx + 1) (line + 1) (by omega) (by omega)
      have hne : item.MenuItemType ≠ 5 := by
        rcases hty with ⟨hty, _⟩ | ⟨hty, _⟩ | ⟨hty, _⟩ <;> simp [hty]
      refine ⟨row ++ rows, by simp [hitem, hne, hrow, hnext, hrows], ?_⟩
      have hmin : min (n + 1) (N + 1 - idx) = min n (N + 1 - (idx + 1)) + 1 := by omega
      rw [drawnRows_append, hrowd, hrowsd, hmin, List.range_succ_eq_map, List.map_cons,
        List.map_map]
      simp only [Nat.add_zero, List.singleton_append, List.cons.injEq, true_and]
      apply List.map_congr_left
      intro i _
      simp only [Function.comp, Nat.succ_eq_add_one]
      have e1 : idx + 1 + i = idx + (i + 1) := by omega
      have e2 : line + 1 + i = line + (i + 1) := by omega
      rw [e1, e2]

/-- Among the rows `a + i` for `i < m`, marked selected when `a + i = a + c`, the selected
ones: the row `a + c` alone when `c < m`, and none otherwise. -/
lemma filter_selected_rows (a c m : Nat) :
    ((List.range m).map (fun i => (a + i, i, decide (a + i = a + c)))).filter
        (fun r => r.2.2) =
      if c < m then [(a + c, c, true)] else [] := by
  induction m with
  | zero => simp
  | succ m ih =>
    rw [List.range_succ, List.map_append, List.filter_append, ih]
    by_cases h1 : c < m
    · have h2 : c < m + 1 := by omega
      have h3 : ¬ (m = c) := by omega
      simp [h1, h2, h3]
    · by_cases h4 : c = m
      · subst h4
        simp
      · have h2 : ¬ c < m + 1 := by omega
        have h3 : ¬ (m = c) := by omega
        simp [h1, h2, h3]

/-- C33: the page that `drawMenu` draws. For every cursor that satisfies the cursor
invariant on a well-formed table with `N` real entries, `drawMenu` is defined and draws
one row for each of the entries `topVisibleIndex .. min(topVisibleIndex + 3, N)`, in this
order, the entry `topVisibleIndex + i` on the display line `i`; the only row drawn as
selected is the row of the entry `selectedIndex`, on the line
`selectedIndex - topVisibleIndex`. -/
theorem drawMenu_page (mem : MenuMemory) (s : MenuCursor) (hs : CursorInv mem s) :
    ∃ k t N rows, s.currentMenuTable = some k ∧ mem[k]? = some t ∧ TableWF mem t N ∧
      drawMenu mem s = some rows ∧
      drawnRows rows =
        (List.range (min 4 (N + 1 - s.currentMenuTopLineItemIdx))).map
          (fun i => (s.currentMenuTopLineItemIdx + i, i,
            decide (s.currentMenuTopLineItemIdx + i = s.currentMenuItemIdx))) ∧
      s.currentMenuTopLineItemIdx + min 4 (N + 1 - s.currentMenuTopLineItemIdx) =
        min (s.currentMenuTopLineItemIdx + 3) N + 1 ∧
      (drawnRows rows).filter (fun r => r.2.2) =
        [(s.currentMenuItemIdx, s.currentMenuItemIdx - s.currentMenuTopLineItemIdx, true)] := by
  obtain ⟨k, t, N, hk, ht, hwf, h1, h2, h3, h4⟩ := hs
  simp only [MAX_MENU_ITEMS_TO_DISPLAY] at h2
  obtain ⟨rows, hrows, hd⟩ := drawMenuLines_rows mem s k t N hk ht hwf 4
    s.currentMenuTopLineItemIdx 0 h3 (by omega)
  simp only [Nat.zero_add] at hd
  refine ⟨k, t, N, rows, hk, ht, hwf, hrows, hd, by omega, ?_⟩
  have hsel : s.currentMenuItemIdx =
      s.currentMenuTopLineItemIdx + (s.currentMenuItemIdx - s.currentMenuTopLineItemIdx) := by
    omega
  rw [hd]
  have key := filter_selected_rows s.currentMenuTopLineItemIdx
    (s.currentMenuItemIdx - s.currentMenuTopLineItemIdx)
    (min 4 (N + 1 - s.currentMenuTopLineItemIdx))
  rw [← hsel, if_pos (by omega)] at key
  exact key

/-- C33 at the sub menu of the example application with the selection on its last
entry: the page shows the entries 2 to 5 and the row of the entry 5 is the selected one. -/
theorem drawMenu_page_witness :
    CursorInv exampleMenus ⟨some 1, 5, 2⟩ ∧
    ∃ k t N rows, (⟨some 1, 5, 2⟩ : MenuCursor).currentMenuTable = some k ∧
      exampleMenus[k]? = some t ∧ TableWF exampleMenus t N ∧
      drawMenu exampleMenus ⟨some 1, 5, 2⟩ = some rows ∧
      drawnRows rows =
        (List.range (min 4 (N + 1 - (⟨some 1, 5, 2⟩ : MenuCursor).currentMenuTopLineItemIdx))).map
          (fun i => ((⟨some 1, 5, 2⟩ : MenuCursor).currentMenuTopLineItemIdx + i, i,
            decide ((⟨some 1, 5, 2⟩ : MenuCursor).currentMenuTopLineItemIdx + i =
              (⟨some 1, 5, 2⟩ : MenuCursor).currentMenuItemIdx))) ∧
      (⟨some 1, 5, 2⟩ : MenuCursor).currentMenuTopLineItemIdx +
          min 4 (N + 1 - (⟨some 1, 5, 2⟩ : MenuCursor).currentMenuTopLineItemIdx) =
        min ((⟨some 1, 5, 2⟩ : MenuCursor).currentMenuTopLineItemIdx + 3) N + 1 ∧
      (drawnRows rows).filter (fun r => r.2.2) =
        [((⟨some 1, 5, 2⟩ : MenuCursor).currentMenuItemIdx,
          (⟨some 1, 5, 2⟩ : MenuCursor).currentMenuItemIdx -
            (⟨some 1, 5, 2⟩ : MenuCursor).currentMenuTopLineItemIdx, true)] :=
  ⟨⟨1, settingsMenu, 5, rfl, rfl, settingsMenu_wf, by decide, by decide, by decide,
      by decide⟩,
    drawMenu_page exampleMenus ⟨some 1, 5, 2⟩
      ⟨1, settingsMenu, 5, rfl, rfl, settingsMenu_wf, by decide, by decide, by decide,
        by decide⟩⟩

/-! ## Theorems: the reads of the menu tables -/

/-- The reads of the loop of `drawMenu` stay in the table when the loop starts on a real
entry or on the end-of-menu entry. -/
lemma drawMenuLinesReads_inBounds (mem : MenuMemory) (s : MenuCursor) (k : Nat)
    (t : List MENU_ITEM) (N : Nat) (hs : s.currentMenuTable = some k)
    (hk : mem[k]? = some t) (ht : TableWF mem t N) (n : Nat) :
    ∀ idx, 1 ≤ idx → idx ≤ N + 1 →
      ∀ r ∈ drawMenuLinesReads mem s n idx, ReadInBounds mem r := by
  induction n with
  | zero =>
    intro idx _ _ r hr
    simp [drawMenuLinesReads] at hr
  | succ n ih =>
    intro idx h1 hN r hr
    have ht' := ht
    obtain ⟨_, h255, _, hreal, ⟨e, he, hend⟩⟩ := ht'
    have hhere : ReadInBounds mem (some k, idx) := ⟨k, t, N, rfl, hk, ht, hN⟩
    unfold drawMenuLinesReads at hr
    rw [hs, readMenuItem_some mem k t idx hk] at hr
    by_cases hlast : idx = N + 1
    · rw [hlast, he] at hr
      simp only [hend, MENU_ITEM_TYPE_END_OF_MENU, if_true, List.mem_singleton] at hr
      rw [hr, ← hlast]
      exact hhere
    · have hN' : idx ≤ N := by omega
      obtain ⟨item, hitem, hty⟩ := hreal idx h1 hN'
      have hne : item.MenuItemType ≠ MENU_ITEM_TYPE_END_OF_MENU := by
        rcases hty with ⟨hty, _⟩ | ⟨hty, _⟩ | ⟨hty, _⟩ <;> simp [hty]
      have hnext : (idx + 1) % 256 = idx + 1 := Nat.mod_eq_of_lt (by omega)
      rw [hitem] at hr
      simp only [if_neg hne, drawMenuItemReads, hs, hnext, List.mem_cons, List.mem_append,
        List.mem_singleton, List.not_mem_nil, or_false] at hr
      rcases hr with hr | hr | hr
      · rw [hr]
        exact hhere
      · rw [hr]
        exact hhere
      · exact ih (idx + 1) (by omega) (by omega) r hr

/-- The reads of `selectAndDrawMenu` on a well-formed table stay in the table. -/
lemma selectAndDrawMenuReads_inBounds (mem : MenuMemory) (k : Nat) (t : List MENU_ITEM)
    (N : Nat) (hk : mem[k]? = some t) (ht : TableWF mem t N) :
    ∀ r ∈ selectAndDrawMenuReads mem (some k), ReadInBounds mem r := by
  intro r hr
  unfold selectAndDrawMenuReads drawMenuReads at hr
  rcases List.mem_append.1 hr with hr | hr
  · exact drawMenuLinesReads_inBounds mem _ k t N rfl hk ht _ 1 (le_refl _)
      (by have := ht.1; omega) r hr
  · rw [List.mem_singleton.1 hr]
    exact ⟨k, t, N, rfl, hk, ht, Nat.zero_le _⟩

/-- The reads of `selectAndDrawMenu` on a table of a well-formed memory. -/
lemma selectAndDrawMenuReads_of_memoryWF (mem : MenuMemory) (hmem : MemoryWF mem) (k : Nat)
    (hk : k < mem.length) :
    ∀ r ∈ selectAndDrawMenuReads mem (some k), ReadInBounds mem r := by
  have hget : mem[k]? = some mem[k] := List.getElem?_eq_getElem hk
  obtain ⟨N, hwf⟩ := hmem mem[k] (List.getElem_mem hk)
  exact selectAndDrawMenuReads_inBounds mem k mem[k] N hget hwf

/-- The reads of `executeMenuItem` stay in their tables. -/
lemma executeMenuItemReads_inBounds (mem : MenuMemory) (hmem : MemoryWF mem)
    (s : MenuCursor) (hs : CursorInv mem s) :
    ∀ r ∈ executeMenuItemReads mem s, ReadInBounds mem r := by
  obtain ⟨k, t, N, hk, ht, hwf, h1, h2, h3, h4⟩ := hs
  have hklt : k < mem.length := by
    rcases Nat.lt_or_ge k mem.length with h | h
    · exact h
    · rw [List.getElem?_eq_none h] at ht
      exact absurd ht (by simp)
  have hhere : ReadInBounds mem (some k, s.currentMenuItemIdx) :=
    ⟨k, t, N, rfl, ht, hwf, by omega⟩
  obtain ⟨item, hitem, hty⟩ := hwf.2.2.2.1 s.currentMenuItemIdx (by omega) h4
  intro r hr
  unfold executeMenuItemReads at hr
  rw [hk, readMenuItem_some mem k t _ ht, hitem] at hr
  rcases List.mem_cons.1 hr with hr | hr
  · rw [hr]
    exact hhere
  · rcases hty with ⟨hty, k', hsub, hk'⟩ | ⟨hty, hf⟩ | ⟨hty, hf⟩
    · simp only [hty, MENU_ITEM_TYPE_SUB_MENU, if_true, hsub] at hr
      exact selectAndDrawMenuReads_of_memoryWF mem hmem k' hk' r hr
    · simp only [hty, MENU_ITEM_TYPE_COMMAND, MENU_ITEM_TYPE_SUB_MENU, if_true] at hr
      rw [if_neg (by decide)] at hr
      exact selectAndDrawMenuReads_of_memoryWF mem hmem k hklt r hr
    · simp only [hty, MENU_ITEM_TYPE_TOGGLE, MENU_ITEM_TYPE_COMMAND, MENU_ITEM_TYPE_SUB_MENU,
        if_true, drawMenuItemReads, hk] at hr
      rw [if_neg (by decide), if_neg (by decide)] at hr
      rw [List.mem_singleton.1 hr]
      exact hhere

/-- The reads of one turn of the loop of `displayAndExecuteMenu` stay in their tables. -/
lemma menuLoopBodyReads_inBounds (mem : MenuMemory) (hmem : MemoryWF mem) (s : MenuCursor)
    (buttonEvent : Nat) (hs : CursorInv mem s) :
    ∀ r ∈ menuLoopBodyReads mem s buttonEvent, ReadInBounds mem r := by
  have hs' := hs
  obtain ⟨k, t, N, hk, ht, hwf, h1, h2, h3, h4⟩ := hs'
  simp only [MAX_MENU_ITEMS_TO_DISPLAY] at h2
  have hwf' := hwf
  obtain ⟨hN1, h255, ⟨header, hheader, hhty⟩, hreal, ⟨e, he, hend⟩⟩ := hwf'
  have hin : ∀ i, i ≤ N + 1 → ReadInBounds mem (some k, i) :=
    fun i hi => ⟨k, t, N, rfl, ht, hwf, hi⟩
  intro r hr
  unfold menuLoopBodyReads at hr
  by_cases hdown : buttonEvent = BUTTON_ID_DOWN + BUTTON_PUSHED_EVENT ∨
      buttonEvent = BUTTON_ID_DOWN + BUTTON_REPEAT_EVENT
  · rw [if_pos hdown] at hr
    have hnew : (s.currentMenuItemIdx + 1) % 256 = s.currentMenuItemIdx + 1 :=
      Nat.mod_eq_of_lt (by omega)
    simp only [hnew, hk, readMenuItem_some mem k t _ ht] at hr
    rcases List.mem_cons.1 hr with hr | hr
    · rw [hr]
      exact hin _ (by omega)
    · by_cases hlast : s.currentMenuItemIdx = N
      · rw [hlast, he] at hr
        simp [hend] at hr
      · obtain ⟨item, hitem, hty⟩ := hreal (s.currentMenuItemIdx + 1) (by omega) (by omega)
        have hne : item.MenuItemType ≠ MENU_ITEM_TYPE_END_OF_MENU := by
          rcases hty with ⟨hty, _⟩ | ⟨hty, _⟩ | ⟨hty, _⟩ <;> simp [hty]
        rw [hitem] at hr
        simp only [if_neg hne, drawMenuReads] at hr
        have htop : (s.currentMenuTopLineItemIdx + 1) % 256 =
            s.currentMenuTopLineItemIdx + 1 := Nat.mod_eq_of_lt (by omega)
        split_ifs at hr
        · exact drawMenuLinesReads_inBounds mem _ k t N rfl ht hwf _ _
            (by simp only [htop]; omega) (by simp only [htop]; omega) r hr
        · exact drawMenuLinesReads_inBounds mem _ k t N rfl ht hwf _ _
            (by simp only []; omega) (by simp only []; omega) r hr
  rw [if_neg hdown] at hr
  by_cases hup : buttonEvent = BUTTON_ID_UP + BUTTON_PUSHED_EVENT ∨
      buttonEvent = BUTTON_ID_UP + BUTTON_REPEAT_EVENT
  · rw [if_pos hup] at hr
    have hnew : (s.currentMenuItemIdx + 255) % 256 = s.currentMenuItemIdx - 1 := by omega
    simp only [hnew, drawMenuReads, hk] at hr
    by_cases hzero : s.currentMenuItemIdx - 1 = 0
    · rw [if_pos hzero] at hr
      cases hr
    · rw [if_neg hzero] at hr
      split_ifs at hr with hscroll
      · have htop : (s.currentMenuTopLineItemIdx + 255) % 256 =
            s.currentMenuTopLineItemIdx - 1 := by omega
        simp only [] at hscroll
        exact drawMenuLinesReads_inBounds mem _ k t N rfl ht hwf _ _
          (by simp only [htop]; omega) (by simp only [htop]; omega) r hr
      · exact drawMenuLinesReads_inBounds mem _ k t N rfl ht hwf _ _
          (by simp only []; omega) (by simp only []; omega) r hr
  rw [if_neg hup] at hr
  by_cases hsel : buttonEvent = BUTTON_ID_SELECT + BUTTON_PUSHED_EVENT
  · rw [if_pos hsel] at hr
    exact executeMenuItemReads_inBounds mem hmem s hs r hr
  rw [if_neg hsel] at hr
  by_cases hback : buttonEvent = BUTTON_ID_BACK + BUTTON_PUSHED_EVENT
  · rw [if_pos hback, hk, readMenuItem_some mem k t _ ht, hheader] at hr
    rcases List.mem_cons.1 hr with hr | hr
    · rw [hr]
      exact hin 0 (Nat.zero_le _)
    · rcases hhty with hmain | ⟨hsub, k', hparent, hk'⟩
      · simp [hmain] at hr
      · simp only [hsub, MENU_ITEM_TYPE_SUB_MENU_HEADER, if_true, hparent] at hr
        exact selectAndDrawMenuReads_of_memoryWF mem hmem k' hk' r hr
  · rw [if_neg hback] at hr
    cases hr

/-- The reads of the loop of `displayAndExecuteMenu` stay in their tables. -/
lemma menuLoopReads_inBounds (mem : MenuMemory) (hmem : MemoryWF mem) (events : List Nat) :
    ∀ s, CursorInv mem s → ∀ r ∈ menuLoopReads mem s events, ReadInBounds mem r := by
  induction events with
  | nil =>
    intro s _ r hr
    simp [menuLoopReads] at hr
  | cons ev rest ih =>
    intro s hs r hr
    obtain ⟨s1, r1, out1, h1, hinv1⟩ := menuLoopBody_inv mem hmem s ev hs
    unfold menuLoopReads at hr
    rw [h1] at hr
    rcases List.mem_append.1 hr with hr | hr
    · exact menuLoopBodyReads_inBounds mem hmem s ev hs r hr
    · cases r1 with
      | true => simp at hr
      | false => exact ih s1 hinv1 r hr

/-- C34: the reads of the menu tables stay in bounds. For every application whose menu
tables are all well-formed, every root table and every sequence of bytes returned by
`getButtonEvent`, every read that `displayAndExecuteMenu` makes of a menu table (in the
Down turn, in `executeMenuItem`, in the Back turn, in `selectAndDrawMenu`, `drawMenu` and
`drawMenuItem`) is a read of a well-formed table of the application at an index in
`0 .. N + 1`, where `N` is the number of real entries of that table and `N + 1` the index
of its end-of-menu entry. -/
theorem displayAndExecuteMenu_reads_in_bounds (mem : MenuMemory) (hmem : MemoryWF mem)
    (root : Nat) (hroot : root < mem.length) (events : List Nat) :
    ∀ r ∈ displayAndExecuteMenuReads mem (some root) events,
      ∃ k t N, r.1 = some k ∧ mem[k]? = some t ∧ TableWF mem t N ∧ r.2 ≤ N + 1 := by
  intro r hr
  obtain ⟨hinv0, out0, h0⟩ := selectAndDrawMenu_inv mem hmem root hroot
  unfold displayAndExecuteMenuReads at hr
  rw [h0] at hr
  rcases List.mem_append.1 hr with hr | hr
  · exact selectAndDrawMenuReads_of_memoryWF mem hmem root hroot r hr
  · exact menuLoopReads_inBounds mem hmem events _ hinv0 r hr

/-- C34 at the example application: Down three times to the SubMenu entry, Select into
the sub menu, Down five times to its last entry, Up, Select and Back. -/
theorem displayAndExecuteMenu_reads_in_bounds_witness :
    MemoryWF exampleMenus ∧ 0 < exampleMenus.length ∧
    ∀ r ∈ displayAndExecuteMenuReads exampleMenus (some 0)
        [68, 68, 196, 65, 68, 196, 196, 196, 196, 67, 65, 66],
      ∃ k t N, r.1 = some k ∧ exampleMenus[k]? = some t ∧ TableWF exampleMenus t N ∧
        r.2 ≤ N + 1 :=
  ⟨exampleMenus_wf, by decide,
    displayAndExecuteMenu_reads_in_bounds exampleMenus exampleMenus_wf 0 (by decide)
      [68, 68, 196, 65, 68, 196, 196, 196, 196, 67, 65, 66]⟩
end ArduinoUserInterface
